import Mathlib

/-!
# On-device model executor: session budget and sampling-parameter clamping

A shallow embedding of `services/on_device_model/ml/on_device_model_executor.cc`,
and of `PrunePreScopeNavigationHistory` of
`chrome/browser/ui/web_applications/web_app_launch_utils.cc`.

* `uint32_t` values are natural numbers; where C++ arithmetic can wrap the
  reduction modulo `2^32` is written out.
* `float` values are IEEE-754 binary32 values. Where they are compared they
  are given by their sign bit and the 31-bit exponent/fraction field; where
  they are computed with, in `CalculateTokensPerSecond`, they are the rational
  numbers they stand for, and each operation rounds to the nearest `float`.
* Callbacks are identified by natural-number tokens; a null callback is `none`.
* Calls that leave the translation unit (the native ChromeML API, the
  sequenced task runners, the session accessor) are recorded as events.
* A session accessor is held as its state; where it matters which accessor a
  pointer points to, the accessors are kept in a store (`byRef`).
-/

namespace ml

/-! ## Machine numbers -/

/-- The number of `uint32_t` values, `2^32`. -/
def kUint32Size : Nat := 4294967296

/-- The conversion `static_cast<uint32_t>(x)` of a signed `int`. -/
def static_cast_uint32 (x : Int) : Nat := (x % 4294967296).toNat

/-- An IEEE-754 binary32 value: the sign bit and the remaining 31 bits
(biased exponent and fraction) read as an unsigned integer. -/
structure F32 where
  sign : Bool
  mag : Nat
deriving DecidableEq, Repr

namespace F32

/-- The literal `0.0f`. -/
def zero : F32 := ⟨false, 0⟩

/-- The value `-0.0f`. -/
def negZero : F32 := ⟨true, 0⟩

/-- The value `-5.0f`, bit pattern `0xC0A00000`. -/
def negFive : F32 := ⟨true, 1084227584⟩

/-- The value `0.5f`, bit pattern `0x3F000000`. -/
def half : F32 := ⟨false, 1056964608⟩

/-- A NaN has all exponent bits set and a non-zero fraction: its 31-bit
field exceeds `0x7F800000`. -/
def isNaN (x : F32) : Bool := decide (2139095040 < x.mag)

/-- The comparison `a < b` on `float`. -/
def lt (a b : F32) : Bool :=
  if a.isNaN || b.isNaN then false
  else
    match a.sign, b.sign with
    | false, false => decide (a.mag < b.mag)
    | true, true => decide (b.mag < a.mag)
    | true, false => !(a.mag == 0 && b.mag == 0)
    | false, true => false

/-- The comparison `a == b` on `float`. -/
def feq (a b : F32) : Bool :=
  if a.isNaN || b.isNaN then false
  else (a.mag == 0 && b.mag == 0) || (a.sign == b.sign && a.mag == b.mag)

/-- The comparison `a >= b` on `float`. -/
def ge (a b : F32) : Bool := lt b a || feq a b

/-- The call `std::max(a, b)` on `float`: `(a < b) ? b : a`. -/
def std_max (a b : F32) : F32 := if lt a b then b else a

end F32

/-! ## Constants and feature parameters -/

/-- The constant `kReserveTokensForSafety`. -/
def kReserveTokensForSafety : Nat := 2

/-- The values read from `optimization_guide::features` and from the
`base::FeatureParam`s of the translation unit. They are configuration, fixed
outside this file, and are taken as parameters. -/
structure Features where
  /-- The `int` returned by `GetOnDeviceModelMaxTopK()`. -/
  GetOnDeviceModelMaxTopK : Int
  kPreferTextureWeights : Bool
  kEnableHostMappedPointer : Bool
  kUseLowPower : Bool
  kAllowFp16 : Bool

/-! ## Parameter clamping -/

/-- The function `GetTemperature`. -/
def GetTemperature (temperature : Option F32) : F32 :=
  F32.std_max F32.zero (temperature.getD F32.zero)

/-- The function `GetTopK`. -/
def GetTopK (features : Features) (top_k : Option Nat) : Nat :=
  min (static_cast_uint32 features.GetOnDeviceModelMaxTopK)
    (max 1 (top_k.getD 1))

/-! ## Requests, callbacks and events -/

/-- A `base::File`: `none` is an invalid file, `some h` a valid platform
file `h`. -/
abbrev File := Option Nat

/-- A bound `base::OnceClosure`, identified by a token. A nullable closure
is an `Option OnceClosure`. -/
abbrev OnceClosure := Nat

/-- A `ChromeMLCancelFn`: `none` is an empty `std::function`, `some c` a
bound cancel function identified by the token `c`. -/
abbrev ChromeMLCancelFn := Option Nat

/-- The mojom struct `InputOptions`. -/
structure InputOptions where
  text : String
  max_tokens : Option Nat
  top_k : Option Nat
  temperature : Option F32
  ignore_context : Bool
deriving DecidableEq, Repr

/-- Modelled from the spec: `SessionAccessor`, declared in
`services/on_device_model/ml/session_accessor.h`, which is not among the
sources. It is "a cloneable conversational state (accumulated prefix) bound
to a Model/Adaptation pair": the model handle, the adaptation weights it was
created with, and the inputs ingested so far. -/
structure SessionAccessor where
  model : Nat
  adaptation : Option File
  context : List InputOptions
deriving DecidableEq, Repr

namespace SessionAccessor

/-- Modelled from the spec: `SessionAccessor::Create`, a session with an
empty prefix on the model, with the adaptation weights when given. -/
def Create (model : Nat) (weights : Option File) : SessionAccessor :=
  { model := model, adaptation := weights, context := [] }

/-- Modelled from the spec: `SessionAccessor::Clone`, "clones observe the
context accumulated in the source session at clone time". -/
def Clone (self : SessionAccessor) : SessionAccessor := self

/-- Modelled from the spec: the effect of `SessionAccessor::Execute` on the
session it is called on, "asks the engine to ingest `input` into this
session's accumulated prefix". -/
def Execute (self : SessionAccessor) (input : InputOptions) : SessionAccessor :=
  { self with context := self.context ++ [input] }

end SessionAccessor

/-- The two sequenced task runners of the executor. -/
inductive TaskRunner where
  | task_runner_
  | model_task_runner_
deriving DecidableEq, Repr

/-- A task handed to `PostTask`. -/
inductive Task where
  /-- A caller-supplied closure. -/
  | closure (c : OnceClosure)
  /-- The bound call `DestroyModel(chrome_ml, model)`. -/
  | DestroyModel (model : Nat)
deriving DecidableEq, Repr

/-- The struct `ChromeMLModelData`. -/
structure ChromeMLModelData where
  weights_file : File
deriving DecidableEq, Repr

/-- The struct `ChromeMLModelDescriptor`, with the fields that `Init` sets. -/
structure ChromeMLModelDescriptor where
  model_data : ChromeMLModelData
  max_tokens : Nat
  temperature : F32
  top_k : Int
  adaptation_ranks : List Nat
  adaptation_ranks_size : Nat
  prefer_texture_weights : Bool
  enable_host_mapped_pointer : Bool
  use_low_power : Bool
  allow_fp16 : Bool
deriving DecidableEq, Repr

/-- The text-safety assets handed to `TsModel::Create`. -/
structure TsAssets where
  ts_data : File
  ts_sp_model : File
deriving DecidableEq, Repr

/-- The histograms the translation unit records to. -/
inductive HistogramName where
  /-- The histogram `OnDeviceModel.TokenCount.Output`. -/
  | TokenCount_Output
  /-- The histogram `OnDeviceModel.TokensPerSecond.Output`. -/
  | TokensPerSecond_Output
  /-- The histogram `OnDeviceModel.TokenCount.Context`. -/
  | TokenCount_Context
  /-- The histogram `OnDeviceModel.TokensPerSecond.Context`. -/
  | TokensPerSecond_Context
deriving DecidableEq, Repr

/-- The effects that leave the translation unit, in the order they happen. -/
inductive Event where
  /-- The call `session->Execute(input, output_fn, context_saved_fn)` on a
  session accessor in the given state; the two flags say which of the two
  callbacks is non-null. -/
  | SessionExecute (session : SessionAccessor) (input : InputOptions)
      (output_fn : Bool) (context_saved_fn : Bool)
  /-- A bound cancel function is invoked. -/
  | Cancel (fn : Nat)
  /-- A closure is run. -/
  | Run (c : OnceClosure)
  /-- The call `TsModel::Create`. -/
  | TsModelCreate (ts_assets : Option TsAssets) (language_detection_model : File)
  /-- The call `api().SessionCreateModel`. -/
  | SessionCreateModel (descriptor : ChromeMLModelDescriptor)
  /-- The call `runner->PostTask`. -/
  | PostTask (runner : TaskRunner) (task : Task)
  /-- A `SessionAccessor::Ptr` that held the given session is reset. -/
  | ReleaseSession (session : SessionAccessor)
  /-- The call `responder_->OnResponse(chunk)` on the remote
  `StreamingResponder`, with the text of the chunk. -/
  | OnResponse (responder : Nat) (text : String)
  /-- The call `responder_->OnComplete(summary)` on the remote
  `StreamingResponder`. -/
  | OnComplete (responder : Nat)
  /-- The call `client_->OnComplete(tokens_processed)` on the remote
  `ContextClient`, with the `uint32` that the method receives. -/
  | ClientOnComplete (client : Nat) (tokens_processed : Nat)
  /-- A sample recorded with `base::UmaHistogramCounts1000` or
  `base::UmaHistogramCounts10000`. -/
  | Histogram (name : HistogramName) (sample : Int)
  /-- The call `api().DestroyModel(model)`. -/
  | DestroyModel (model : Nat)
deriving DecidableEq, Repr

/-- The function `DestroyModel` of the anonymous namespace: its effects. -/
def DestroyModel (model : Nat) : List Event := [Event.DestroyModel model]

/-- What a posted task does when its runner runs it. -/
def Task.run : Task → List Event
  | Task.closure c => [Event.Run c]
  | Task.DestroyModel model => ml.DestroyModel model

/-- The native library and the text-safety model factory: what the
calls made by `Init` return. -/
structure ChromeML where
  /-- The handle returned by `api().SessionCreateModel`; `0` is the null
  handle. -/
  SessionCreateModel : ChromeMLModelDescriptor → Nat
  /-- Whether `TsModel::Create` returns a non-null model. -/
  TsModelCreate : Option TsAssets → File → Bool

/-! ## Responder and ContextHolder -/

/-- The value of the `float` expression
`(num_tokens / static_cast<float>(microseconds)) * base::Time::kMicrosecondsPerSecond`
converted to `int`, as a function of `num_tokens` and `microseconds`. The
control flow around the expression does not depend on its value, so the
functions that reach it take it as an argument; its value in binary32
arithmetic is `CalculateTokensPerSecond.rate`. -/
abbrev FloatRate := Int → Int → Int

/-- The function `CalculateTokensPerSecond`; `duration` is
`duration.InMicroseconds()`. -/
def CalculateTokensPerSecond (rate : FloatRate) (num_tokens : Int) (duration : Int) : Int :=
  if duration ≤ 0 then 0 else rate num_tokens duration

namespace binary32

/-- The integer nearest to a rational number, the even one of the two when
the number lies halfway between them. -/
def roundHalfEven (y : ℚ) : Int :=
  let f := ⌊y⌋
  if y - f < 1 / 2 then f
  else if 1 / 2 < y - f then f + 1
  else if f % 2 = 0 then f else f + 1

/-- The `float` nearest to a rational number, ties to even, the rounding
of IEEE-754 arithmetic in its default mode: what one `float` operation or
conversion returns for the exact result. A `float` has a significand of 24
bits, and below `2 ^ -126` its values stay `2 ^ -149` apart. Overflow to
infinity, from `2 ^ 128` on, is not represented. -/
def round (x : ℚ) : ℚ :=
  if x = 0 then 0
  else
    let e : Int := max (Int.log 2 |x| - 23) (-149)
    (roundHalfEven (x / (2 : ℚ) ^ e) : ℚ) * (2 : ℚ) ^ e

/-- The conversion of a `float` to `int`: the fractional part is dropped.
C++ leaves the conversion undefined when the result does not fit an `int`;
here it is the result all the same. -/
def toInt (x : ℚ) : Int := if 0 ≤ x then ⌊x⌋ else ⌈x⌉

end binary32

/-- The `float` expression of `CalculateTokensPerSecond` with its conversion
to the `int` returned. The `int` `num_tokens` and the `int64_t` constant
`kMicrosecondsPerSecond`, 1000000, are converted to `float` as the
microseconds are by the cast, and the quotient and the product are each
rounded to `float`. With an `int` and a positive `int64_t` no value here
reaches `2 ^ 128`. -/
def CalculateTokensPerSecond.rate : FloatRate := fun num_tokens microseconds =>
  binary32.toInt
    (binary32.round
      (binary32.round (binary32.round num_tokens / binary32.round microseconds) *
        binary32.round 1000000))

/-- The members of the class `Responder`. -/
structure Responder where
  /-- A `base::TimeTicks`; `0` is the null value `base::TimeTicks()`. -/
  first_token_time_ : Nat
  num_tokens_ : Int
  output_so_far_ : String
  /-- The remote `StreamingResponder`. -/
  responder_ : Nat
  cancel_ : ChromeMLCancelFn
  on_complete_ : Option OnceClosure
  session_ : Option SessionAccessor
deriving DecidableEq, Repr

namespace Responder

/-- The constructor `Responder::Responder`. -/
def new (responder : Nat) (on_complete : Option OnceClosure)
    (session : SessionAccessor) : Responder :=
  { first_token_time_ := 0, num_tokens_ := 0, output_so_far_ := "",
    responder_ := responder, cancel_ := none,
    on_complete_ := on_complete, session_ := some session }

/-- The assignment `session_ = nullptr`: a session that is held is
released. -/
def releaseSession (self : Responder) : List Event :=
  match self.session_ with
  | some s => [Event.ReleaseSession s]
  | none => []

/-- The method `Responder::Cancel`: the state afterwards and the effects. -/
def Cancel (self : Responder) : Responder × List Event :=
  let ev0 := self.releaseSession
  let self1 := { self with session_ := none }
  let ev1 : List Event :=
    match self1.cancel_ with
    | some fn => [Event.Cancel fn]
    | none => []
  match self1.on_complete_ with
  | some c => ({ self1 with on_complete_ := none }, ev0 ++ ev1 ++ [Event.Run c])
  | none => (self1, ev0 ++ ev1)

/-- The destructor `Responder::~Responder`: it calls `Cancel`. -/
def destroy (self : Responder) : List Event := (Cancel self).2

/-- The method `Responder::OnOutput`, with `now` the value of
`base::TimeTicks::Now()`: the state afterwards and the effects. The counter
`num_tokens_` is an `int`; it is not taken to `2^31`. -/
def OnOutput (self : Responder) (rate : FloatRate) (text : Option String)
    (now : Nat) : Responder × List Event :=
  match text with
  | some t =>
    let self1 := { self with num_tokens_ := self.num_tokens_ + 1 }
    let self2 := { self1 with output_so_far_ := self1.output_so_far_ ++ t }
    let self3 :=
      if self2.first_token_time_ = 0 then { self2 with first_token_time_ := now }
      else self2
    (self3, [Event.OnResponse self3.responder_ t])
  | none =>
    let ev0 := self.releaseSession
    let self1 := { self with session_ := none }
    let ev1 : List Event :=
      [Event.Histogram HistogramName.TokenCount_Output self1.num_tokens_]
    let ev2 : List Event :=
      if self1.num_tokens_ > (1 : Int) then
        [Event.Histogram HistogramName.TokensPerSecond_Output
          (CalculateTokensPerSecond rate (self1.num_tokens_ - 1)
            ((now : Int) - (self1.first_token_time_ : Int)))]
      else []
    let ev3 : List Event := [Event.OnComplete self1.responder_]
    match self1.on_complete_ with
    | some c =>
      ({ self1 with on_complete_ := none }, ev0 ++ ev1 ++ ev2 ++ ev3 ++ [Event.Run c])
    | none => (self1, ev0 ++ ev1 ++ ev2 ++ ev3)

end Responder

/-- The enum `ChromeMLExecutionStatus`. -/
inductive ChromeMLExecutionStatus where
  | kInProgress
  | kComplete
deriving DecidableEq, Repr

/-- The struct `ChromeMLExecutionOutput`; `text` is a `const char*`, `none`
the null pointer. -/
structure ChromeMLExecutionOutput where
  status : ChromeMLExecutionStatus
  text : Option String
deriving DecidableEq, Repr

namespace Responder

/-- The function that `Responder::CreateOutputFn` returns, up to the task
it posts: the argument `text` of the posted `OnOutput` call; `none` is a
failed `CHECK` or, when `dcheck_is_on`, a failed `DCHECK`. -/
def CreateOutputFn (dcheck_is_on : Bool) (output : ChromeMLExecutionOutput) :
    Option (Option String) :=
  match output.status with
  | ChromeMLExecutionStatus.kInProgress =>
    match output.text with
    | none => none
    | some t => some (some t)
  | ChromeMLExecutionStatus.kComplete =>
    if dcheck_is_on && output.text.isSome then none else some none

/-- An engine output reaches a live Responder: the output function converts
it and the posted task calls `OnOutput` at time `now`; `none` is a failed
check. -/
def deliver (self : Responder) (rate : FloatRate) (dcheck_is_on : Bool)
    (output : ChromeMLExecutionOutput) (now : Nat) : Option (Responder × List Event) :=
  match CreateOutputFn dcheck_is_on output with
  | none => none
  | some text => some (self.OnOutput rate text now)

end Responder

/-- What can reach a live Responder: a posted output callback, with the
text (`none` is the end of the output) and the time it runs at, and the
disconnect of the remote, whose handler is `Cancel`. -/
inductive ResponderEvent where
  | output (text : Option String) (now : Nat)
  | disconnect
deriving DecidableEq, Repr

namespace Responder

/-- One event on a live Responder. -/
def handle (rate : FloatRate) (self : Responder) : ResponderEvent → Responder × List Event
  | ResponderEvent.output text now => self.OnOutput rate text now
  | ResponderEvent.disconnect => self.Cancel

/-- A sequence of events on a live Responder: the state afterwards and the
effects, in order. -/
def run (rate : FloatRate) (self : Responder) : List ResponderEvent → Responder × List Event
  | [] => (self, [])
  | ev :: evs =>
    let r := handle rate self ev
    let rs := run rate r.1 evs
    (rs.1, r.2 ++ rs.2)

/-- The effects of a Responder over its whole life: a sequence of events,
then its destruction. -/
def lifetime (rate : FloatRate) (self : Responder) (evs : List ResponderEvent) :
    List Event :=
  (run rate self evs).2 ++ (run rate self evs).1.destroy

end Responder

/-- The members of the class `ContextHolder`. -/
structure ContextHolder where
  /-- The construction time of the `base::ElapsedTimer`. -/
  timer_ : Nat
  /-- The remote `ContextClient`; `none` is an unbound remote. -/
  client_ : Option Nat
  /-- Whether `on_disconnect_` is non-null. -/
  on_disconnect_ : Bool
  cancel_ : ChromeMLCancelFn
  on_complete_ : Option OnceClosure
deriving DecidableEq, Repr

namespace ContextHolder

/-- The constructor `ContextHolder::ContextHolder`, with a bound
`on_disconnect` callback. -/
def new (now : Nat) (client : Option Nat) (on_complete : Option OnceClosure) :
    ContextHolder :=
  { timer_ := now, client_ := client, on_disconnect_ := true, cancel_ := none,
    on_complete_ := on_complete }

/-- The destructor `ContextHolder::~ContextHolder`: its effects. -/
def destroy (self : ContextHolder) : List Event :=
  (match self.cancel_ with
    | some fn => [Event.Cancel fn]
    | none => []) ++
  (match self.on_complete_ with
    | some c => [Event.Run c]
    | none => [])

/-- The method `ContextHolder::OnDisconnect`: the holder afterwards and
whether `on_disconnect_` was run with the holder as argument. -/
def OnDisconnect (self : ContextHolder) : ContextHolder × Bool :=
  if self.on_disconnect_ then ({ self with on_disconnect_ := false }, true)
  else (self, false)

/-- The method `ContextHolder::OnComplete`, with `now` the current time: the
holder afterwards, the effects, and whether `on_disconnect_` was run with
the holder as argument. `tokens_processed` is an `int`; the parameter of
`ContextClient::OnComplete` is a `uint32`, so the call converts it. -/
def OnComplete (self : ContextHolder) (rate : FloatRate) (tokens_processed : Int)
    (now : Nat) : ContextHolder × List Event × Bool :=
  let ev1 : List Event :=
    if tokens_processed > 0 then
      [Event.Histogram HistogramName.TokenCount_Context tokens_processed,
       Event.Histogram HistogramName.TokensPerSecond_Context
        (CalculateTokensPerSecond rate tokens_processed
          ((now : Int) - (self.timer_ : Int)))]
    else []
  let ev2 : List Event :=
    match self.client_ with
    | some client => [Event.ClientOnComplete client (static_cast_uint32 tokens_processed)]
    | none => []
  let ev3 : List Event :=
    match self.on_complete_ with
    | some c => [Event.Run c]
    | none => []
  let self1 := { self with on_complete_ := none }
  let r := self1.OnDisconnect
  (r.1, ev1 ++ ev2 ++ ev3, r.2)

end ContextHolder

/-! ## SessionImpl -/

/-- The members of the class `SessionImpl`. -/
structure SessionImpl where
  model_ : Nat
  session_ : SessionAccessor
  empty_session_ : SessionAccessor
  max_tokens_ : Nat
  /-- The `std::unique_ptr<Responder>`; `none` is a null pointer. -/
  responder_ : Option Responder
  context_holders_ : List ContextHolder
  adaptation_id_ : Option Nat
deriving DecidableEq, Repr

namespace SessionImpl

/-- The constructor `SessionImpl::SessionImpl`. -/
def new (model : Nat) (session empty_session : SessionAccessor)
    (max_tokens : Nat) (adaptation_id : Option Nat) : SessionImpl :=
  { model_ := model, session_ := session, empty_session_ := empty_session,
    max_tokens_ := max_tokens, responder_ := none, context_holders_ := [],
    adaptation_id_ := adaptation_id }

/-- The method `SessionImpl::AddContext`. `engine_cancel` is the cancel
function that `session_->Execute` returns and `now` the current time. The
result is the session afterwards and the effects. -/
def AddContext (self : SessionImpl) (features : Features)
    (input : InputOptions) (client : Option Nat)
    (on_complete : Option OnceClosure) (engine_cancel : ChromeMLCancelFn)
    (now : Nat) : SessionImpl × List Event :=
  let context_holder := ContextHolder.new now client on_complete
  let input1 := { input with
    max_tokens := some (min (input.max_tokens.getD self.max_tokens_) self.max_tokens_) }
  let input2 := { input1 with top_k := some (GetTopK features input1.top_k) }
  let input3 := { input2 with
    temperature := some (GetTemperature input2.temperature) }
  let context_holder1 := { context_holder with cancel_ := engine_cancel }
  ({ self with
       session_ := self.session_.Execute input3,
       context_holders_ := self.context_holders_ ++ [context_holder1] },
   [Event.SessionExecute self.session_ input3 false true])

/-- The method `SessionImpl::Execute`. `engine_cancel` is the cancel function
that `cloned_raw->Execute` returns. Assigning `responder_` destroys the
Responder held before. The result is the session afterwards and the
effects. -/
def Execute (self : SessionImpl) (features : Features)
    (input : InputOptions) (response : Nat)
    (on_complete : Option OnceClosure) (engine_cancel : ChromeMLCancelFn) :
    SessionImpl × List Event :=
  let cloned :=
    if input.ignore_context then self.empty_session_.Clone else self.session_.Clone
  let responder := Responder.new response on_complete cloned
  let dropped : List Event :=
    match self.responder_ with
    | some old => old.destroy
    | none => []
  let input1 := { input with
    max_tokens := some (min (input.max_tokens.getD self.max_tokens_) self.max_tokens_) }
  let input2 := { input1 with top_k := some (GetTopK features input1.top_k) }
  let input3 := { input2 with
    temperature := some (GetTemperature input2.temperature) }
  let responder1 := { responder with
    cancel_ := engine_cancel, session_ := some (cloned.Execute input3) }
  ({ self with responder_ := some responder1 },
   dropped ++ [Event.SessionExecute cloned input3 true false])

/-- The method `SessionImpl::Clone`. -/
def Clone (self : SessionImpl) : SessionImpl :=
  SessionImpl.new self.model_ self.session_.Clone self.empty_session_.Clone
    self.max_tokens_ self.adaptation_id_

/-- The method `SessionImpl::RemoveContext`. The holder, a pointer in the
source, is given by its position in `context_holders_`; erasing it destroys
it. The result is the session afterwards and the effects. -/
def RemoveContext (self : SessionImpl) (context : Nat) : SessionImpl × List Event :=
  match self.context_holders_.get? context with
  | some holder =>
    ({ self with context_holders_ := self.context_holders_.eraseIdx context },
     holder.destroy)
  | none => (self, [])

/-- The callback made by `CreateContextSavedFn` for the holder at position
`context` is delivered: `ContextHolder::OnComplete` runs on the holder, and
`on_disconnect_`, bound to `RemoveContext`, removes it. A holder that is no
longer there receives nothing. -/
def contextSaved (self : SessionImpl) (rate : FloatRate) (context : Nat)
    (tokens_processed : Int) (now : Nat) : SessionImpl × List Event :=
  match self.context_holders_.get? context with
  | none => (self, [])
  | some holder =>
    let r := holder.OnComplete rate tokens_processed now
    let self1 := { self with context_holders_ := self.context_holders_.set context r.1 }
    if r.2.2 then
      let removed := self1.RemoveContext context
      (removed.1, r.2.1 ++ removed.2)
    else (self1, r.2.1)

/-- The remote `ContextClient` of the holder at position `context`
disconnects: the handler, set only when `client_` is bound, is
`ContextHolder::OnDisconnect`, and `on_disconnect_` removes the holder. -/
def clientDisconnected (self : SessionImpl) (context : Nat) : SessionImpl × List Event :=
  match self.context_holders_.get? context with
  | none => (self, [])
  | some holder =>
    if holder.client_.isSome then
      let r := holder.OnDisconnect
      let self1 := { self with context_holders_ := self.context_holders_.set context r.1 }
      if r.2 then self1.RemoveContext context else (self1, [])
    else (self, [])

/-- The destructor `SessionImpl::~SessionImpl`: the members are destroyed in
the reverse order of their declaration, the holders of the set in list
order. -/
def destroy (self : SessionImpl) : List Event :=
  (self.context_holders_.map ContextHolder.destroy).flatten ++
  (match self.responder_ with
    | some responder => responder.destroy
    | none => []) ++
  [Event.ReleaseSession self.empty_session_, Event.ReleaseSession self.session_]

end SessionImpl

/-- The closures run, in order. -/
def closuresRun : List Event → List OnceClosure
  | [] => []
  | Event.Run c :: rest => c :: closuresRun rest
  | _ :: rest => closuresRun rest

/-- The cancel functions invoked, in order. -/
def cancelsInvoked : List Event → List Nat
  | [] => []
  | Event.Cancel fn :: rest => fn :: cancelsInvoked rest
  | _ :: rest => cancelsInvoked rest

/-- The calls on the remote `StreamingResponder`, in order. -/
def sinkEvents : List Event → List Event
  | [] => []
  | Event.OnResponse responder text :: rest =>
    Event.OnResponse responder text :: sinkEvents rest
  | Event.OnComplete responder :: rest => Event.OnComplete responder :: sinkEvents rest
  | _ :: rest => sinkEvents rest

/-- The calls `client_->OnComplete` on remote `ContextClient`s, in order:
the client and the argument. -/
def clientReports : List Event → List (Nat × Nat)
  | [] => []
  | Event.ClientOnComplete client tokens_processed :: rest =>
    (client, tokens_processed) :: clientReports rest
  | _ :: rest => clientReports rest

/-- The histogram samples recorded, in order. -/
def histograms : List Event → List (HistogramName × Int)
  | [] => []
  | Event.Histogram name sample :: rest => (name, sample) :: histograms rest
  | _ :: rest => histograms rest

/-- The calls `SessionAccessor::Execute` that ask for generation, that is
with an output function: the session they are made on and the input. -/
def generationRequests : List Event → List (SessionAccessor × InputOptions)
  | [] => []
  | Event.SessionExecute session input true _ :: rest =>
    (session, input) :: generationRequests rest
  | _ :: rest => generationRequests rest

/-- The calls `SessionAccessor::Execute` that ask for context ingestion,
that is with a context-saved function: the session they are made on and the
input. -/
def contextRequests : List Event → List (SessionAccessor × InputOptions)
  | [] => []
  | Event.SessionExecute session input _ true :: rest =>
    (session, input) :: contextRequests rest
  | _ :: rest => contextRequests rest

/-- The call on the remote `StreamingResponder` that corresponds to an
event on a Responder: a chunk for an output with text, the completion
record for the end of the output, none for a disconnect. -/
def ResponderEvent.sinkCall (responder : Nat) : ResponderEvent → Option Event
  | ResponderEvent.output (some t) _ => some (Event.OnResponse responder t)
  | ResponderEvent.output none _ => some (Event.OnComplete responder)
  | ResponderEvent.disconnect => none

/-- Whether an event on a Responder is an output with text. -/
def ResponderEvent.isText : ResponderEvent → Bool
  | ResponderEvent.output (some _) _ => true
  | _ => false

/-- Whether an event on a Responder is the end of the output. -/
def ResponderEvent.isEnd : ResponderEvent → Bool
  | ResponderEvent.output none _ => true
  | _ => false

/-- The tasks posted, in order, with the runner they are posted to. -/
def postedTasks : List Event → List (TaskRunner × Task)
  | [] => []
  | Event.PostTask runner task :: rest => (runner, task) :: postedTasks rest
  | _ :: rest => postedTasks rest

/-- The calls into the native model API that a function makes itself, on
the sequence it is called on: `SessionCreateModel` and `DestroyModel`. -/
def nativeCalls : List Event → List Event
  | [] => []
  | Event.SessionCreateModel descriptor :: rest =>
    Event.SessionCreateModel descriptor :: nativeCalls rest
  | Event.DestroyModel model :: rest => Event.DestroyModel model :: nativeCalls rest
  | _ :: rest => nativeCalls rest

/-- What happens to a session between its creation and its destruction:
the two client calls and, for the holder at a position of
`context_holders_`, the engine's context-saved callback and the disconnect
of its client. -/
inductive SessionOp where
  | AddContext (input : InputOptions) (client : Option Nat)
      (on_complete : Option OnceClosure) (engine_cancel : ChromeMLCancelFn) (now : Nat)
  | Execute (input : InputOptions) (response : Nat) (on_complete : Option OnceClosure)
      (engine_cancel : ChromeMLCancelFn)
  | contextSaved (context : Nat) (tokens_processed : Int) (now : Nat)
  | clientDisconnected (context : Nat)

namespace SessionImpl

/-- One operation on a session: the session afterwards and the effects. -/
def apply (self : SessionImpl) (features : Features) (rate : FloatRate) :
    SessionOp → SessionImpl × List Event
  | SessionOp.AddContext input client on_complete engine_cancel now =>
    self.AddContext features input client on_complete engine_cancel now
  | SessionOp.Execute input response on_complete engine_cancel =>
    self.Execute features input response on_complete engine_cancel
  | SessionOp.contextSaved context tokens_processed now =>
    self.contextSaved rate context tokens_processed now
  | SessionOp.clientDisconnected context => self.clientDisconnected context

/-- A sequence of operations on a session: the session afterwards and the
effects, in order. -/
def runOps (self : SessionImpl) (features : Features) (rate : FloatRate) :
    List SessionOp → SessionImpl × List Event
  | [] => (self, [])
  | op :: ops =>
    let r := self.apply features rate op
    let rs := runOps r.1 features rate ops
    (rs.1, r.2 ++ rs.2)

end SessionImpl

/-- The inputs that `SessionAccessor::Execute` received, in order: the
requests handed to the engine. -/
def engineInputs : List Event → List InputOptions
  | [] => []
  | Event.SessionExecute _ input _ _ :: rest => input :: engineInputs rest
  | _ :: rest => engineInputs rest

/-! ## OnDeviceModelExecutor -/

/-- The enum `LoadModelResult`, with the two values the executor returns. -/
inductive LoadModelResult where
  | kSuccess
  | kFailedToLoadLibrary
deriving DecidableEq, Repr

/-- The struct `ModelAssets`. -/
structure ModelAssets where
  weights : File
  ts_data : File
  ts_sp_model : File
  language_detection_model : File
deriving DecidableEq, Repr

/-- The mojom struct `LoadModelParams`. -/
structure LoadModelParams where
  assets : ModelAssets
  max_tokens : Nat
  adaptation_ranks : List Nat
deriving DecidableEq, Repr

/-- The struct `AdaptationAssets`. -/
structure AdaptationAssets where
  weights : File
deriving DecidableEq, Repr

/-- The mojom struct `LoadAdaptationParams`. -/
structure LoadAdaptationParams where
  assets : AdaptationAssets
deriving DecidableEq, Repr

/-- The map `base_sessions_`, from an optional adaptation id to the session
accessor created for it, as an association list with distinct keys. -/
abbrev SessionMap := List (Option Nat × SessionAccessor)

/-- The call `base_sessions_.find(key)`; `none` is `end()`. -/
def SessionMap.find (m : SessionMap) (key : Option Nat) : Option SessionAccessor :=
  m.lookup key

/-- The call `base_sessions_.insert` of a key and a value: a key that is
present keeps its value. -/
def SessionMap.insert (m : SessionMap) (key : Option Nat)
    (value : SessionAccessor) : SessionMap :=
  match m.lookup key with
  | some _ => m
  | none => m ++ [(key, value)]

/-- The members of the class `OnDeviceModelExecutor` that the methods below
use. -/
structure OnDeviceModelExecutor where
  /-- Whether `ts_model_` is non-null. -/
  ts_model_ : Bool
  /-- The `ChromeMLModel` handle; `0` is no model. -/
  model_ : Nat
  max_tokens_ : Nat
  base_sessions_ : SessionMap
deriving DecidableEq, Repr

namespace OnDeviceModelExecutor

/-- The constructor `OnDeviceModelExecutor::OnDeviceModelExecutor`: no
text-safety model, no model (the destructor tests `model_ != 0`), no
sessions. -/
def new : OnDeviceModelExecutor :=
  { ts_model_ := false, model_ := 0, max_tokens_ := 0, base_sessions_ := [] }

/-- The text-safety assets `ts_assets` that `Init` builds: non-null when
`assets.ts_data.IsValid()`. -/
def Init.ts_assets (params : LoadModelParams) : Option TsAssets :=
  if params.assets.ts_data.isSome then
    some { ts_data := params.assets.ts_data, ts_sp_model := params.assets.ts_sp_model }
  else none

/-- The `ChromeMLModelDescriptor` that `Init` builds, given the value of the
member `max_tokens_`. -/
def Init.descriptor (features : Features) (params : LoadModelParams)
    (max_tokens_ : Nat) : ChromeMLModelDescriptor :=
  { model_data := { weights_file := params.assets.weights },
    max_tokens := max_tokens_,
    temperature := F32.zero,
    top_k := features.GetOnDeviceModelMaxTopK,
    adaptation_ranks := params.adaptation_ranks,
    adaptation_ranks_size := params.adaptation_ranks.length,
    prefer_texture_weights := features.kPreferTextureWeights,
    enable_host_mapped_pointer := features.kEnableHostMappedPointer,
    use_low_power := features.kUseLowPower,
    allow_fp16 := features.kAllowFp16 }

/-- The part of `Init` from the assignment to `max_tokens_` to the end:
the model-creation step. -/
def Init.load (self : OnDeviceModelExecutor) (chrome_ml : ChromeML)
    (features : Features) (params : LoadModelParams)
    (on_complete : OnceClosure) :
    LoadModelResult × OnDeviceModelExecutor × List Event :=
  let self1 := { self with
    max_tokens_ := max params.max_tokens kReserveTokensForSafety }
  let descriptor := Init.descriptor features params self1.max_tokens_
  let self2 := { self1 with model_ := chrome_ml.SessionCreateModel descriptor }
  let self3 :=
    if self2.model_ ≠ 0 then
      { self2 with
        base_sessions_ :=
          self2.base_sessions_.insert none (SessionAccessor.Create self2.model_ none) }
    else self2
  (if self3.model_ ≠ 0 then LoadModelResult.kSuccess
     else LoadModelResult.kFailedToLoadLibrary,
   self3,
   [Event.SessionCreateModel descriptor,
    Event.PostTask TaskRunner.model_task_runner_ (Task.closure on_complete)])

/-- The method `OnDeviceModelExecutor::Init`: the result, the executor
afterwards and the effects. -/
def Init (self : OnDeviceModelExecutor) (chrome_ml : ChromeML)
    (features : Features) (params : LoadModelParams)
    (on_complete : OnceClosure) :
    LoadModelResult × OnDeviceModelExecutor × List Event :=
  let ts_assets := Init.ts_assets params
  if ts_assets.isSome || params.assets.language_detection_model.isSome then
    let self1 := { self with
      ts_model_ :=
        chrome_ml.TsModelCreate ts_assets params.assets.language_detection_model }
    let created := Event.TsModelCreate ts_assets params.assets.language_detection_model
    if !self1.ts_model_ then
      (LoadModelResult.kFailedToLoadLibrary, self1, [created])
    else
      let r := Init.load self1 chrome_ml features params on_complete
      (r.1, r.2.1, created :: r.2.2)
  else
    Init.load self chrome_ml features params on_complete

/-- The static method `OnDeviceModelExecutor::CreateWithResult`: the
`base::expected` it returns and the effects. -/
def CreateWithResult (chrome_ml : ChromeML) (features : Features)
    (params : LoadModelParams) (on_complete : OnceClosure) :
    Except LoadModelResult OnDeviceModelExecutor × List Event :=
  let executor := OnDeviceModelExecutor.new
  let r := executor.Init chrome_ml features params on_complete
  let load_model_result := r.1
  if load_model_result = LoadModelResult.kSuccess then
    (Except.ok r.2.1, r.2.2)
  else
    (Except.error load_model_result, r.2.2)

/-- The method `OnDeviceModelExecutor::CreateSession`; `none` is the failed
`CHECK`, which ends the process. The subtraction is on `uint32_t`. -/
def CreateSession (self : OnDeviceModelExecutor) (adaptation_id : Option Nat) :
    Option SessionImpl :=
  match self.base_sessions_.find adaptation_id with
  | none => none
  | some it =>
    some (SessionImpl.new self.model_ it.Clone it.Clone
      ((self.max_tokens_ + kUint32Size - kReserveTokensForSafety) % kUint32Size)
      adaptation_id)

/-- The method `OnDeviceModelExecutor::LoadAdaptation`. `next_id` is the
function-local `static uint32_t next_id`, which lives as long as the
process; the result is the returned value, the value of the static
afterwards, the executor afterwards and the effects. -/
def LoadAdaptation (next_id : Nat) (self : OnDeviceModelExecutor)
    (params : LoadAdaptationParams) (on_complete : OnceClosure) :
    Except LoadModelResult Nat × Nat × OnDeviceModelExecutor × List Event :=
  let assets := params.assets
  let self1 := { self with
    base_sessions_ :=
      self.base_sessions_.insert (some next_id)
        (SessionAccessor.Create self.model_ (some assets.weights)) }
  (Except.ok next_id, (next_id + 1) % kUint32Size, self1,
   [Event.PostTask TaskRunner.model_task_runner_ (Task.closure on_complete)])

/-- The destructor `OnDeviceModelExecutor::~OnDeviceModelExecutor`: the
effects of its body, then the release of the sessions that the member
`base_sessions_` holds. -/
def destroy (self : OnDeviceModelExecutor) : List Event :=
  (if self.model_ ≠ 0 then
    [Event.PostTask TaskRunner.model_task_runner_ (Task.DestroyModel self.model_)]
   else []) ++
  self.base_sessions_.map (fun entry => Event.ReleaseSession entry.2)

end OnDeviceModelExecutor

/-! ## Sessions and executors that a client can hold -/

/-- The executors that `LoadAdaptation` calls lead to from `e0`, whatever
the value of the static counter at each call. -/
inductive ExecutorReachable (e0 : OnDeviceModelExecutor) :
    OnDeviceModelExecutor → Prop where
  | start : ExecutorReachable e0 e0
  | load (e : OnDeviceModelExecutor) (next_id : Nat)
      (params : LoadAdaptationParams) (on_complete : OnceClosure) :
      ExecutorReachable e0 e →
      ExecutorReachable e0 (e.LoadAdaptation next_id params on_complete).2.2.1

/-- The executors that `LoadAdaptation` calls lead to from `e0`, with the
ids those calls returned, in order. -/
inductive LoadedIds (e0 : OnDeviceModelExecutor) :
    OnDeviceModelExecutor → List Nat → Prop where
  | start : LoadedIds e0 e0 []
  | load (e : OnDeviceModelExecutor) (ids : List Nat) (next_id : Nat)
      (params : LoadAdaptationParams) (on_complete : OnceClosure) :
      LoadedIds e0 e ids →
      LoadedIds e0 (e.LoadAdaptation next_id params on_complete).2.2.1 (ids ++ [next_id])

/-- The sessions that come from `CreateSession` on the executor `e` through
any chain of `Clone`, `AddContext` and `Execute` calls. -/
inductive SessionReachable (features : Features) (e : OnDeviceModelExecutor) :
    SessionImpl → Prop where
  | create (adaptation_id : Option Nat) (s : SessionImpl) :
      e.CreateSession adaptation_id = some s → SessionReachable features e s
  | clone (s : SessionImpl) :
      SessionReachable features e s → SessionReachable features e s.Clone
  | addContext (s : SessionImpl) (input : InputOptions) (client : Option Nat)
      (on_complete : Option OnceClosure) (engine_cancel : ChromeMLCancelFn)
      (now : Nat) :
      SessionReachable features e s →
      SessionReachable features e
        (s.AddContext features input client on_complete engine_cancel now).1
  | execute (s : SessionImpl) (input : InputOptions) (response : Nat)
      (on_complete : Option OnceClosure) (engine_cancel : ChromeMLCancelFn) :
      SessionReachable features e s →
      SessionReachable features e
        (s.Execute features input response on_complete engine_cancel).1

/-! ## A process: the static counter and the executors alive -/

/-- The state that `LoadAdaptation` calls of one process share and act on:
the function-local static `next_id` and the executors created so far. -/
structure Process where
  next_id : Nat
  executors : List OnDeviceModelExecutor

/-- A call made by a client of the executor class. -/
inductive Call where
  /-- The call `OnDeviceModelExecutor::CreateWithResult`. -/
  | CreateWithResult (chrome_ml : ChromeML) (features : Features)
      (params : LoadModelParams) (on_complete : OnceClosure)
  /-- The call `LoadAdaptation` on the executor created as number
  `executor` (counting from 0). -/
  | LoadAdaptation (executor : Nat) (params : LoadAdaptationParams)
      (on_complete : OnceClosure)

/-- One completed `LoadAdaptation` call: the executor it ran on, that
executor before and after the call, and the value returned. -/
structure Loaded where
  executor : Nat
  before : OnDeviceModelExecutor
  after : OnDeviceModelExecutor
  result : Except LoadModelResult Nat

/-- The id a `LoadAdaptation` call returned, if it returned one. -/
def Loaded.id (l : Loaded) : Option Nat :=
  match l.result with
  | Except.ok id => some id
  | Except.error _ => none

namespace Process

/-- A process at start-up: the static is initialised to 0 and there is no
executor. -/
def start : Process := { next_id := 0, executors := [] }

/-- One call: the process afterwards and, for a `LoadAdaptation` call on an
executor that exists, its record. A failed `CreateWithResult` yields no
executor. -/
def step (p : Process) : Call → Process × Option Loaded
  | Call.CreateWithResult chrome_ml features params on_complete =>
    match (OnDeviceModelExecutor.CreateWithResult chrome_ml features params
        on_complete).1 with
    | Except.ok e => ({ p with executors := p.executors ++ [e] }, none)
    | Except.error _ => (p, none)
  | Call.LoadAdaptation executor params on_complete =>
    match p.executors.get? executor with
    | none => (p, none)
    | some e =>
      let r := e.LoadAdaptation p.next_id params on_complete
      ({ next_id := r.2.1, executors := p.executors.set executor r.2.2.1 },
       some { executor := executor, before := e, after := r.2.2.1, result := r.1 })

/-- A sequence of calls: the process afterwards and the records of the
`LoadAdaptation` calls, in order. -/
def run (p : Process) : List Call → Process × List Loaded
  | [] => (p, [])
  | c :: cs =>
    let r := p.step c
    let rs := run r.1 cs
    (rs.1, r.2.toList ++ rs.2)

/-- The ids returned by the `LoadAdaptation` calls of a sequence that ran on
the executor numbered `executor`, in order. -/
def idsOn (p : Process) (calls : List Call) (executor : Nat) : List Nat :=
  ((p.run calls).2.filter (fun l => l.executor == executor)).filterMap Loaded.id

/-- The ids returned by the `LoadAdaptation` calls of a sequence, in order. -/
def ids (p : Process) (calls : List Call) : List Nat :=
  (p.run calls).2.filterMap Loaded.id

end Process

/-- Every adaptation id that is a key of the store of some executor of the
process is below `c`. -/
def KeysBelow (c : Nat) (p : Process) : Prop :=
  ∀ e ∈ p.executors, ∀ k, e.base_sessions_.find (some k) ≠ none → k < c

/-- No session stored in the map has any context. -/
def SessionMap.ContextFree (m : SessionMap) : Prop :=
  ∀ key session, m.find key = some session → session.context = []

/-! ## Sessions by reference

The members `session_` and `empty_session_` of a `SessionImpl` are pointers
to `SessionAccessor` objects. The embedding above keeps the state of the
accessor in the member, which cannot tell two pointers to one accessor from
two accessors in the same state. Here the accessors live in a store, the two
members are positions in it, and `Clone` and `AddContext` are embedded once
more over the store. -/

namespace byRef

/-- Modelled from the spec: the `SessionAccessor` objects alive, of the
class that `services/on_device_model/ml/session_accessor.h`, not among the
sources, declares. A `SessionAccessor::Ptr` is a position in the list. -/
structure AccessorStore where
  accessors : List SessionAccessor
deriving DecidableEq, Repr

namespace AccessorStore

/-- The accumulated context of the accessor that a pointer points to. -/
def context (self : AccessorStore) (ptr : Nat) : List InputOptions :=
  match self.accessors.get? ptr with
  | some accessor => accessor.context
  | none => []

/-- Modelled from the spec: `SessionAccessor::Clone` on the accessor that a
pointer points to, "producing an independent handle" that observes "the
context accumulated in the source session at clone time": an accessor in the
state of the source is added to the store. The result is the store
afterwards and the pointer to the new accessor. -/
def Clone (self : AccessorStore) (ptr : Nat) : AccessorStore × Nat :=
  match self.accessors.get? ptr with
  | some accessor =>
    ({ accessors := self.accessors ++ [accessor.Clone] }, self.accessors.length)
  | none => (self, ptr)

/-- Modelled from the spec: the effect of `SessionAccessor::Execute` on the
accessor that a pointer points to, "asks the engine to ingest `input` into
this session's accumulated prefix". -/
def Execute (self : AccessorStore) (ptr : Nat) (input : InputOptions) : AccessorStore :=
  match self.accessors.get? ptr with
  | some accessor => { accessors := self.accessors.set ptr (accessor.Execute input) }
  | none => self

end AccessorStore

/-- The members of the class `SessionImpl` that `Clone` and `AddContext`
read or write, the two `SessionAccessor::Ptr` as pointers into the store. -/
structure SessionImpl where
  model_ : Nat
  session_ : Nat
  empty_session_ : Nat
  max_tokens_ : Nat
  context_holders_ : List ContextHolder
  adaptation_id_ : Option Nat
deriving DecidableEq, Repr

namespace SessionImpl

/-- The constructor `SessionImpl::SessionImpl`. -/
def new (model : Nat) (session empty_session : Nat)
    (max_tokens : Nat) (adaptation_id : Option Nat) : SessionImpl :=
  { model_ := model, session_ := session, empty_session_ := empty_session,
    max_tokens_ := max_tokens, context_holders_ := [], adaptation_id_ := adaptation_id }

/-- The method `SessionImpl::AddContext` over the store: the session and
the store afterwards. `engine_cancel` is the cancel function that
`session_->Execute` returns and `now` the current time. -/
def AddContext (self : SessionImpl) (features : Features) (store : AccessorStore)
    (input : InputOptions) (client : Option Nat)
    (on_complete : Option OnceClosure) (engine_cancel : ChromeMLCancelFn)
    (now : Nat) : SessionImpl × AccessorStore :=
  let context_holder := ContextHolder.new now client on_complete
  let input1 := { input with
    max_tokens := some (min (input.max_tokens.getD self.max_tokens_) self.max_tokens_) }
  let input2 := { input1 with top_k := some (GetTopK features input1.top_k) }
  let input3 := { input2 with
    temperature := some (GetTemperature input2.temperature) }
  let context_holder1 := { context_holder with cancel_ := engine_cancel }
  ({ self with context_holders_ := self.context_holders_ ++ [context_holder1] },
   store.Execute self.session_ input3)

/-- The method `SessionImpl::Clone` over the store: the new session and the
store afterwards. The two arguments `session_->Clone()` and
`empty_session_->Clone()` are evaluated in an order that C++ leaves open;
here the first is evaluated first. -/
def Clone (self : SessionImpl) (store : AccessorStore) : SessionImpl × AccessorStore :=
  let session := store.Clone self.session_
  let empty_session := session.1.Clone self.empty_session_
  (SessionImpl.new self.model_ session.2 empty_session.2 self.max_tokens_
    self.adaptation_id_, empty_session.1)

end SessionImpl

end byRef

/-! ## Pruning the navigation history of a reparented tab -/

/-- A `GURL`, identified by a token. -/
abbrev GURL := Nat

/-- The `content::NavigationController` of the tab, declared in
`content/public/browser/navigation_controller.h`, which is not among the
sources: the URLs of its entries, from index 0; the index of the last
committed entry and the index of the pending entry, each `-1` when there is
none among the entries; and what `CanPruneAllButLastCommitted()` returns,
which is true only when no entry of the list is pending. -/
structure NavigationController where
  entries : List GURL
  last_committed_entry_index_ : Int
  pending_entry_index_ : Int
  CanPruneAllButLastCommitted : Bool
deriving DecidableEq, Repr

namespace NavigationController

/-- The call `GetEntryCount()`. -/
def GetEntryCount (self : NavigationController) : Nat := self.entries.length

/-- The call `RemoveEntryAtIndex(index)`, by the contract at its
declaration: for the index of the last committed entry or of the pending
entry it does nothing; otherwise the entry at the index is taken out of the
list and the pending entry is discarded. The entries behind the one taken
out move down by one, and the last committed index with them. -/
def RemoveEntryAtIndex (self : NavigationController) (index : Nat) :
    NavigationController :=
  if (index : Int) = self.last_committed_entry_index_ ∨
      (index : Int) = self.pending_entry_index_ then self
  else
    { self with
      entries := self.entries.eraseIdx index,
      last_committed_entry_index_ :=
        if (index : Int) < self.last_committed_entry_index_ then
          self.last_committed_entry_index_ - 1
        else self.last_committed_entry_index_,
      pending_entry_index_ := -1 }

end NavigationController

/-- The first loop of `PrunePreScopeNavigationHistory`. The `int index` of
the source is kept as `index + 1`, a natural number, so that the loop
condition `index >= 0` is `index + 1 ≠ 0`; the result is `index + 1` when
the loop ends. `IsInScope` is not among the sources and is a parameter. -/
def PrunePreScopeNavigationHistory.skipInScope (IsInScope : GURL → GURL → Bool)
    (scope : GURL) (navigation_controller : NavigationController) : Nat → Nat
  | 0 => 0
  | index + 1 =>
    match navigation_controller.entries.get? index with
    | some url =>
      if IsInScope url scope then
        PrunePreScopeNavigationHistory.skipInScope IsInScope scope navigation_controller index
      else index + 1
    | none => index + 1

/-- The second loop of `PrunePreScopeNavigationHistory`, from `index + 1`:
the controller when the loop ends. The value that `RemoveEntryAtIndex`
returns is not used. -/
def PrunePreScopeNavigationHistory.removeUpTo
    (navigation_controller : NavigationController) : Nat → NavigationController
  | 0 => navigation_controller
  | index + 1 =>
    PrunePreScopeNavigationHistory.removeUpTo
      (navigation_controller.RemoveEntryAtIndex index) index

/-- The function `PrunePreScopeNavigationHistory`: the navigation
controller of `contents` afterwards. -/
def PrunePreScopeNavigationHistory (IsInScope : GURL → GURL → Bool) (scope : GURL)
    (navigation_controller : NavigationController) : NavigationController :=
  if !navigation_controller.CanPruneAllButLastCommitted then navigation_controller
  else
    let index := PrunePreScopeNavigationHistory.skipInScope IsInScope scope
      navigation_controller navigation_controller.GetEntryCount
    PrunePreScopeNavigationHistory.removeUpTo navigation_controller index

/-- Feature values with a platform maximum `top_k` of 40. -/
def exampleFeatures : Features :=
  { GetOnDeviceModelMaxTopK := 40, kPreferTextureWeights := true,
    kEnableHostMappedPointer := true, kUseLowPower := false, kAllowFp16 := true }

/-- A native library whose model creation returns the handle 7 and whose
text-safety model creation succeeds. -/
def exampleChromeML : ChromeML :=
  { SessionCreateModel := fun _ => 7, TsModelCreate := fun _ _ => true }

/-- Load parameters with a weights file only and `max_tokens = 10`. -/
def exampleParams : LoadModelParams :=
  { assets := { weights := some 3, ts_data := none, ts_sp_model := none,
                language_detection_model := none },
    max_tokens := 10, adaptation_ranks := [] }

/-- The executor that `Init` yields for the example values. -/
def exampleExecutor : OnDeviceModelExecutor :=
  (OnDeviceModelExecutor.new.Init exampleChromeML exampleFeatures exampleParams 0).2.1

/-- The base-model session of the example executor. -/
def exampleSession : SessionImpl :=
  SessionImpl.new 7 (SessionAccessor.Create 7 none) (SessionAccessor.Create 7 none) 8 none

/-- The example executor after one `LoadAdaptation` call that found the
static counter at 0. -/
def exampleAdaptedExecutor : OnDeviceModelExecutor :=
  (exampleExecutor.LoadAdaptation 0 { assets := { weights := some 5 } } 1).2.2.1

/-- A clone of the session created on the adapted executor for adaptation 0. -/
def exampleAdaptedSession : SessionImpl :=
  (SessionImpl.new 7 (SessionAccessor.Create 7 (some (some 5)))
    (SessionAccessor.Create 7 (some (some 5))) 8 (some 0)).Clone

/-- An input that asks for more tokens, a larger `top_k` and a lower
temperature than allowed. -/
def exampleGreedyInput : InputOptions :=
  { text := "", max_tokens := some 999, top_k := some 999,
    temperature := some F32.negFive, ignore_context := true }

/-- Feature values with a platform maximum `top_k` of 0. -/
def zeroTopKFeatures : Features :=
  { GetOnDeviceModelMaxTopK := 0, kPreferTextureWeights := true,
    kEnableHostMappedPointer := true, kUseLowPower := false, kAllowFp16 := true }

/-- A native library whose text-safety model creation fails, while its
model creation would return the handle 7. -/
def tsFailChromeML : ChromeML :=
  { SessionCreateModel := fun _ => 7, TsModelCreate := fun _ _ => false }

/-- Load parameters that carry text-safety data. -/
def tsParams : LoadModelParams :=
  { assets := { weights := some 3, ts_data := some 1, ts_sp_model := none,
                language_detection_model := none },
    max_tokens := 10, adaptation_ranks := [] }

/-- The call that creates an executor from the example values. -/
def exampleCreate : Call :=
  Call.CreateWithResult exampleChromeML exampleFeatures exampleParams 0

/-- A `LoadAdaptation` call on the executor numbered `executor`. -/
def exampleLoad (executor : Nat) : Call :=
  Call.LoadAdaptation executor { assets := { weights := some 5 } } 1

/-- A first executor loads one adaptation; then a second executor is
created and loads two. -/
def twoExecutorCalls : List Call :=
  [exampleCreate, exampleLoad 0, exampleCreate, exampleLoad 1, exampleLoad 1]

/-- The events of a stream of chunks: each text with the time its callback
runs at. -/
def chunkEvents (outputs : List (String × Nat)) : List ResponderEvent :=
  outputs.map (fun o => ResponderEvent.output (some o.1) o.2)

/-- A stand-in for the `float` expression of `CalculateTokensPerSecond`,
computed on integers, for the examples of the control flow around it. -/
def exampleRate : FloatRate := fun num_tokens microseconds =>
  num_tokens * 1000000 / microseconds

/-- A Responder as `Execute` leaves it: remote 11, completion closure 21,
cancel function 31, holding a session. -/
def exampleResponder : Responder :=
  { first_token_time_ := 0, num_tokens_ := 0, output_so_far_ := "",
    responder_ := 11, cancel_ := some 31, on_complete_ := some 21,
    session_ := some (SessionAccessor.Create 7 none) }

/-- Five chunks, produced at times 100 to 500. -/
def fiveChunks : List (String × Nat) :=
  [("a", 100), ("b", 200), ("c", 300), ("d", 400), ("e", 500)]

/-- The example session after `AddContext` with a bound client 41, the
completion closure 51 and the engine cancel function 61, at time 1000. -/
def exampleContextSession : SessionImpl :=
  (exampleSession.AddContext exampleFeatures exampleGreedyInput (some 41) (some 51)
    (some 61) 1000).1

/-- The holder that `AddContext` made in the example context session. -/
def exampleHolder : ContextHolder :=
  { timer_ := 1000, client_ := some 41, on_disconnect_ := true, cancel_ := some 61,
    on_complete_ := some 51 }

/-- A native library whose model creation fails: it returns the null
handle. -/
def nullModelChromeML : ChromeML :=
  { SessionCreateModel := fun _ => 0, TsModelCreate := fun _ _ => true }

/-- A store with two accessors on the model 7: the first has ingested the
example input as `AddContext` clamps it, the second nothing. -/
def exampleStore : byRef.AccessorStore :=
  { accessors :=
      [(SessionAccessor.Create 7 none).Execute
        { text := "", max_tokens := some 8, top_k := some 1,
          temperature := some F32.zero, ignore_context := false },
       SessionAccessor.Create 7 none] }

/-- A session whose two members point to the two accessors of the example
store. -/
def exampleSessionByRef : byRef.SessionImpl :=
  byRef.SessionImpl.new 7 0 1 8 (some 0)

/-- An input without any override. -/
def exampleInput : InputOptions :=
  { text := "", max_tokens := none, top_k := none, temperature := none,
    ignore_context := false }

/-- The example session after `Execute` with the remote 11, the completion
closure 21 and the engine cancel function 31. -/
def exampleExecutingSession : SessionImpl :=
  (exampleSession.Execute exampleFeatures exampleInput 11 (some 21) (some 31)).1

/-! ## Lemmas on the embedding -/

theorem engineInputs_append (xs ys : List Event) :
    engineInputs (xs ++ ys) = engineInputs xs ++ engineInputs ys := by
  induction xs with
  | nil => rfl
  | cons x xs ih => cases x <;> simp [engineInputs, ih]

theorem engineInputs_destroy (r : Responder) : engineInputs r.destroy = [] := by
  unfold Responder.destroy Responder.Cancel Responder.releaseSession
  cases hs : r.session_ <;> cases hc : r.cancel_ <;> cases ho : r.on_complete_ <;>
    simp [hc, ho, engineInputs]

/-- The one request `AddContext` hands to the engine. -/
theorem AddContext_engineInputs (s : SessionImpl) (features : Features)
    (input : InputOptions) (client : Option Nat) (on_complete : Option OnceClosure)
    (engine_cancel : ChromeMLCancelFn) (now : Nat) :
    engineInputs (s.AddContext features input client on_complete engine_cancel now).2 =
      [{ text := input.text,
         max_tokens := some (min (input.max_tokens.getD s.max_tokens_) s.max_tokens_),
         top_k := some (GetTopK features input.top_k),
         temperature := some (GetTemperature input.temperature),
         ignore_context := input.ignore_context }] := by
  simp [SessionImpl.AddContext, engineInputs]

/-- The one request `Execute` hands to the engine. -/
theorem Execute_engineInputs (s : SessionImpl) (features : Features)
    (input : InputOptions) (response : Nat) (on_complete : Option OnceClosure)
    (engine_cancel : ChromeMLCancelFn) :
    engineInputs (s.Execute features input response on_complete engine_cancel).2 =
      [{ text := input.text,
         max_tokens := some (min (input.max_tokens.getD s.max_tokens_) s.max_tokens_),
         top_k := some (GetTopK features input.top_k),
         temperature := some (GetTemperature input.temperature),
         ignore_context := input.ignore_context }] := by
  unfold SessionImpl.Execute
  cases hr : s.responder_ <;>
    simp [engineInputs_append, engineInputs_destroy, engineInputs]

theorem Init_load_result (e : OnDeviceModelExecutor) (chrome_ml : ChromeML)
    (features : Features) (params : LoadModelParams) (on_complete : OnceClosure) :
    (OnDeviceModelExecutor.Init.load e chrome_ml features params on_complete).1 =
      if chrome_ml.SessionCreateModel
          (OnDeviceModelExecutor.Init.descriptor features params (max params.max_tokens kReserveTokensForSafety)) ≠ 0
      then LoadModelResult.kSuccess else LoadModelResult.kFailedToLoadLibrary := by
  unfold OnDeviceModelExecutor.Init.load
  by_cases h : chrome_ml.SessionCreateModel
      (OnDeviceModelExecutor.Init.descriptor features params (max params.max_tokens kReserveTokensForSafety)) = 0
  · simp [h]
  · simp [h]

theorem Init_load_max_tokens (e : OnDeviceModelExecutor) (chrome_ml : ChromeML)
    (features : Features) (params : LoadModelParams) (on_complete : OnceClosure) :
    (OnDeviceModelExecutor.Init.load e chrome_ml features params on_complete).2.1.max_tokens_ =
      max params.max_tokens kReserveTokensForSafety := by
  unfold OnDeviceModelExecutor.Init.load
  simp only
  split <;> rfl

theorem Init_load_events (e : OnDeviceModelExecutor) (chrome_ml : ChromeML)
    (features : Features) (params : LoadModelParams) (on_complete : OnceClosure) :
    (OnDeviceModelExecutor.Init.load e chrome_ml features params on_complete).2.2 =
      [Event.SessionCreateModel
         (OnDeviceModelExecutor.Init.descriptor features params (max params.max_tokens kReserveTokensForSafety)),
       Event.PostTask TaskRunner.model_task_runner_ (Task.closure on_complete)] := rfl

/-- The two ways `Init` ends: before the model-creation step, when the
text-safety model was asked for and not created, or after it. -/
theorem Init_cases (e : OnDeviceModelExecutor) (chrome_ml : ChromeML)
    (features : Features) (params : LoadModelParams) (on_complete : OnceClosure) :
    (((OnDeviceModelExecutor.Init.ts_assets params).isSome || params.assets.language_detection_model.isSome) = true ∧
      chrome_ml.TsModelCreate (OnDeviceModelExecutor.Init.ts_assets params)
        params.assets.language_detection_model = false ∧
      e.Init chrome_ml features params on_complete =
        (LoadModelResult.kFailedToLoadLibrary, { e with ts_model_ := false },
         [Event.TsModelCreate (OnDeviceModelExecutor.Init.ts_assets params)
            params.assets.language_detection_model])) ∨
    (((OnDeviceModelExecutor.Init.ts_assets params).isSome || params.assets.language_detection_model.isSome) = true ∧
      chrome_ml.TsModelCreate (OnDeviceModelExecutor.Init.ts_assets params)
        params.assets.language_detection_model = true ∧
      e.Init chrome_ml features params on_complete =
        ((OnDeviceModelExecutor.Init.load { e with ts_model_ := true } chrome_ml features params on_complete).1,
         (OnDeviceModelExecutor.Init.load { e with ts_model_ := true } chrome_ml features params on_complete).2.1,
         Event.TsModelCreate (OnDeviceModelExecutor.Init.ts_assets params)
            params.assets.language_detection_model ::
          (OnDeviceModelExecutor.Init.load { e with ts_model_ := true } chrome_ml features params on_complete).2.2)) ∨
    (((OnDeviceModelExecutor.Init.ts_assets params).isSome || params.assets.language_detection_model.isSome) = false ∧
      e.Init chrome_ml features params on_complete =
        OnDeviceModelExecutor.Init.load e chrome_ml features params on_complete) := by
  unfold OnDeviceModelExecutor.Init
  simp only []
  cases hw : ((OnDeviceModelExecutor.Init.ts_assets params).isSome ||
      params.assets.language_detection_model.isSome)
  · right; right
    simp only [Bool.false_eq_true, if_false, and_self]
  · cases hc : chrome_ml.TsModelCreate (OnDeviceModelExecutor.Init.ts_assets params)
        params.assets.language_detection_model
    · left
      simp only [if_true, Bool.not_false, and_self]
    · right; left
      simp only [if_true, Bool.not_true, Bool.false_eq_true, if_false, and_self]

theorem Init_success_max_tokens (e : OnDeviceModelExecutor) (chrome_ml : ChromeML)
    (features : Features) (params : LoadModelParams) (on_complete : OnceClosure)
    (h : (e.Init chrome_ml features params on_complete).1 = LoadModelResult.kSuccess) :
    (e.Init chrome_ml features params on_complete).2.1.max_tokens_ =
      max params.max_tokens kReserveTokensForSafety := by
  rcases Init_cases e chrome_ml features params on_complete with
    ⟨_, _, h1⟩ | ⟨_, _, h1⟩ | ⟨_, h1⟩
  · rw [h1] at h
    simp at h
  · rw [h1]
    exact Init_load_max_tokens _ chrome_ml features params on_complete
  · rw [h1]
    exact Init_load_max_tokens _ chrome_ml features params on_complete

theorem ExecutorReachable_max_tokens (e0 e : OnDeviceModelExecutor)
    (h : ExecutorReachable e0 e) : e.max_tokens_ = e0.max_tokens_ := by
  induction h with
  | start => rfl
  | load e next_id params on_complete _ ih =>
    simpa [OnDeviceModelExecutor.LoadAdaptation] using ih

theorem CreateSession_max_tokens (e : OnDeviceModelExecutor)
    (adaptation_id : Option Nat) (s : SessionImpl)
    (h : e.CreateSession adaptation_id = some s) :
    s.max_tokens_ =
      (e.max_tokens_ + kUint32Size - kReserveTokensForSafety) % kUint32Size := by
  unfold OnDeviceModelExecutor.CreateSession at h
  split at h
  · simp at h
  · simp only [Option.some.injEq] at h
    subst h
    rfl

theorem SessionReachable_max_tokens (features : Features)
    (e : OnDeviceModelExecutor) (s : SessionImpl)
    (h : SessionReachable features e s) :
    s.max_tokens_ =
      (e.max_tokens_ + kUint32Size - kReserveTokensForSafety) % kUint32Size := by
  induction h with
  | create adaptation_id s hs => exact CreateSession_max_tokens e adaptation_id s hs
  | clone s _ ih => simpa [SessionImpl.Clone, SessionImpl.new] using ih
  | addContext s input client on_complete engine_cancel now _ ih =>
    simpa [SessionImpl.AddContext] using ih
  | execute s input response on_complete engine_cancel _ ih =>
    simpa [SessionImpl.Execute] using ih

/-- On `uint32_t`, subtracting the reserve from a budget of at least 2 does
not wrap. -/
theorem budget_no_wrap (m : Nat) (h2 : kReserveTokensForSafety ≤ m) (hm : m < kUint32Size) :
    (m + kUint32Size - kReserveTokensForSafety) % kUint32Size =
      m - kReserveTokensForSafety := by
  unfold kUint32Size kReserveTokensForSafety at *
  omega

/-! ## The token budget -/

/-- C1: for every session budget `B` (the member `max_tokens_`) and every
optional requested `max_tokens`, `AddContext` and `Execute` each hand the
engine one request with `max_tokens = min (requested or B) B`. Without an
override this is `B`; and for a session that `CreateSession` made on an
executor with model budget `max_tokens_` at least 2, `B` is
`max_tokens_ - 2`, which is 8 for a model budget of 10. -/
theorem C1_effective_max_tokens (features : Features) (s : SessionImpl)
    (input : InputOptions) (client : Option Nat) (response : Nat)
    (on_complete : Option OnceClosure) (engine_cancel : ChromeMLCancelFn) (now : Nat) :
    (engineInputs (s.AddContext features input client on_complete engine_cancel now).2).map
        InputOptions.max_tokens =
      [some (min (input.max_tokens.getD s.max_tokens_) s.max_tokens_)] ∧
    (engineInputs (s.Execute features input response on_complete engine_cancel).2).map
        InputOptions.max_tokens =
      [some (min (input.max_tokens.getD s.max_tokens_) s.max_tokens_)] ∧
    (input.max_tokens = none →
      (engineInputs (s.AddContext features input client on_complete engine_cancel now).2).map
          InputOptions.max_tokens = [some s.max_tokens_] ∧
      (engineInputs (s.Execute features input response on_complete engine_cancel).2).map
          InputOptions.max_tokens = [some s.max_tokens_]) ∧
    (∀ (e : OnDeviceModelExecutor) (adaptation_id : Option Nat),
      kReserveTokensForSafety ≤ e.max_tokens_ → e.max_tokens_ < kUint32Size →
      e.CreateSession adaptation_id = some s →
      s.max_tokens_ = e.max_tokens_ - 2 ∧ (e.max_tokens_ = 10 → s.max_tokens_ = 8)) := by
  refine ⟨?_, ?_, ?_, ?_⟩
  · rw [AddContext_engineInputs]; rfl
  · rw [Execute_engineInputs]; rfl
  · intro h
    rw [AddContext_engineInputs, Execute_engineInputs]
    simp [h]
  · intro e adaptation_id h2 hm hs
    have h := CreateSession_max_tokens e adaptation_id s hs
    rw [budget_no_wrap e.max_tokens_ h2 hm] at h
    refine ⟨h, fun h10 => ?_⟩
    rw [h, h10]
    rfl

/-- The session created on an executor with a model budget of 10 hands the
engine `max_tokens = 8` when the input has no override. -/
theorem C1_effective_max_tokens_witness :
    exampleExecutor.max_tokens_ = 10 ∧
    exampleExecutor.CreateSession none = some exampleSession ∧
    exampleSession.max_tokens_ = 8 ∧
    (engineInputs (exampleSession.AddContext exampleFeatures exampleInput none none
        none 0).2).map InputOptions.max_tokens = [some 8] ∧
    (engineInputs (exampleSession.Execute exampleFeatures exampleInput 0 none
        none).2).map InputOptions.max_tokens = [some 8] :=
  have h := C1_effective_max_tokens exampleFeatures exampleSession exampleInput none 0
    none none 0
  ⟨rfl, rfl,
   (h.2.2.2 exampleExecutor none (by decide) (by decide) rfl).2 rfl,
   (h.2.2.1 rfl).1, (h.2.2.1 rfl).2⟩

/-- C2: for every executor whose `Init` succeeded with a `uint32_t`
`params.max_tokens`, also after any `LoadAdaptation` calls, every session
that comes from `CreateSession` through any chain of `Clone`, `AddContext`
and `Execute` calls, and every input, the `max_tokens` that `AddContext` and
`Execute` hand to the engine is at most `model_max_tokens - 2`. Here
`model_max_tokens = max params.max_tokens 2` is at least 2, so the `uint32_t`
subtraction that computes the session budget does not wrap. -/
theorem C2_max_tokens_bound (chrome_ml : ChromeML) (features : Features)
    (params : LoadModelParams) (init_complete : OnceClosure)
    (e : OnDeviceModelExecutor) (s : SessionImpl) (input : InputOptions)
    (client : Option Nat) (response : Nat) (on_complete : Option OnceClosure)
    (engine_cancel : ChromeMLCancelFn) (now : Nat)
    (hparams : params.max_tokens < kUint32Size)
    (hinit : (OnDeviceModelExecutor.new.Init chrome_ml features params init_complete).1 =
      LoadModelResult.kSuccess)
    (he : ExecutorReachable
      (OnDeviceModelExecutor.new.Init chrome_ml features params init_complete).2.1 e)
    (hs : SessionReachable features e s) :
    e.max_tokens_ = max params.max_tokens 2 ∧ 2 ≤ e.max_tokens_ ∧
    e.max_tokens_ < kUint32Size ∧
    s.max_tokens_ = e.max_tokens_ - 2 ∧
    (∃ m, (engineInputs
        (s.AddContext features input client on_complete engine_cancel now).2).map
          InputOptions.max_tokens = [some m] ∧ m ≤ e.max_tokens_ - 2) ∧
    (∃ m, (engineInputs
        (s.Execute features input response on_complete engine_cancel).2).map
          InputOptions.max_tokens = [some m] ∧ m ≤ e.max_tokens_ - 2) := by
  have hmax : e.max_tokens_ = max params.max_tokens 2 := by
    rw [ExecutorReachable_max_tokens _ e he,
      Init_success_max_tokens _ chrome_ml features params init_complete hinit]
    rfl
  have h2 : kReserveTokensForSafety ≤ e.max_tokens_ := by
    rw [hmax]; exact le_max_right _ _
  have hlt : e.max_tokens_ < kUint32Size := by
    rw [hmax]
    exact max_lt hparams (by decide)
  have hbudget : s.max_tokens_ = e.max_tokens_ - 2 := by
    rw [SessionReachable_max_tokens features e s hs, budget_no_wrap _ h2 hlt]
    rfl
  have hle : min (input.max_tokens.getD s.max_tokens_) s.max_tokens_ ≤ e.max_tokens_ - 2 := by
    rw [← hbudget]; exact min_le_right _ _
  refine ⟨hmax, h2, hlt, hbudget, ⟨_, ?_, hle⟩, ⟨_, ?_, hle⟩⟩
  · rw [AddContext_engineInputs]; rfl
  · rw [Execute_engineInputs]; rfl

/-- A cloned adaptation session of an executor loaded with
`max_tokens = 10`: a request for 999 tokens reaches the engine as 8. -/
theorem C2_max_tokens_bound_witness :
    exampleAdaptedExecutor.max_tokens_ = 10 ∧
    exampleAdaptedSession.max_tokens_ = 8 ∧
    (∃ m, (engineInputs (exampleAdaptedSession.AddContext exampleFeatures
        exampleGreedyInput none none none 0).2).map InputOptions.max_tokens = [some m] ∧
      m ≤ 8) ∧
    (∃ m, (engineInputs (exampleAdaptedSession.Execute exampleFeatures
        exampleGreedyInput 0 none none).2).map InputOptions.max_tokens = [some m] ∧
      m ≤ 8) :=
  have h := C2_max_tokens_bound exampleChromeML exampleFeatures exampleParams 0
    exampleAdaptedExecutor exampleAdaptedSession exampleGreedyInput none 0 none none 0
    (by decide) rfl
    (ExecutorReachable.load _ 0 { assets := { weights := some 5 } } 1
      ExecutorReachable.start)
    (SessionReachable.clone _
      (SessionReachable.create (some 0) _ rfl))
  ⟨rfl, rfl, h.2.2.2.2.1, h.2.2.2.2.2⟩

/-! ## Sampling parameters -/

/-- A non-zero `int` converts to a non-zero `uint32_t`. -/
theorem static_cast_uint32_pos (x : Int) (h0 : x ≠ 0) (hlo : -2147483648 ≤ x)
    (hhi : x < 2147483648) : 1 ≤ static_cast_uint32 x := by
  unfold static_cast_uint32
  omega

/-- A non-negative `int` converts to itself. -/
theorem static_cast_uint32_ofNat (m : Nat) (hhi : m < 2147483648) :
    static_cast_uint32 (m : Int) = m := by
  unfold static_cast_uint32
  omega

/-- C3, as stated, fails when the platform maximum is 0: `GetTopK` then
returns 0, which is below 1, and that 0 is what the engine receives. -/
theorem C3_top_k_range_counterexample :
    GetTopK zeroTopKFeatures none = 0 ∧
    ¬ (1 ≤ GetTopK zeroTopKFeatures none ∧
        GetTopK zeroTopKFeatures none ≤
          static_cast_uint32 zeroTopKFeatures.GetOnDeviceModelMaxTopK) ∧
    (engineInputs (exampleSession.AddContext zeroTopKFeatures exampleInput none none
        none 0).2).map InputOptions.top_k = [some 0] := by
  refine ⟨by decide, by decide, ?_⟩
  rw [AddContext_engineInputs]
  decide

/-- C3, amended: for every optional `top_k` input and every non-zero `int`
value of the platform maximum, the value `GetTopK` returns lies between 1
and the platform maximum converted to `uint32_t`, and it is the `top_k` of
the one request that `AddContext` and `Execute` each hand to the engine:
inputs out of range are clamped, and no input is rejected. -/
theorem C3_top_k_range (features : Features) (s : SessionImpl)
    (input : InputOptions) (client : Option Nat) (response : Nat)
    (on_complete : Option OnceClosure) (engine_cancel : ChromeMLCancelFn) (now : Nat)
    (h0 : features.GetOnDeviceModelMaxTopK ≠ 0)
    (hlo : -2147483648 ≤ features.GetOnDeviceModelMaxTopK)
    (hhi : features.GetOnDeviceModelMaxTopK < 2147483648) :
    1 ≤ GetTopK features input.top_k ∧
    GetTopK features input.top_k ≤ static_cast_uint32 features.GetOnDeviceModelMaxTopK ∧
    (engineInputs (s.AddContext features input client on_complete engine_cancel now).2).map
        InputOptions.top_k = [some (GetTopK features input.top_k)] ∧
    (engineInputs (s.Execute features input response on_complete engine_cancel).2).map
        InputOptions.top_k = [some (GetTopK features input.top_k)] := by
  have hpos := static_cast_uint32_pos _ h0 hlo hhi
  refine ⟨?_, ?_, ?_, ?_⟩
  · unfold GetTopK
    exact le_min hpos (le_max_left _ _)
  · unfold GetTopK
    exact min_le_left _ _
  · rw [AddContext_engineInputs]; rfl
  · rw [Execute_engineInputs]; rfl

/-- With a platform maximum of 40 a requested `top_k` of 999 reaches the
engine as a value between 1 and 40. -/
theorem C3_top_k_range_witness :
    1 ≤ GetTopK exampleFeatures exampleGreedyInput.top_k ∧
    GetTopK exampleFeatures exampleGreedyInput.top_k ≤ 40 ∧
    (engineInputs (exampleSession.AddContext exampleFeatures exampleGreedyInput none
        none none 0).2).map InputOptions.top_k = [some 40] :=
  have h := C3_top_k_range exampleFeatures exampleSession exampleGreedyInput none 0
    none none 0 (by decide) (by decide) (by decide)
  ⟨h.1, h.2.1, h.2.2.1⟩

/-- C4: for every platform maximum `M` with `1 ≤ M` and every `top_k` value
`k`, `GetTopK` returns `k` clamped to `[1, M]`: 1 when `k = 0`, `k` when
`1 ≤ k ≤ M`, and `M` when `M < k`; an absent `top_k` is treated as 1. With
`M = 40` the input 0 gives 1 and the input 999 gives 40. -/
theorem C4_top_k_clamp (features : Features) (M k : Nat)
    (hM : features.GetOnDeviceModelMaxTopK = (M : Int)) (h1 : 1 ≤ M)
    (hint : M < 2147483648) :
    (k = 0 → GetTopK features (some k) = 1) ∧
    (1 ≤ k → k ≤ M → GetTopK features (some k) = k) ∧
    (M < k → GetTopK features (some k) = M) ∧
    GetTopK features none = GetTopK features (some 1) ∧
    GetTopK features none = 1 ∧
    (M = 40 → GetTopK features (some 0) = 1 ∧ GetTopK features (some 999) = 40) := by
  have hcast : static_cast_uint32 features.GetOnDeviceModelMaxTopK = M := by
    rw [hM]; exact static_cast_uint32_ofNat M hint
  unfold GetTopK
  rw [hcast]
  simp only [Option.getD_some, Option.getD_none]
  refine ⟨?_, ?_, ?_, trivial, ?_, ?_⟩
  · intro h; subst h; omega
  · intro ha hb; omega
  · intro h; omega
  · omega
  · intro h; subst h; decide

/-- With a platform maximum of 40: 0 gives 1, 7 gives 7 and 999 gives 40. -/
theorem C4_top_k_clamp_witness :
    GetTopK exampleFeatures (some 0) = 1 ∧ GetTopK exampleFeatures (some 7) = 7 ∧
    GetTopK exampleFeatures (some 999) = 40 ∧ GetTopK exampleFeatures none = 1 :=
  ⟨(C4_top_k_clamp exampleFeatures 40 0 rfl (by decide) (by decide)).1 rfl,
   (C4_top_k_clamp exampleFeatures 40 7 rfl (by decide) (by decide)).2.1
     (by decide) (by decide),
   (C4_top_k_clamp exampleFeatures 40 999 rfl (by decide) (by decide)).2.2.1 (by decide),
   (C4_top_k_clamp exampleFeatures 40 0 rfl (by decide) (by decide)).2.2.2.2.1⟩

/-! ## Temperature -/

theorem GetTemperature_some_cases (x : F32) :
    (F32.lt F32.zero x = true ∧ GetTemperature (some x) = x) ∨
    (F32.lt F32.zero x = false ∧ GetTemperature (some x) = F32.zero) := by
  unfold GetTemperature F32.std_max
  simp only [Option.getD_some]
  cases h : F32.lt F32.zero x
  · right; simp
  · left; simp

theorem F32_ge_zero_of_lt (x : F32) (h : F32.lt F32.zero x = true) :
    F32.ge x F32.zero = true := by
  unfold F32.ge
  simp [h]

/-- A value that is `>= 0.0f` and not `> 0.0f` is a zero. -/
theorem F32_zero_of_ge_not_lt (x : F32) (h : F32.lt F32.zero x = false)
    (hge : F32.ge x F32.zero = true) :
    F32.feq F32.zero x = true ∧ (x ≠ F32.negZero → F32.zero = x) := by
  obtain ⟨sign, mag⟩ := x
  unfold F32.ge at hge
  simp only [h, Bool.false_or] at hge
  unfold F32.feq F32.isNaN F32.zero at *
  unfold F32.lt F32.isNaN at h
  cases sign <;> simp at h hge ⊢
  · obtain ⟨_, h0⟩ := hge
    subst h0
    simp
  · obtain ⟨_, h0⟩ := hge
    subst h0
    simp [F32.negZero]

/-- A value that is `> 0.0f` is not a NaN and compares equal to itself. -/
theorem F32_feq_self_of_lt (x : F32) (h : F32.lt F32.zero x = true) :
    F32.feq x x = true := by
  obtain ⟨sign, mag⟩ := x
  unfold F32.lt F32.isNaN F32.zero at h
  unfold F32.feq F32.isNaN
  cases sign <;> simp at h ⊢
  omega

/-- A value that is `< 0.0f` or a NaN is not `> 0.0f`. -/
theorem F32_not_lt_of_neg_or_nan (x : F32)
    (h : F32.lt x F32.zero = true ∨ x.isNaN = true) : F32.lt F32.zero x = false := by
  obtain ⟨sign, mag⟩ := x
  unfold F32.lt F32.isNaN F32.zero at *
  cases sign <;> simp at h ⊢
  omega

/-- C5: for every optional temperature input, `GetTemperature` returns
`std::max(0.0f, t)` with an absent value treated as `0.0f`. The result is
always `>= 0.0f`; a negative input, such as `-5.0f`, and a NaN yield `0.0f`;
an input that is `>= 0.0f` is returned unchanged: the result compares equal
to it, and is the very same value unless the input is `-0.0f`, for which
the result is `0.0f`. The result is the temperature that `AddContext` and
`Execute` hand to the engine. -/
theorem C5_temperature (features : Features) (s : SessionImpl)
    (input : InputOptions) (client : Option Nat) (response : Nat)
    (on_complete : Option OnceClosure) (engine_cancel : ChromeMLCancelFn) (now : Nat) :
    F32.ge (GetTemperature input.temperature) F32.zero = true ∧
    (input.temperature = none → GetTemperature input.temperature = F32.zero) ∧
    (∀ x, input.temperature = some x → F32.lt x F32.zero = true ∨ x.isNaN = true →
      GetTemperature input.temperature = F32.zero) ∧
    (∀ x, input.temperature = some x → F32.ge x F32.zero = true →
      F32.feq (GetTemperature input.temperature) x = true ∧
      (x ≠ F32.negZero → GetTemperature input.temperature = x)) ∧
    (F32.lt F32.negFive F32.zero = true ∧ GetTemperature (some F32.negFive) = F32.zero) ∧
    (engineInputs (s.AddContext features input client on_complete engine_cancel now).2).map
        InputOptions.temperature = [some (GetTemperature input.temperature)] ∧
    (engineInputs (s.Execute features input response on_complete engine_cancel).2).map
        InputOptions.temperature = [some (GetTemperature input.temperature)] := by
  refine ⟨?_, ?_, ?_, ?_, ⟨by decide, by decide⟩, ?_, ?_⟩
  · cases ht : input.temperature with
    | none => decide
    | some x =>
      rcases GetTemperature_some_cases x with ⟨hlt, hx⟩ | ⟨_, hx⟩
      · rw [hx]; exact F32_ge_zero_of_lt x hlt
      · rw [hx]; decide
  · intro ht
    rw [ht]
    decide
  · intro x ht hneg
    rw [ht]
    rcases GetTemperature_some_cases x with ⟨hlt, _⟩ | ⟨_, hx⟩
    · rw [F32_not_lt_of_neg_or_nan x hneg] at hlt
      exact absurd hlt (by decide)
    · exact hx
  · intro x ht hge
    rw [ht]
    rcases GetTemperature_some_cases x with ⟨hlt, hx⟩ | ⟨hlt, hx⟩
    · rw [hx]
      exact ⟨F32_feq_self_of_lt x hlt, fun _ => rfl⟩
    · rw [hx]
      exact F32_zero_of_ge_not_lt x hlt hge
  · rw [AddContext_engineInputs]; rfl
  · rw [Execute_engineInputs]; rfl

/-- A temperature of `-5.0f` reaches the engine as `0.0f`, and `0.5f`
unchanged. -/
theorem C5_temperature_witness :
    (engineInputs (exampleSession.Execute exampleFeatures exampleGreedyInput 0 none
        none).2).map InputOptions.temperature = [some F32.zero] ∧
    GetTemperature (some F32.half) = F32.half :=
  ⟨(C5_temperature exampleFeatures exampleSession exampleGreedyInput none 0 none none
      0).2.2.2.2.2.2,
   ((C5_temperature exampleFeatures exampleSession
      { exampleInput with temperature := some F32.half } none 0 none none 0).2.2.2.1
      F32.half rfl (by decide)).2 (by decide)⟩

/-! ## Loading the model -/

/-- What `Init` returns and which native calls it makes, in terms of what
the two creation calls return. -/
theorem Init_result (e : OnDeviceModelExecutor) (chrome_ml : ChromeML)
    (features : Features) (params : LoadModelParams) (on_complete : OnceClosure) :
    ((e.Init chrome_ml features params on_complete).1 =
        LoadModelResult.kFailedToLoadLibrary ↔
      (∃ a l, Event.TsModelCreate a l ∈ (e.Init chrome_ml features params on_complete).2.2 ∧
        chrome_ml.TsModelCreate a l = false) ∨
      (∃ d, Event.SessionCreateModel d ∈
          (e.Init chrome_ml features params on_complete).2.2 ∧
        chrome_ml.SessionCreateModel d = 0)) := by
  rcases Init_cases e chrome_ml features params on_complete with
    ⟨_, hc, h1⟩ | ⟨_, hc, h1⟩ | ⟨hw, h1⟩
  · rw [h1]
    simp [hc, and_assoc]
  · rw [h1]
    simp only [Init_load_result, Init_load_events]
    by_cases hm : chrome_ml.SessionCreateModel
        (OnDeviceModelExecutor.Init.descriptor features params
          (max params.max_tokens kReserveTokensForSafety)) = 0
    · simp [hm, and_assoc]
    · simp [hm, hc, and_assoc]
  · rw [h1]
    simp only [Init_load_result, Init_load_events]
    by_cases hm : chrome_ml.SessionCreateModel
        (OnDeviceModelExecutor.Init.descriptor features params
          (max params.max_tokens kReserveTokensForSafety)) = 0
    · simp [hm, and_assoc]
    · simp [hm, and_assoc]

/-- C6, as stated, fails when the text-safety model is asked for and cannot
be created: `Init` returns `kFailedToLoadLibrary` although the native
model-creation call is never made, so it did not return a null handle. -/
theorem C6_init_result_counterexample :
    (OnDeviceModelExecutor.new.Init tsFailChromeML exampleFeatures tsParams 0).1 =
      LoadModelResult.kFailedToLoadLibrary ∧
    (OnDeviceModelExecutor.new.Init tsFailChromeML exampleFeatures tsParams 0).2.2 =
      [Event.TsModelCreate (some { ts_data := some 1, ts_sp_model := none }) none] ∧
    ¬ ((OnDeviceModelExecutor.new.Init tsFailChromeML exampleFeatures tsParams 0).1 =
        LoadModelResult.kFailedToLoadLibrary ↔
      ∃ d, Event.SessionCreateModel d ∈
          (OnDeviceModelExecutor.new.Init tsFailChromeML exampleFeatures tsParams 0).2.2 ∧
        tsFailChromeML.SessionCreateModel d = 0) := by
  refine ⟨rfl, rfl, ?_⟩
  intro h
  obtain ⟨d, _, hd⟩ := h.1 rfl
  exact absurd hd (by simp [tsFailChromeML])

/-- C6, amended: `Init` returns `kFailedToLoadLibrary` if the text-safety
model creation was called and returned null, or if the native
model-creation call was made and returned a null handle, and `kSuccess`
otherwise; `CreateWithResult` returns the executor exactly when `Init`
returns `kSuccess` and otherwise returns the error value of `Init`. -/
theorem C6_init_result (chrome_ml : ChromeML) (features : Features)
    (params : LoadModelParams) (on_complete : OnceClosure) :
    ((OnDeviceModelExecutor.new.Init chrome_ml features params on_complete).1 =
        LoadModelResult.kFailedToLoadLibrary ↔
      (∃ a l, Event.TsModelCreate a l ∈
          (OnDeviceModelExecutor.new.Init chrome_ml features params on_complete).2.2 ∧
        chrome_ml.TsModelCreate a l = false) ∨
      (∃ d, Event.SessionCreateModel d ∈
          (OnDeviceModelExecutor.new.Init chrome_ml features params on_complete).2.2 ∧
        chrome_ml.SessionCreateModel d = 0)) ∧
    ((OnDeviceModelExecutor.new.Init chrome_ml features params on_complete).1 =
        LoadModelResult.kSuccess ↔
      ¬ ((∃ a l, Event.TsModelCreate a l ∈
          (OnDeviceModelExecutor.new.Init chrome_ml features params on_complete).2.2 ∧
        chrome_ml.TsModelCreate a l = false) ∨
      (∃ d, Event.SessionCreateModel d ∈
          (OnDeviceModelExecutor.new.Init chrome_ml features params on_complete).2.2 ∧
        chrome_ml.SessionCreateModel d = 0))) ∧
    (∀ executor,
      (OnDeviceModelExecutor.CreateWithResult chrome_ml features params on_complete).1 =
          Except.ok executor ↔
        (OnDeviceModelExecutor.new.Init chrome_ml features params on_complete).1 =
          LoadModelResult.kSuccess ∧
        executor =
          (OnDeviceModelExecutor.new.Init chrome_ml features params on_complete).2.1) ∧
    (∀ error,
      (OnDeviceModelExecutor.CreateWithResult chrome_ml features params on_complete).1 =
          Except.error error ↔
        (OnDeviceModelExecutor.new.Init chrome_ml features params on_complete).1 ≠
          LoadModelResult.kSuccess ∧
        error = (OnDeviceModelExecutor.new.Init chrome_ml features params on_complete).1) := by
  have hres := Init_result OnDeviceModelExecutor.new chrome_ml features params on_complete
  refine ⟨hres, ?_, ?_, ?_⟩
  · rw [← hres]
    cases (OnDeviceModelExecutor.new.Init chrome_ml features params on_complete).1 <;> simp
  · intro executor
    unfold OnDeviceModelExecutor.CreateWithResult
    by_cases h : (OnDeviceModelExecutor.new.Init chrome_ml features params on_complete).1 =
        LoadModelResult.kSuccess
    · simp [h, eq_comm]
    · simp [h]
  · intro error
    unfold OnDeviceModelExecutor.CreateWithResult
    by_cases h : (OnDeviceModelExecutor.new.Init chrome_ml features params on_complete).1 =
        LoadModelResult.kSuccess
    · simp [h]
    · simp [h, eq_comm]

/-- C7: for every `params.max_tokens`, when `Init` reaches the
model-creation step, that is when it calls `SessionCreateModel` with a
descriptor, the member `max_tokens_` of the executor afterwards is
`max params.max_tokens 2`, and the `max_tokens` of that descriptor is the
same clamped value. -/
theorem C7_init_max_tokens (e : OnDeviceModelExecutor) (chrome_ml : ChromeML)
    (features : Features) (params : LoadModelParams) (on_complete : OnceClosure)
    (d : ChromeMLModelDescriptor)
    (h : Event.SessionCreateModel d ∈ (e.Init chrome_ml features params on_complete).2.2) :
    (e.Init chrome_ml features params on_complete).2.1.max_tokens_ =
      max params.max_tokens 2 ∧
    d.max_tokens = max params.max_tokens 2 ∧
    d.max_tokens = (e.Init chrome_ml features params on_complete).2.1.max_tokens_ := by
  have key : (e.Init chrome_ml features params on_complete).2.1.max_tokens_ =
        max params.max_tokens 2 ∧ d.max_tokens = max params.max_tokens 2 := by
    rcases Init_cases e chrome_ml features params on_complete with
      ⟨_, _, h1⟩ | ⟨_, _, h1⟩ | ⟨_, h1⟩
    · rw [h1] at h
      simp at h
    · rw [h1] at h ⊢
      simp only [Init_load_events, List.mem_cons, List.mem_singleton, Event.SessionCreateModel.injEq,
        reduceCtorEq, or_false, false_or, List.not_mem_nil] at h
      subst h
      exact ⟨Init_load_max_tokens _ chrome_ml features params on_complete, rfl⟩
    · rw [h1] at h ⊢
      simp only [Init_load_events, List.mem_cons, List.mem_singleton, Event.SessionCreateModel.injEq,
        reduceCtorEq, or_false, false_or, List.not_mem_nil] at h
      subst h
      exact ⟨Init_load_max_tokens _ chrome_ml features params on_complete, rfl⟩
  exact ⟨key.1, key.2, key.2.trans key.1.symm⟩

/-- With `params.max_tokens = 10` the executor and the descriptor carry 10;
with `params.max_tokens = 0` they carry 2. -/
theorem C7_init_max_tokens_witness :
    (OnDeviceModelExecutor.new.Init exampleChromeML exampleFeatures exampleParams 0).2.1.max_tokens_
      = 10 ∧
    (OnDeviceModelExecutor.Init.descriptor exampleFeatures exampleParams 10).max_tokens = 10 ∧
    (OnDeviceModelExecutor.new.Init exampleChromeML exampleFeatures
      { exampleParams with max_tokens := 0 } 0).2.1.max_tokens_ = 2 :=
  ⟨(C7_init_max_tokens OnDeviceModelExecutor.new exampleChromeML exampleFeatures exampleParams 0
      (OnDeviceModelExecutor.Init.descriptor exampleFeatures exampleParams 10)
      (List.mem_cons_self _ _)).1,
   (C7_init_max_tokens OnDeviceModelExecutor.new exampleChromeML exampleFeatures exampleParams 0
      (OnDeviceModelExecutor.Init.descriptor exampleFeatures exampleParams 10)
      (List.mem_cons_self _ _)).2.1,
   (C7_init_max_tokens OnDeviceModelExecutor.new exampleChromeML exampleFeatures
      { exampleParams with max_tokens := 0 } 0
      (OnDeviceModelExecutor.Init.descriptor exampleFeatures
        { exampleParams with max_tokens := 0 } 2)
      (List.mem_cons_self _ _)).1⟩

/-! ## Adaptation ids and the session store -/

theorem SessionMap_find_insert_self (m : SessionMap) (key : Option Nat)
    (value : SessionAccessor) :
    ((m.insert key value).find key).isSome = true := by
  unfold SessionMap.insert SessionMap.find
  cases h : m.lookup key with
  | some v => simp [h]
  | none => simp [List.lookup_append, h]

theorem SessionMap_find_insert_fresh (m : SessionMap) (key : Option Nat)
    (value : SessionAccessor) (h : m.find key = none) :
    (m.insert key value).find key = some value := by
  unfold SessionMap.insert SessionMap.find at *
  simp [List.lookup_append, h]

theorem SessionMap_find_insert_of_ne (m : SessionMap) (key other : Option Nat)
    (value : SessionAccessor) (h : other ≠ key) :
    (m.insert key value).find other = m.find other := by
  unfold SessionMap.insert SessionMap.find
  cases hk : m.lookup key with
  | some v => rfl
  | none =>
    have hb : (other == key) = false := by simpa using h
    cases ho : m.lookup other <;> simp [List.lookup_append, ho, List.lookup, hb]

/-- An entry that is present is kept by `insert`, whatever the key. -/
theorem SessionMap_find_insert_of_some (m : SessionMap) (key other : Option Nat)
    (value v : SessionAccessor) (h : m.find other = some v) :
    (m.insert key value).find other = some v := by
  unfold SessionMap.insert SessionMap.find at *
  cases hk : m.lookup key with
  | some w => exact h
  | none => simp [List.lookup_append, h]

theorem LoadAdaptation_result (next_id : Nat) (e : OnDeviceModelExecutor)
    (params : LoadAdaptationParams) (on_complete : OnceClosure) :
    (e.LoadAdaptation next_id params on_complete).1 = Except.ok next_id ∧
    (e.LoadAdaptation next_id params on_complete).2.1 = (next_id + 1) % kUint32Size ∧
    (e.LoadAdaptation next_id params on_complete).2.2.1.base_sessions_ =
      e.base_sessions_.insert (some next_id)
        (SessionAccessor.Create e.model_ (some params.assets.weights)) :=
  ⟨rfl, rfl, rfl⟩

/-- `Init` adds no entry for an adaptation id. -/
theorem Init_find_some (e : OnDeviceModelExecutor) (chrome_ml : ChromeML)
    (features : Features) (params : LoadModelParams) (on_complete : OnceClosure)
    (k : Nat) :
    (e.Init chrome_ml features params on_complete).2.1.base_sessions_.find (some k) =
      e.base_sessions_.find (some k) := by
  have hload : ∀ e0 : OnDeviceModelExecutor,
      (OnDeviceModelExecutor.Init.load e0 chrome_ml features params
        on_complete).2.1.base_sessions_.find (some k) = e0.base_sessions_.find (some k) := by
    intro e0
    unfold OnDeviceModelExecutor.Init.load
    simp only
    split
    · exact SessionMap_find_insert_of_ne _ none (some k) _ (by simp)
    · rfl
  rcases Init_cases e chrome_ml features params on_complete with
    ⟨_, _, h1⟩ | ⟨_, _, h1⟩ | ⟨_, h1⟩
  · rw [h1]
  · rw [h1]; exact hload _
  · rw [h1]; exact hload _

/-- An executor that `CreateWithResult` returns has no entry for an
adaptation id. -/
theorem CreateWithResult_find_some (chrome_ml : ChromeML) (features : Features)
    (params : LoadModelParams) (on_complete : OnceClosure)
    (e : OnDeviceModelExecutor) (k : Nat)
    (h : (OnDeviceModelExecutor.CreateWithResult chrome_ml features params on_complete).1 =
      Except.ok e) :
    e.base_sessions_.find (some k) = none := by
  unfold OnDeviceModelExecutor.CreateWithResult at h
  simp only at h
  split at h
  · simp only [Except.ok.injEq] at h
    rw [← h, Init_find_some]
    rfl
  · simp at h

theorem run_append (p : Process) (xs ys : List Call) :
    p.run (xs ++ ys) =
      (((p.run xs).1.run ys).1, (p.run xs).2 ++ ((p.run xs).1.run ys).2) := by
  induction xs generalizing p with
  | nil => simp [Process.run]
  | cons x xs ih => simp [Process.run, ih, List.append_assoc]

theorem step_create_ok (p : Process) (chrome_ml : ChromeML) (features : Features)
    (params : LoadModelParams) (on_complete : OnceClosure) (e : OnDeviceModelExecutor)
    (h : (OnDeviceModelExecutor.CreateWithResult chrome_ml features params on_complete).1 =
      Except.ok e) :
    p.step (Call.CreateWithResult chrome_ml features params on_complete) =
      ({ p with executors := p.executors ++ [e] }, none) := by
  simp only [Process.step, h]

theorem step_create_error (p : Process) (chrome_ml : ChromeML) (features : Features)
    (params : LoadModelParams) (on_complete : OnceClosure) (err : LoadModelResult)
    (h : (OnDeviceModelExecutor.CreateWithResult chrome_ml features params on_complete).1 =
      Except.error err) :
    p.step (Call.CreateWithResult chrome_ml features params on_complete) = (p, none) := by
  simp only [Process.step, h]

theorem step_load_none (p : Process) (executor : Nat) (params : LoadAdaptationParams)
    (on_complete : OnceClosure) (h : p.executors.get? executor = none) :
    p.step (Call.LoadAdaptation executor params on_complete) = (p, none) := by
  simp only [Process.step, h]

theorem step_load_some (p : Process) (executor : Nat) (params : LoadAdaptationParams)
    (on_complete : OnceClosure) (e : OnDeviceModelExecutor)
    (h : p.executors.get? executor = some e) :
    p.step (Call.LoadAdaptation executor params on_complete) =
      ({ next_id := (p.next_id + 1) % kUint32Size,
         executors := p.executors.set executor
           (e.LoadAdaptation p.next_id params on_complete).2.2.1 },
       some { executor := executor, before := e,
              after := (e.LoadAdaptation p.next_id params on_complete).2.2.1,
              result := Except.ok p.next_id }) := by
  simp only [Process.step, h]
  rfl

/-- A call either completes no `LoadAdaptation` and leaves the counter
alone, or completes one on an executor of the process: that call returns
the counter, stores a session under it and advances the counter by one
modulo `2^32`. -/
theorem step_cases (p : Process) (c : Call) :
    ((p.step c).2 = none ∧ (p.step c).1.next_id = p.next_id ∧
      ∀ k, KeysBelow k p → KeysBelow k (p.step c).1) ∨
    (∃ l, (p.step c).2 = some l ∧ l.id = some p.next_id ∧ l.before ∈ p.executors ∧
      l.after.base_sessions_.find (some p.next_id) ≠ none ∧
      (p.step c).1.next_id = (p.next_id + 1) % kUint32Size ∧
      ∀ k, KeysBelow k p → p.next_id ≤ k → KeysBelow (k + 1) (p.step c).1) := by
  cases c with
  | CreateWithResult chrome_ml features params on_complete =>
    left
    cases h : (OnDeviceModelExecutor.CreateWithResult chrome_ml features params
        on_complete).1 with
    | error err =>
      rw [step_create_error p chrome_ml features params on_complete err h]
      exact ⟨rfl, rfl, fun _ hk => hk⟩
    | ok e =>
      rw [step_create_ok p chrome_ml features params on_complete e h]
      refine ⟨rfl, rfl, fun k hk e1 he1 j hj => ?_⟩
      simp only [List.mem_append, List.mem_singleton] at he1
      rcases he1 with he1 | he1
      · exact hk e1 he1 j hj
      · subst he1
        exact absurd (CreateWithResult_find_some chrome_ml features params on_complete
          e1 j h) hj
  | LoadAdaptation executor params on_complete =>
    cases h : p.executors.get? executor with
    | none =>
      rw [step_load_none p executor params on_complete h]
      exact Or.inl ⟨rfl, rfl, fun _ hk => hk⟩
    | some e =>
      right
      rw [step_load_some p executor params on_complete e h]
      refine ⟨_, rfl, rfl, List.get?_mem h, ?_, rfl, fun k hk hle e1 he1 j hj => ?_⟩
      · have hs := SessionMap_find_insert_self e.base_sessions_ (some p.next_id)
          (SessionAccessor.Create e.model_ (some params.assets.weights))
        intro hnone
        simp only [(LoadAdaptation_result p.next_id e params on_complete).2.2] at hnone
        rw [hnone] at hs
        exact absurd hs (by simp)
      · simp only at he1
        rcases List.mem_or_eq_of_mem_set he1 with he1 | he1
        · exact Nat.lt_succ_of_lt (hk e1 he1 j hj)
        · subst he1
          by_cases hjn : j = p.next_id
          · omega
          · rw [(LoadAdaptation_result p.next_id e params on_complete).2.2,
              SessionMap_find_insert_of_ne _ _ _ _ (by simpa using hjn)] at hj
            exact Nat.lt_succ_of_lt (hk e (List.get?_mem h) j hj)

/-- From a counter value `c` with every stored adaptation id below `c`, a
sequence of calls that does not take the counter past `2^32` returns the
ids `c, c + 1, ...`, each of them new to the store it is inserted in. -/
theorem run_ids_from (calls : List Call) : ∀ (p : Process) (c : Nat),
    p.next_id = c % kUint32Size → KeysBelow c p →
    c + (p.run calls).2.length ≤ kUint32Size →
    (p.run calls).2.filterMap Loaded.id = List.range' c (p.run calls).2.length ∧
    (∀ l ∈ (p.run calls).2, ∀ id, l.id = some id →
      l.before.base_sessions_.find (some id) = none ∧
      l.after.base_sessions_.find (some id) ≠ none) := by
  induction calls with
  | nil => intro p c _ _ _; simp [Process.run]
  | cons x xs ih =>
    intro p c hc hkeys hlen
    unfold Process.run at hlen ⊢
    simp only at hlen ⊢
    rcases step_cases p x with ⟨h2, hn, hk⟩ | ⟨l, h2, hid, hmem, hafter, hn, hk⟩
    · rw [h2] at hlen ⊢
      simp only [Option.toList, List.nil_append] at hlen ⊢
      exact ih (p.step x).1 c (hn.trans hc) (hk c hkeys) hlen
    · rw [h2] at hlen ⊢
      simp only [Option.toList, List.singleton_append, List.length_cons] at hlen ⊢
      have hclt : c < kUint32Size := by omega
      have hpc : p.next_id = c := by rw [hc]; exact Nat.mod_eq_of_lt hclt
      have hn1 : (p.step x).1.next_id = (c + 1) % kUint32Size := by rw [hn, hpc]
      have ih1 := ih (p.step x).1 (c + 1) hn1 (hk c hkeys (le_of_eq hpc)) (by omega)
      refine ⟨?_, ?_⟩
      · rw [List.filterMap_cons, hid, hpc, ih1.1, List.range'_succ]
      · intro l1 hl1 id hl1id
        simp only [List.mem_cons] at hl1
        rcases hl1 with hl1 | hl1
        · subst hl1
          rw [hid] at hl1id
          simp only [Option.some.injEq] at hl1id
          subst hl1id
          refine ⟨?_, hafter⟩
          by_contra hne
          have := hkeys l1.before hmem p.next_id hne
          omega
        · exact ih1.2 l1 hl1 id hl1id

theorem KeysBelow_start (c : Nat) : KeysBelow c Process.start := by
  intro e he
  simp [Process.start] at he

/-- The counter after a sequence of calls is the counter before plus the
number of completed `LoadAdaptation` calls, modulo `2^32`. -/
theorem run_next_id (calls : List Call) : ∀ (p : Process) (c : Nat),
    p.next_id = c % kUint32Size →
    (p.run calls).1.next_id = (c + (p.run calls).2.length) % kUint32Size := by
  induction calls with
  | nil => intro p c hc; simpa [Process.run] using hc
  | cons x xs ih =>
    intro p c hc
    unfold Process.run
    simp only
    rcases step_cases p x with ⟨h2, hn, _⟩ | ⟨l, h2, _, _, _, hn, _⟩
    · rw [h2]
      simp only [Option.toList, List.nil_append]
      exact ih (p.step x).1 c (hn.trans hc)
    · rw [h2]
      simp only [Option.toList, List.singleton_append, List.length_cons]
      have hn1 : (p.step x).1.next_id = (c + 1) % kUint32Size := by
        rw [hn, hc]
        unfold kUint32Size
        omega
      rw [ih (p.step x).1 (c + 1) hn1]
      congr 1
      omega

/-- A successful `CreateWithResult` followed by two `LoadAdaptation` calls
on the executor it made: the two calls run on that executor, find its store
as `CreateWithResult` left it and then with the first entry added, and
return the counter and its successor modulo `2^32`. -/
theorem fresh_executor_loads (p : Process) (n : Nat) (chrome_ml : ChromeML)
    (features : Features) (params : LoadModelParams) (on_complete : OnceClosure)
    (e : OnDeviceModelExecutor) (params1 params2 : LoadAdaptationParams)
    (on_complete1 on_complete2 : OnceClosure)
    (hn : p.next_id = n % kUint32Size)
    (hcreate :
      (OnDeviceModelExecutor.CreateWithResult chrome_ml features params on_complete).1 =
        Except.ok e) :
    (p.run
        [Call.CreateWithResult chrome_ml features params on_complete,
         Call.LoadAdaptation p.executors.length params1 on_complete1,
         Call.LoadAdaptation p.executors.length params2 on_complete2]).2.map
          (fun l => (l.executor, l.before.base_sessions_, l.id)) =
      [(p.executors.length, e.base_sessions_, some (n % kUint32Size)),
       (p.executors.length,
          e.base_sessions_.insert (some (n % kUint32Size))
            (SessionAccessor.Create e.model_ (some params1.assets.weights)),
          some ((n + 1) % kUint32Size))] ∧
    (p.run
        [Call.CreateWithResult chrome_ml features params on_complete,
         Call.LoadAdaptation p.executors.length params1 on_complete1,
         Call.LoadAdaptation p.executors.length params2 on_complete2]).2.filterMap
          Loaded.id = [n % kUint32Size, (n + 1) % kUint32Size] := by
  have hmod : (n % kUint32Size + 1) % kUint32Size = (n + 1) % kUint32Size := by
    unfold kUint32Size; omega
  have h1 : ({ p with executors := p.executors ++ [e] } : Process).executors.get?
      p.executors.length = some e := by simp
  have h2 : (Process.mk ((p.next_id + 1) % kUint32Size)
        ((p.executors ++ [e]).set p.executors.length
          (e.LoadAdaptation p.next_id params1 on_complete1).2.2.1)).executors.get?
      p.executors.length = some (e.LoadAdaptation p.next_id params1 on_complete1).2.2.1 := by
    simp
  simp only [Process.run, step_create_ok p chrome_ml features params on_complete e hcreate,
    step_load_some _ _ params1 on_complete1 e h1,
    step_load_some _ _ params2 on_complete2 _ h2]
  simp [Loaded.id, hn, hmod, (LoadAdaptation_result _ e params1 on_complete1).2.2]

/-- C8, as stated, fails: after another executor of the process has loaded
one adaptation, the first two `LoadAdaptation` calls on a freshly created
executor return 1 and then 2, not 0 and then 1. -/
theorem C8_fresh_executor_ids_counterexample :
    Process.start.ids twoExecutorCalls = [0, 1, 2] ∧
    (Process.start.run twoExecutorCalls).2.map Loaded.executor = [0, 1, 1] ∧
    Process.start.idsOn twoExecutorCalls 1 = [1, 2] ∧
    Process.start.idsOn twoExecutorCalls 1 ≠ [0, 1] := by
  refine ⟨rfl, rfl, rfl, ?_⟩
  decide

/-- C8, amended: for every freshly created executor, whatever calls were
made in the process before, the first two `LoadAdaptation` calls on it
return `n mod 2^32` and then `(n + 1) mod 2^32`, where `n` is the number of
`LoadAdaptation` calls completed before in the process on any executor: the
id counter is a function-local static that all executors share. They are 0
and then 1 when no `LoadAdaptation` call was made before. -/
theorem C8_fresh_executor_ids (pre : List Call) (chrome_ml : ChromeML)
    (features : Features) (params : LoadModelParams) (on_complete : OnceClosure)
    (e : OnDeviceModelExecutor) (params1 params2 : LoadAdaptationParams)
    (on_complete1 on_complete2 : OnceClosure)
    (hcreate :
      (OnDeviceModelExecutor.CreateWithResult chrome_ml features params on_complete).1 =
        Except.ok e) :
    ((Process.start.run pre).1.run
        [Call.CreateWithResult chrome_ml features params on_complete,
         Call.LoadAdaptation (Process.start.run pre).1.executors.length params1 on_complete1,
         Call.LoadAdaptation (Process.start.run pre).1.executors.length params2
           on_complete2]).2.map (fun l => (l.executor, l.before.base_sessions_, l.id)) =
      [((Process.start.run pre).1.executors.length, e.base_sessions_,
          some ((Process.start.run pre).2.length % kUint32Size)),
       ((Process.start.run pre).1.executors.length,
          e.base_sessions_.insert (some ((Process.start.run pre).2.length % kUint32Size))
            (SessionAccessor.Create e.model_ (some params1.assets.weights)),
          some (((Process.start.run pre).2.length + 1) % kUint32Size))] ∧
    Process.start.ids
        (pre ++ [Call.CreateWithResult chrome_ml features params on_complete,
         Call.LoadAdaptation (Process.start.run pre).1.executors.length params1 on_complete1,
         Call.LoadAdaptation (Process.start.run pre).1.executors.length params2
           on_complete2]) =
      Process.start.ids pre ++
        [(Process.start.run pre).2.length % kUint32Size,
         ((Process.start.run pre).2.length + 1) % kUint32Size] ∧
    ((Process.start.run pre).2.length = 0 →
      Process.start.ids
        (pre ++ [Call.CreateWithResult chrome_ml features params on_complete,
         Call.LoadAdaptation (Process.start.run pre).1.executors.length params1 on_complete1,
         Call.LoadAdaptation (Process.start.run pre).1.executors.length params2
           on_complete2]) = [0, 1]) := by
  have hn : (Process.start.run pre).1.next_id =
      (Process.start.run pre).2.length % kUint32Size := by
    have := run_next_id pre Process.start 0 rfl
    simpa using this
  have key := fresh_executor_loads (Process.start.run pre).1 (Process.start.run pre).2.length
    chrome_ml features params on_complete e params1 params2 on_complete1 on_complete2
    hn hcreate
  have hids : Process.start.ids
        (pre ++ [Call.CreateWithResult chrome_ml features params on_complete,
         Call.LoadAdaptation (Process.start.run pre).1.executors.length params1 on_complete1,
         Call.LoadAdaptation (Process.start.run pre).1.executors.length params2
           on_complete2]) =
      Process.start.ids pre ++
        [(Process.start.run pre).2.length % kUint32Size,
         ((Process.start.run pre).2.length + 1) % kUint32Size] := by
    unfold Process.ids
    rw [run_append, List.filterMap_append, key.2]
  refine ⟨key.1, hids, fun h0 => ?_⟩
  rw [hids, h0]
  have hnil : (Process.start.run pre).2 = [] := List.length_eq_zero.mp h0
  unfold Process.ids
  rw [hnil]
  rfl

/-- After another executor has loaded one adaptation, a fresh executor's
first two `LoadAdaptation` calls return 1 and 2. -/
theorem C8_fresh_executor_ids_witness :
    Process.start.ids
        ([exampleCreate, exampleLoad 0] ++ [exampleCreate, exampleLoad 1, exampleLoad 1]) =
      Process.start.ids [exampleCreate, exampleLoad 0] ++ [1, 2] :=
  (C8_fresh_executor_ids [exampleCreate, exampleLoad 0] exampleChromeML exampleFeatures
    exampleParams 0 exampleExecutor { assets := { weights := some 5 } }
    { assets := { weights := some 5 } } 1 1 rfl).2.1

/-- C9: adaptation ids are sequential and never reused. For every sequence
of calls of a process, from its start, that completes fewer than `2^32`
`LoadAdaptation` calls, on whichever executors: the calls return 0, 1, 2, ...
in order, so each returns the id of the call before plus one and no two
return the same id; and the id a call returns was not a key of the store of
its executor before the call and is one after it, so it is not given to a
second adaptation. -/
theorem C9_ids_sequential (calls : List Call)
    (h : (Process.start.run calls).2.length < kUint32Size) :
    Process.start.ids calls = List.range (Process.start.run calls).2.length ∧
    (∀ k a b, (Process.start.ids calls).get? k = some a →
      (Process.start.ids calls).get? (k + 1) = some b → b = a + 1) ∧
    (Process.start.ids calls).Nodup ∧
    (∀ l ∈ (Process.start.run calls).2, ∀ id, l.id = some id →
      l.before.base_sessions_.find (some id) = none ∧
      l.after.base_sessions_.find (some id) ≠ none) := by
  have hrun := run_ids_from calls Process.start 0 rfl (KeysBelow_start 0) (by omega)
  have hids : Process.start.ids calls = List.range (Process.start.run calls).2.length := by
    unfold Process.ids
    rw [hrun.1, List.range_eq_range']
  refine ⟨hids, ?_, ?_, hrun.2⟩
  · intro k a b ha hb
    rw [hids] at ha hb
    simp only [List.get?_eq_getElem?, List.getElem?_eq_some, List.getElem_range] at ha hb
    obtain ⟨_, ha⟩ := ha
    obtain ⟨_, hb⟩ := hb
    omega
  · rw [hids]
    exact List.nodup_range _

/-- Three `LoadAdaptation` calls on two executors return 0, 1 and 2. -/
theorem C9_ids_sequential_witness :
    Process.start.ids twoExecutorCalls = List.range 3 ∧
    (Process.start.ids twoExecutorCalls).Nodup :=
  ⟨(C9_ids_sequential twoExecutorCalls (by decide)).1,
   (C9_ids_sequential twoExecutorCalls (by decide)).2.2.1⟩

/-- C10, as stated, fails: `LoadAdaptation` adds one session to the store,
not two. The store of the example executor holds one entry before the call
and two after it. -/
theorem C10_load_adaptation_store_counterexample :
    exampleExecutor.base_sessions_ = [(none, SessionAccessor.Create 7 none)] ∧
    (exampleExecutor.LoadAdaptation 0 { assets := { weights := some 5 } } 1).2.2.1.base_sessions_ =
      [(none, SessionAccessor.Create 7 none),
       (some 0, SessionAccessor.Create 7 (some (some 5)))] ∧
    (exampleExecutor.LoadAdaptation 0 { assets := { weights := some 5 } }
        1).2.2.1.base_sessions_.length ≠ exampleExecutor.base_sessions_.length + 2 := by
  refine ⟨rfl, rfl, ?_⟩
  decide

/-- C10, amended: `LoadAdaptation` returns the counter as id and, when that
id is not yet a key, adds one new prototype session to the store under it,
created on the model of the executor from the adaptation weights; it leaves
every previously stored entry unchanged; and afterwards `CreateSession` with
that id succeeds, with a working and an empty session that are both clones
of the one prototype stored under the id. -/
theorem C10_load_adaptation_store (next_id : Nat) (e : OnDeviceModelExecutor)
    (params : LoadAdaptationParams) (on_complete : OnceClosure) :
    (e.LoadAdaptation next_id params on_complete).1 = Except.ok next_id ∧
    (e.base_sessions_.find (some next_id) = none →
      (e.LoadAdaptation next_id params on_complete).2.2.1.base_sessions_ =
        e.base_sessions_ ++
          [(some next_id, SessionAccessor.Create e.model_ (some params.assets.weights))] ∧
      (e.LoadAdaptation next_id params on_complete).2.2.1.base_sessions_.find (some next_id) =
        some (SessionAccessor.Create e.model_ (some params.assets.weights))) ∧
    (∀ key value, e.base_sessions_.find key = some value →
      (e.LoadAdaptation next_id params on_complete).2.2.1.base_sessions_.find key =
        some value) ∧
    (∀ key, key ≠ some next_id →
      (e.LoadAdaptation next_id params on_complete).2.2.1.base_sessions_.find key =
        e.base_sessions_.find key) ∧
    (∃ prototype,
      (e.LoadAdaptation next_id params on_complete).2.2.1.base_sessions_.find (some next_id) =
        some prototype ∧
      (e.LoadAdaptation next_id params on_complete).2.2.1.CreateSession (some next_id) =
        some (SessionImpl.new e.model_ prototype.Clone prototype.Clone
          ((e.max_tokens_ + kUint32Size - kReserveTokensForSafety) % kUint32Size)
          (some next_id))) := by
  have hstore := (LoadAdaptation_result next_id e params on_complete).2.2
  refine ⟨rfl, ?_, ?_, ?_, ?_⟩
  · intro hfresh
    refine ⟨?_, ?_⟩
    · rw [hstore]
      unfold SessionMap.insert
      unfold SessionMap.find at hfresh
      rw [hfresh]
    · rw [hstore]
      exact SessionMap_find_insert_fresh _ _ _ hfresh
  · intro key value hkey
    rw [hstore]
    exact SessionMap_find_insert_of_some _ _ _ _ _ hkey
  · intro key hkey
    rw [hstore]
    exact SessionMap_find_insert_of_ne _ _ _ _ hkey
  · have hsome := SessionMap_find_insert_self e.base_sessions_ (some next_id)
      (SessionAccessor.Create e.model_ (some params.assets.weights))
    rw [← hstore] at hsome
    obtain ⟨prototype, hp⟩ := Option.isSome_iff_exists.mp hsome
    refine ⟨prototype, hp, ?_⟩
    unfold OnDeviceModelExecutor.CreateSession
    rw [hp]
    rfl

/-- On the example executor, `LoadAdaptation` at counter 0 leaves the base
entry alone, and `CreateSession` with id 0 then succeeds. -/
theorem C10_load_adaptation_store_witness :
    exampleAdaptedExecutor.base_sessions_.find none = some (SessionAccessor.Create 7 none) ∧
    exampleAdaptedExecutor.base_sessions_.find (some 0) =
      some (SessionAccessor.Create 7 (some (some 5))) ∧
    (exampleAdaptedExecutor.CreateSession (some 0)).isSome = true :=
  ⟨(C10_load_adaptation_store 0 exampleExecutor { assets := { weights := some 5 } }
      1).2.2.1 none (SessionAccessor.Create 7 none) rfl,
   ((C10_load_adaptation_store 0 exampleExecutor { assets := { weights := some 5 } }
      1).2.1 rfl).2,
   rfl⟩

/-! ## CreateSession and the session store -/

theorem CreateSession_eq_none_iff (e : OnDeviceModelExecutor) (adaptation_id : Option Nat) :
    e.CreateSession adaptation_id = none ↔ e.base_sessions_.find adaptation_id = none := by
  unfold OnDeviceModelExecutor.CreateSession
  cases h : e.base_sessions_.find adaptation_id <;> simp

theorem CreateSession_of_find (e : OnDeviceModelExecutor) (adaptation_id : Option Nat)
    (prototype : SessionAccessor) (h : e.base_sessions_.find adaptation_id = some prototype) :
    e.CreateSession adaptation_id =
      some (SessionImpl.new e.model_ prototype.Clone prototype.Clone
        ((e.max_tokens_ + kUint32Size - kReserveTokensForSafety) % kUint32Size)
        adaptation_id) := by
  unfold OnDeviceModelExecutor.CreateSession
  rw [h]

/-- After a successful `Init` the store has an entry for the base model. -/
theorem Init_success_find_none (e : OnDeviceModelExecutor) (chrome_ml : ChromeML)
    (features : Features) (params : LoadModelParams) (on_complete : OnceClosure)
    (h : (e.Init chrome_ml features params on_complete).1 = LoadModelResult.kSuccess) :
    (e.Init chrome_ml features params on_complete).2.1.base_sessions_.find none ≠ none := by
  have hload : ∀ e0 : OnDeviceModelExecutor,
      (OnDeviceModelExecutor.Init.load e0 chrome_ml features params on_complete).1 =
        LoadModelResult.kSuccess →
      (OnDeviceModelExecutor.Init.load e0 chrome_ml features params
        on_complete).2.1.base_sessions_.find none ≠ none := by
    intro e0 h0
    unfold OnDeviceModelExecutor.Init.load at h0 ⊢
    simp only at h0 ⊢
    split
    · intro hn
      have hs := SessionMap_find_insert_self e0.base_sessions_ none
        (SessionAccessor.Create (chrome_ml.SessionCreateModel
          (OnDeviceModelExecutor.Init.descriptor features params
            (max params.max_tokens kReserveTokensForSafety))) none)
      rw [hn] at hs
      exact absurd hs (by simp)
    · rename_i hm
      simp [hm] at h0
  rcases Init_cases e chrome_ml features params on_complete with
    ⟨_, _, h1⟩ | ⟨_, _, h1⟩ | ⟨_, h1⟩
  · rw [h1] at h
    simp at h
  · rw [h1] at h ⊢
    exact hload _ h
  · rw [h1] at h ⊢
    exact hload _ h

/-- The keys of the store after `LoadAdaptation` calls: those before and
the ids the calls returned. -/
theorem LoadedIds_find (e0 e : OnDeviceModelExecutor) (ids : List Nat)
    (h : LoadedIds e0 e ids) :
    (e0.base_sessions_.find none ≠ none → e.base_sessions_.find none ≠ none) ∧
    (∀ k, e.base_sessions_.find (some k) ≠ none ↔
      e0.base_sessions_.find (some k) ≠ none ∨ k ∈ ids) := by
  induction h with
  | start => simp
  | load e ids next_id params on_complete _ ih =>
    have hstore := (LoadAdaptation_result next_id e params on_complete).2.2
    refine ⟨fun h0 => ?_, fun k => ?_⟩
    · rw [hstore, SessionMap_find_insert_of_ne _ _ _ _ (by simp)]
      exact ih.1 h0
    · rw [hstore]
      by_cases hk : k = next_id
      · subst hk
        have hs := SessionMap_find_insert_self e.base_sessions_ (some k)
          (SessionAccessor.Create e.model_ (some params.assets.weights))
        constructor
        · intro _
          right
          simp
        · intro _ hn
          rw [hn] at hs
          exact absurd hs (by simp)
      · rw [SessionMap_find_insert_of_ne _ _ _ _ (by simpa using hk), ih.2 k]
        simp [hk]

/-- C11: `CreateSession(adaptation_id)` fails its `CHECK` if and only if
`adaptation_id` is not a key of the session store. On every executor whose
`Init` succeeded, also after any `LoadAdaptation` calls, it succeeds for the
absent id and for every id that a `LoadAdaptation` call on that executor
returned, and it fails for every other id. When it succeeds the session is
made of two clones of the prototype stored under the id; the method assigns
no member, so the store is as before. -/
theorem C11_create_session_check (chrome_ml : ChromeML) (features : Features)
    (params : LoadModelParams) (init_complete : OnceClosure)
    (e : OnDeviceModelExecutor) (ids : List Nat) (adaptation_id : Option Nat)
    (hinit : (OnDeviceModelExecutor.new.Init chrome_ml features params init_complete).1 =
      LoadModelResult.kSuccess)
    (hloaded : LoadedIds
      (OnDeviceModelExecutor.new.Init chrome_ml features params init_complete).2.1 e ids) :
    (e.CreateSession adaptation_id = none ↔ e.base_sessions_.find adaptation_id = none) ∧
    (e.CreateSession none).isSome = true ∧
    (∀ k ∈ ids, (e.CreateSession (some k)).isSome = true) ∧
    (∀ k, k ∉ ids → e.CreateSession (some k) = none) ∧
    (∀ s, e.CreateSession adaptation_id = some s →
      ∃ prototype, e.base_sessions_.find adaptation_id = some prototype ∧
        s.session_ = prototype.Clone ∧ s.empty_session_ = prototype.Clone ∧
        s.adaptation_id_ = adaptation_id) := by
  have hfind := LoadedIds_find _ e ids hloaded
  have hbase := hfind.1 (Init_success_find_none _ chrome_ml features params init_complete hinit)
  have hkeys : ∀ k, e.base_sessions_.find (some k) ≠ none ↔ k ∈ ids := by
    intro k
    rw [hfind.2 k, Init_find_some]
    simp [OnDeviceModelExecutor.new, SessionMap.find]
  refine ⟨CreateSession_eq_none_iff e adaptation_id, ?_, ?_, ?_, ?_⟩
  · rw [Option.isSome_iff_ne_none]
    intro hn
    exact hbase ((CreateSession_eq_none_iff e none).mp hn)
  · intro k hk
    rw [Option.isSome_iff_ne_none]
    intro hn
    exact (hkeys k).mpr hk ((CreateSession_eq_none_iff e (some k)).mp hn)
  · intro k hk
    rw [CreateSession_eq_none_iff]
    by_contra hn
    exact hk ((hkeys k).mp hn)
  · intro s hs
    cases hp : e.base_sessions_.find adaptation_id with
    | none =>
      rw [(CreateSession_eq_none_iff e adaptation_id).mpr hp] at hs
      simp at hs
    | some prototype =>
      rw [CreateSession_of_find e adaptation_id prototype hp] at hs
      simp only [Option.some.injEq] at hs
      subst hs
      exact ⟨prototype, rfl, rfl, rfl, rfl⟩

/-- On the example executor after one `LoadAdaptation` call that returned 0:
the base session and the session for id 0 are created, and id 1 fails. -/
theorem C11_create_session_check_witness :
    (exampleAdaptedExecutor.CreateSession none).isSome = true ∧
    (exampleAdaptedExecutor.CreateSession (some 0)).isSome = true ∧
    exampleAdaptedExecutor.CreateSession (some 1) = none :=
  have h := C11_create_session_check exampleChromeML exampleFeatures exampleParams 0
    exampleAdaptedExecutor ([] ++ [0]) (some 1) rfl
    (LoadedIds.load _ [] 0 { assets := { weights := some 5 } } 1 LoadedIds.start)
  ⟨h.2.1, h.2.2.1 0 (by decide), h.2.2.2.1 1 (by decide)⟩

/-! ## Execute -/

theorem generationRequests_append (xs ys : List Event) :
    generationRequests (xs ++ ys) = generationRequests xs ++ generationRequests ys := by
  induction xs with
  | nil => rfl
  | cons x xs ih =>
    cases x with
    | SessionExecute session input output_fn context_saved_fn =>
      cases output_fn <;> simp [generationRequests, ih]
    | _ => simp [generationRequests, ih]

theorem contextRequests_append (xs ys : List Event) :
    contextRequests (xs ++ ys) = contextRequests xs ++ contextRequests ys := by
  induction xs with
  | nil => rfl
  | cons x xs ih =>
    cases x with
    | SessionExecute session input output_fn context_saved_fn =>
      cases context_saved_fn <;> simp [contextRequests, ih]
    | _ => simp [contextRequests, ih]

theorem closuresRun_append (xs ys : List Event) :
    closuresRun (xs ++ ys) = closuresRun xs ++ closuresRun ys := by
  induction xs with
  | nil => rfl
  | cons x xs ih => cases x <;> simp [closuresRun, ih]

theorem cancelsInvoked_append (xs ys : List Event) :
    cancelsInvoked (xs ++ ys) = cancelsInvoked xs ++ cancelsInvoked ys := by
  induction xs with
  | nil => rfl
  | cons x xs ih => cases x <;> simp [cancelsInvoked, ih]

theorem sinkEvents_append (xs ys : List Event) :
    sinkEvents (xs ++ ys) = sinkEvents xs ++ sinkEvents ys := by
  induction xs with
  | nil => rfl
  | cons x xs ih => cases x <;> simp [sinkEvents, ih]

/-- The effects of `Responder::Cancel`, and so of the destructor: the
session is released if held, the cancel function invoked if bound, and
`on_complete_` run if not null. -/
theorem Responder_Cancel_events (r : Responder) :
    (r.Cancel).2 = r.releaseSession ++
      (match r.cancel_ with
        | some fn => [Event.Cancel fn]
        | none => []) ++
      (match r.on_complete_ with
        | some c => [Event.Run c]
        | none => []) := by
  unfold Responder.Cancel
  cases hc : r.cancel_ <;> cases ho : r.on_complete_ <;> simp

theorem Responder_Cancel_state (r : Responder) :
    (r.Cancel).1 = { r with session_ := none, on_complete_ := none } := by
  unfold Responder.Cancel
  cases ho : r.on_complete_ <;> simp [ho]

theorem Responder_Cancel_projections (r : Responder) :
    generationRequests (r.Cancel).2 = [] ∧ contextRequests (r.Cancel).2 = [] ∧
    closuresRun (r.Cancel).2 = r.on_complete_.toList ∧
    cancelsInvoked (r.Cancel).2 = r.cancel_.toList ∧
    sinkEvents (r.Cancel).2 = [] := by
  rw [Responder_Cancel_events]
  unfold Responder.releaseSession
  cases hs : r.session_ <;> cases hc : r.cancel_ <;> cases ho : r.on_complete_ <;>
    simp [generationRequests, contextRequests, closuresRun, cancelsInvoked, sinkEvents]

/-- C12: for every input, `SessionImpl::Execute` issues exactly one
generation request and no context request. The request is made on a clone
taken for this call, of `empty_session_` when `input.ignore_context` is true
and of `session_` otherwise; `session_` and `empty_session_` of the session
are as before, so they did not receive it; and the clone, after the
request, is held by the new Responder. -/
theorem C12_execute_request (s : SessionImpl) (features : Features)
    (input : InputOptions) (response : Nat) (on_complete : Option OnceClosure)
    (engine_cancel : ChromeMLCancelFn) :
    generationRequests (s.Execute features input response on_complete engine_cancel).2 =
      [(if input.ignore_context then s.empty_session_.Clone else s.session_.Clone,
        { text := input.text,
          max_tokens := some (min (input.max_tokens.getD s.max_tokens_) s.max_tokens_),
          top_k := some (GetTopK features input.top_k),
          temperature := some (GetTemperature input.temperature),
          ignore_context := input.ignore_context })] ∧
    (input.ignore_context = true →
      (generationRequests (s.Execute features input response on_complete
        engine_cancel).2).map Prod.fst = [s.empty_session_.Clone]) ∧
    (input.ignore_context = false →
      (generationRequests (s.Execute features input response on_complete
        engine_cancel).2).map Prod.fst = [s.session_.Clone]) ∧
    contextRequests (s.Execute features input response on_complete engine_cancel).2 = [] ∧
    (s.Execute features input response on_complete engine_cancel).1.session_ = s.session_ ∧
    (s.Execute features input response on_complete engine_cancel).1.empty_session_ =
      s.empty_session_ ∧
    (s.Execute features input response on_complete engine_cancel).1.responder_ =
      some { first_token_time_ := 0, num_tokens_ := 0, output_so_far_ := "",
             responder_ := response, cancel_ := engine_cancel,
             on_complete_ := on_complete,
             session_ := some
               ((if input.ignore_context then s.empty_session_.Clone
                  else s.session_.Clone).Execute
                { text := input.text,
                  max_tokens := some (min (input.max_tokens.getD s.max_tokens_) s.max_tokens_),
                  top_k := some (GetTopK features input.top_k),
                  temperature := some (GetTemperature input.temperature),
                  ignore_context := input.ignore_context }) } := by
  have hreq : generationRequests
      (s.Execute features input response on_complete engine_cancel).2 =
      [(if input.ignore_context then s.empty_session_.Clone else s.session_.Clone,
        { text := input.text,
          max_tokens := some (min (input.max_tokens.getD s.max_tokens_) s.max_tokens_),
          top_k := some (GetTopK features input.top_k),
          temperature := some (GetTemperature input.temperature),
          ignore_context := input.ignore_context })] := by
    unfold SessionImpl.Execute
    cases hr : s.responder_ <;>
      simp [generationRequests_append, Responder.destroy,
        (Responder_Cancel_projections _).1, generationRequests]
  refine ⟨hreq, ?_, ?_, ?_, rfl, rfl, rfl⟩
  · intro h
    rw [hreq]
    simp [h]
  · intro h
    rw [hreq]
    simp [h]
  · unfold SessionImpl.Execute
    cases hr : s.responder_ <;>
      simp [contextRequests_append, Responder.destroy,
        (Responder_Cancel_projections _).2.1, contextRequests]

/-- C17: when `SessionImpl::Execute` is called while the session holds the
Responder of an earlier `Execute`, that Responder is destroyed before the
new generation request is issued: the effects of its destructor, which
invokes its cancel function if bound and runs its `on_complete_` if not yet
run, come first and the request last. The member `responder_` is one
`std::unique_ptr`, so the session holds one Responder at most, afterwards
the new one. -/
theorem C17_execute_supersedes (s : SessionImpl) (features : Features)
    (input : InputOptions) (response : Nat) (on_complete : Option OnceClosure)
    (engine_cancel : ChromeMLCancelFn) (old : Responder)
    (h : s.responder_ = some old) :
    (s.Execute features input response on_complete engine_cancel).2 =
      old.destroy ++
        [Event.SessionExecute
          (if input.ignore_context then s.empty_session_.Clone else s.session_.Clone)
          { text := input.text,
            max_tokens := some (min (input.max_tokens.getD s.max_tokens_) s.max_tokens_),
            top_k := some (GetTopK features input.top_k),
            temperature := some (GetTemperature input.temperature),
            ignore_context := input.ignore_context } true false] ∧
    old.destroy = old.releaseSession ++
      (match old.cancel_ with
        | some fn => [Event.Cancel fn]
        | none => []) ++
      (match old.on_complete_ with
        | some c => [Event.Run c]
        | none => []) ∧
    cancelsInvoked (s.Execute features input response on_complete engine_cancel).2 =
      old.cancel_.toList ∧
    closuresRun (s.Execute features input response on_complete engine_cancel).2 =
      old.on_complete_.toList ∧
    (∃ r, (s.Execute features input response on_complete engine_cancel).1.responder_ =
        some r ∧ r.responder_ = response ∧ r.on_complete_ = on_complete ∧
        r.cancel_ = engine_cancel ∧ r.num_tokens_ = 0) := by
  have hev : (s.Execute features input response on_complete engine_cancel).2 =
      old.destroy ++
        [Event.SessionExecute
          (if input.ignore_context then s.empty_session_.Clone else s.session_.Clone)
          { text := input.text,
            max_tokens := some (min (input.max_tokens.getD s.max_tokens_) s.max_tokens_),
            top_k := some (GetTopK features input.top_k),
            temperature := some (GetTemperature input.temperature),
            ignore_context := input.ignore_context } true false] := by
    unfold SessionImpl.Execute
    simp [h]
  refine ⟨hev, Responder_Cancel_events old, ?_, ?_, ⟨_, rfl, rfl, rfl, rfl, rfl⟩⟩
  · rw [hev, cancelsInvoked_append]
    simp [Responder.destroy, (Responder_Cancel_projections old).2.2.2.1, cancelsInvoked]
  · rw [hev, closuresRun_append]
    simp [Responder.destroy, (Responder_Cancel_projections old).2.2.1, closuresRun]

/-! ## The Responder over its life -/

theorem Responder_OnOutput_text (r : Responder) (rate : FloatRate) (t : String)
    (now : Nat) :
    (r.OnOutput rate (some t) now).2 = [Event.OnResponse r.responder_ t] ∧
    (r.OnOutput rate (some t) now).1.on_complete_ = r.on_complete_ ∧
    (r.OnOutput rate (some t) now).1.cancel_ = r.cancel_ ∧
    (r.OnOutput rate (some t) now).1.session_ = r.session_ ∧
    (r.OnOutput rate (some t) now).1.responder_ = r.responder_ ∧
    (r.OnOutput rate (some t) now).1.num_tokens_ = r.num_tokens_ + 1 := by
  unfold Responder.OnOutput
  simp only
  split <;> exact ⟨rfl, rfl, rfl, rfl, rfl, rfl⟩

/-- The effects of `OnOutput` for the end of the output, in order. -/
theorem Responder_OnOutput_end_events (r : Responder) (rate : FloatRate) (now : Nat) :
    (r.OnOutput rate none now).2 = r.releaseSession ++
      [Event.Histogram HistogramName.TokenCount_Output r.num_tokens_] ++
      (if r.num_tokens_ > (1 : Int) then
        [Event.Histogram HistogramName.TokensPerSecond_Output
          (CalculateTokensPerSecond rate (r.num_tokens_ - 1)
            ((now : Int) - (r.first_token_time_ : Int)))]
       else []) ++
      [Event.OnComplete r.responder_] ++
      (match r.on_complete_ with
        | some c => [Event.Run c]
        | none => []) := by
  unfold Responder.OnOutput
  cases ho : r.on_complete_ <;> simp

theorem Responder_OnOutput_end_state (r : Responder) (rate : FloatRate) (now : Nat) :
    (r.OnOutput rate none now).1 = { r with session_ := none, on_complete_ := none } := by
  unfold Responder.OnOutput
  cases ho : r.on_complete_ <;> simp [ho]

theorem Responder_OnOutput_end_projections (r : Responder) (rate : FloatRate) (now : Nat) :
    closuresRun (r.OnOutput rate none now).2 = r.on_complete_.toList ∧
    cancelsInvoked (r.OnOutput rate none now).2 = [] ∧
    sinkEvents (r.OnOutput rate none now).2 = [Event.OnComplete r.responder_] := by
  rw [Responder_OnOutput_end_events]
  unfold Responder.releaseSession
  cases hs : r.session_ <;> cases ho : r.on_complete_ <;>
    by_cases hn : r.num_tokens_ > (1 : Int) <;>
    simp [closuresRun, cancelsInvoked, sinkEvents, hn]

/-- One event on a Responder: the closures it runs and the closure still
pending make up the closure that was pending; the cancel function stays
bound as it was and is invoked by a disconnect only. -/
theorem Responder_handle_projections (rate : FloatRate) (r : Responder)
    (ev : ResponderEvent) :
    closuresRun (Responder.handle rate r ev).2 ++
        (Responder.handle rate r ev).1.on_complete_.toList = r.on_complete_.toList ∧
    (Responder.handle rate r ev).1.cancel_ = r.cancel_ ∧
    (Responder.handle rate r ev).1.responder_ = r.responder_ ∧
    cancelsInvoked (Responder.handle rate r ev).2 =
      (if ev = ResponderEvent.disconnect then r.cancel_.toList else []) := by
  cases ev with
  | output text now =>
    cases text with
    | some t =>
      have h := Responder_OnOutput_text r rate t now
      simp only [Responder.handle]
      rw [h.1, h.2.1, h.2.2.1, h.2.2.2.2.1]
      simp [closuresRun, cancelsInvoked]
    | none =>
      have h := Responder_OnOutput_end_projections r rate now
      simp only [Responder.handle]
      rw [h.1, h.2.1, Responder_OnOutput_end_state]
      simp
  | disconnect =>
    have h := Responder_Cancel_projections r
    simp only [Responder.handle]
    rw [h.2.2.1, h.2.2.2.1, Responder_Cancel_state]
    simp

theorem Responder_run_projections (rate : FloatRate) (evs : List ResponderEvent) :
    ∀ r : Responder,
    closuresRun (Responder.run rate r evs).2 ++
        (Responder.run rate r evs).1.on_complete_.toList = r.on_complete_.toList ∧
    (Responder.run rate r evs).1.cancel_ = r.cancel_ ∧
    (Responder.run rate r evs).1.responder_ = r.responder_ ∧
    cancelsInvoked (Responder.run rate r evs).2 =
      (List.replicate (evs.count ResponderEvent.disconnect) r.cancel_.toList).flatten := by
  induction evs with
  | nil => intro r; simp [Responder.run, closuresRun, cancelsInvoked]
  | cons ev evs ih =>
    intro r
    have h := Responder_handle_projections rate r ev
    have ih1 := ih (Responder.handle rate r ev).1
    unfold Responder.run
    simp only
    refine ⟨?_, ?_, ?_, ?_⟩
    · rw [closuresRun_append, List.append_assoc, ih1.1, h.1]
    · rw [ih1.2.1, h.2.1]
    · rw [ih1.2.2.1, h.2.2.1]
    · rw [cancelsInvoked_append, ih1.2.2.2, h.2.2.2, h.2.1]
      by_cases hd : ev = ResponderEvent.disconnect
      · subst hd
        simp [List.replicate_succ]
      · have hd1 : (ev == ResponderEvent.disconnect) = false := by simpa using hd
        simp [hd, List.count_cons, hd1]

/-- Over the whole life of a Responder the closures run are exactly the
closure pending at the start, and the cancel function, if bound, is invoked
once for each disconnect and once by the destructor. -/
theorem Responder_lifetime_projections (rate : FloatRate) (r : Responder)
    (evs : List ResponderEvent) :
    closuresRun (r.lifetime rate evs) = r.on_complete_.toList ∧
    cancelsInvoked (r.lifetime rate evs) =
      (List.replicate (evs.count ResponderEvent.disconnect + 1) r.cancel_.toList).flatten := by
  have h := Responder_run_projections rate evs r
  have hd := Responder_Cancel_projections (Responder.run rate r evs).1
  unfold Responder.lifetime Responder.destroy
  refine ⟨?_, ?_⟩
  · rw [closuresRun_append, hd.2.2.1, h.1]
  · rw [cancelsInvoked_append, hd.2.2.2.1, h.2.2.2, h.2.1, List.replicate_succ']
    simp

/-- A stream of chunks forwards each text to the remote, in order, counts
it, and leaves the session, the cancel function and `on_complete_` of the
Responder as they were. -/
theorem Responder_run_chunks (rate : FloatRate) (outputs : List (String × Nat)) :
    ∀ r : Responder,
    (Responder.run rate r (chunkEvents outputs)).2 =
      outputs.map (fun o => Event.OnResponse r.responder_ o.1) ∧
    (Responder.run rate r (chunkEvents outputs)).1.session_ = r.session_ ∧
    (Responder.run rate r (chunkEvents outputs)).1.cancel_ = r.cancel_ ∧
    (Responder.run rate r (chunkEvents outputs)).1.on_complete_ = r.on_complete_ ∧
    (Responder.run rate r (chunkEvents outputs)).1.responder_ = r.responder_ ∧
    (Responder.run rate r (chunkEvents outputs)).1.num_tokens_ =
      r.num_tokens_ + outputs.length := by
  induction outputs with
  | nil => intro r; simp [chunkEvents, Responder.run]
  | cons o os ih =>
    intro r
    have h := Responder_OnOutput_text r rate o.1 o.2
    have ih1 := ih (r.OnOutput rate (some o.1) o.2).1
    simp only [chunkEvents, List.map_cons, Responder.run, Responder.handle] at ih1 ⊢
    refine ⟨?_, ?_, ?_, ?_, ?_, ?_⟩
    · rw [ih1.1, h.1, h.2.2.2.2.1]
      rfl
    · rw [ih1.2.1, h.2.2.2.1]
    · rw [ih1.2.2.1, h.2.2.1]
    · rw [ih1.2.2.2.1, h.2.1]
    · rw [ih1.2.2.2.2.1, h.2.2.2.2.1]
    · rw [ih1.2.2.2.2.2, h.2.2.2.2.2]
      simp only [List.length_cons, Nat.cast_add, Nat.cast_one]
      omega

theorem Responder_run_append (rate : FloatRate) (xs ys : List ResponderEvent) :
    ∀ r : Responder,
    Responder.run rate r (xs ++ ys) =
      ((Responder.run rate (Responder.run rate r xs).1 ys).1,
       (Responder.run rate r xs).2 ++ (Responder.run rate (Responder.run rate r xs).1 ys).2) := by
  induction xs with
  | nil => intro r; simp [Responder.run]
  | cons x xs ih => intro r; simp [Responder.run, ih, List.append_assoc]

theorem sinkEvents_map_OnResponse (responder : Nat) (outputs : List (String × Nat)) :
    sinkEvents (outputs.map (fun o => Event.OnResponse responder o.1)) =
      outputs.map (fun o => Event.OnResponse responder o.1) := by
  induction outputs with
  | nil => rfl
  | cons o os ih => simp [sinkEvents, ih]

/-- C13: for every finite sequence of events on a Responder (outputs with
text, ends of output, sink disconnects) that ends with its destruction, the
`on_complete` continuation it was given is run exactly once. When the
sequence holds no end of output and no disconnect, nothing runs it before
the destructor, which does. -/
theorem C13_on_complete_once (rate : FloatRate) (r : Responder) (c : OnceClosure)
    (evs : List ResponderEvent) (hc : r.on_complete_ = some c) :
    closuresRun (r.lifetime rate evs) = [c] ∧
    (∀ outputs, evs = chunkEvents outputs →
      closuresRun (Responder.run rate r evs).2 = [] ∧
      closuresRun (Responder.run rate r evs).1.destroy = [c]) := by
  refine ⟨?_, ?_⟩
  · rw [(Responder_lifetime_projections rate r evs).1, hc]
    rfl
  · intro outputs hev
    subst hev
    have h := Responder_run_chunks rate outputs r
    have hd := Responder_Cancel_projections (Responder.run rate r (chunkEvents outputs)).1
    refine ⟨?_, ?_⟩
    · have hp := (Responder_run_projections rate (chunkEvents outputs) r).1
      rw [h.2.2.2.1, hc] at hp
      simpa using hp
    · unfold Responder.destroy
      rw [hd.2.2.1, h.2.2.2.1, hc]
      rfl

/-- Two chunks, the end of the output, a disconnect and the destruction run
the closure 21 once; so does destruction right after five chunks. -/
theorem C13_on_complete_once_witness :
    closuresRun (exampleResponder.lifetime exampleRate
      [ResponderEvent.output (some "a") 100, ResponderEvent.output (some "b") 200,
       ResponderEvent.output none 300, ResponderEvent.disconnect]) = [21] ∧
    closuresRun (Responder.run exampleRate exampleResponder (chunkEvents fiveChunks)).1.destroy =
      [21] :=
  ⟨(C13_on_complete_once exampleRate exampleResponder 21 _ rfl).1,
   ((C13_on_complete_once exampleRate exampleResponder 21 (chunkEvents fiveChunks) rfl).2
      fiveChunks rfl).2⟩

/-- C14, as stated, fails: a sink disconnect followed by the destruction of
the Responder invokes the bound cancel function twice, once from the
disconnect handler and once from the destructor. -/
theorem C14_cancel_at_most_once_counterexample :
    cancelsInvoked (exampleResponder.lifetime exampleRate [ResponderEvent.disconnect]) =
      [31, 31] ∧
    ¬ (cancelsInvoked
      (exampleResponder.lifetime exampleRate [ResponderEvent.disconnect])).length ≤ 1 := by
  refine ⟨rfl, ?_⟩
  decide

/-- C14, amended: over the whole life of a Responder a bound cancel function
is invoked once by each cancellation trigger, that is once by each sink
disconnect and once by the destructor, and by no output callback. So the
destruction after a natural completion invokes it exactly once, a sink
disconnect followed by the destruction invokes it twice, and one call of
`Cancel` invokes it once. The `on_complete` continuation is never run more
than once. -/
theorem C14_cancel_at_most_once (rate : FloatRate) (r : Responder) (fn : Nat)
    (evs : List ResponderEvent) (hfn : r.cancel_ = some fn) :
    cancelsInvoked (r.lifetime rate evs) =
      List.replicate (evs.count ResponderEvent.disconnect + 1) fn ∧
    (ResponderEvent.disconnect ∉ evs → cancelsInvoked (r.lifetime rate evs) = [fn]) ∧
    cancelsInvoked (r.lifetime rate [ResponderEvent.disconnect]) = [fn, fn] ∧
    cancelsInvoked (r.Cancel).2 = [fn] ∧
    (closuresRun (r.lifetime rate evs)).length ≤ 1 := by
  have h := Responder_lifetime_projections rate r evs
  have hall : ∀ evs1 : List ResponderEvent, cancelsInvoked (r.lifetime rate evs1) =
      List.replicate (evs1.count ResponderEvent.disconnect + 1) fn := by
    intro evs1
    rw [(Responder_lifetime_projections rate r evs1).2, hfn]
    generalize evs1.count ResponderEvent.disconnect + 1 = n
    induction n with
    | zero => rfl
    | succ n ih => simp [List.replicate_succ, ih]
  refine ⟨hall evs, ?_, ?_, ?_, ?_⟩
  · intro hno
    rw [hall evs, List.count_eq_zero_of_not_mem hno]
    rfl
  · rw [hall]
    rfl
  · rw [(Responder_Cancel_projections r).2.2.2.1, hfn]
    rfl
  · rw [h.1]
    cases r.on_complete_ <;> simp

/-- Two chunks, the end of the output and the destruction invoke the cancel
function 31 once. -/
theorem C14_cancel_at_most_once_witness :
    cancelsInvoked (exampleResponder.lifetime exampleRate
      [ResponderEvent.output (some "a") 100, ResponderEvent.output (some "b") 200,
       ResponderEvent.output none 300]) = [31] :=
  (C14_cancel_at_most_once exampleRate exampleResponder 31
    [ResponderEvent.output (some "a") 100, ResponderEvent.output (some "b") 200,
     ResponderEvent.output none 300] rfl).2.1 (by decide)

/-- C15: for every number of chunks that a Responder with a bound cancel
function has forwarded, when the sink then disconnects before any end of
output, the disconnect handler, `Cancel`, releases the session clone,
invokes the cancel function exactly once and runs `on_complete` exactly
once, in that order; the Responder then holds no session clone, and its
later destruction does not run `on_complete` again. -/
theorem C15_disconnect_after_chunks (rate : FloatRate) (r : Responder)
    (s : SessionAccessor) (fn : Nat) (c : OnceClosure) (outputs : List (String × Nat))
    (hs : r.session_ = some s) (hfn : r.cancel_ = some fn)
    (hc : r.on_complete_ = some c) :
    (Responder.run rate r (chunkEvents outputs)).2 =
      outputs.map (fun o => Event.OnResponse r.responder_ o.1) ∧
    ((Responder.run rate r (chunkEvents outputs)).1.Cancel).2 =
      [Event.ReleaseSession s, Event.Cancel fn, Event.Run c] ∧
    cancelsInvoked ((Responder.run rate r (chunkEvents outputs)).1.Cancel).2 = [fn] ∧
    closuresRun ((Responder.run rate r (chunkEvents outputs)).1.Cancel).2 = [c] ∧
    ((Responder.run rate r (chunkEvents outputs)).1.Cancel).1.session_ = none ∧
    closuresRun (r.lifetime rate (chunkEvents outputs ++ [ResponderEvent.disconnect])) =
      [c] := by
  have h := Responder_run_chunks rate outputs r
  have hev : ((Responder.run rate r (chunkEvents outputs)).1.Cancel).2 =
      [Event.ReleaseSession s, Event.Cancel fn, Event.Run c] := by
    rw [Responder_Cancel_events, h.2.2.1, h.2.2.2.1, hfn, hc]
    unfold Responder.releaseSession
    rw [h.2.1, hs]
    rfl
  refine ⟨h.1, hev, ?_, ?_, ?_, ?_⟩
  · rw [hev]; rfl
  · rw [hev]; rfl
  · rw [Responder_Cancel_state]
  · rw [(Responder_lifetime_projections rate r _).1, hc]
    rfl

/-- After five chunks the disconnect releases the session, invokes the
cancel function 31 once and runs the closure 21 once. -/
theorem C15_disconnect_after_chunks_witness :
    fiveChunks.length = 5 ∧
    (Responder.run exampleRate exampleResponder (chunkEvents fiveChunks)).2 =
      [Event.OnResponse 11 "a", Event.OnResponse 11 "b", Event.OnResponse 11 "c",
       Event.OnResponse 11 "d", Event.OnResponse 11 "e"] ∧
    ((Responder.run exampleRate exampleResponder (chunkEvents fiveChunks)).1.Cancel).2 =
      [Event.ReleaseSession (SessionAccessor.Create 7 none), Event.Cancel 31, Event.Run 21] ∧
    ((Responder.run exampleRate exampleResponder
      (chunkEvents fiveChunks)).1.Cancel).1.session_ = none :=
  have h := C15_disconnect_after_chunks exampleRate exampleResponder
    (SessionAccessor.Create 7 none) 31 21 fiveChunks rfl rfl rfl
  ⟨rfl, h.1, h.2.1, h.2.2.2.2.1⟩

/-- C16: when the end of the output reaches a Responder that still holds
its session clone and its `on_complete`, `OnOutput` first releases the
session clone, then records the token count (and the throughput when more
than one token was counted), then sends the one completion record to the
sink, and only after that runs `on_complete`; in the stream as the sink
sees it the completion record comes after every chunk forwarded before. -/
theorem C16_completion_order (rate : FloatRate) (r : Responder) (s : SessionAccessor)
    (c : OnceClosure) (now : Nat) (outputs : List (String × Nat))
    (hs : r.session_ = some s) (hc : r.on_complete_ = some c) :
    (r.OnOutput rate none now).2 =
      [Event.ReleaseSession s,
       Event.Histogram HistogramName.TokenCount_Output r.num_tokens_] ++
      (if r.num_tokens_ > (1 : Int) then
        [Event.Histogram HistogramName.TokensPerSecond_Output
          (CalculateTokensPerSecond rate (r.num_tokens_ - 1)
            ((now : Int) - (r.first_token_time_ : Int)))]
       else []) ++
      [Event.OnComplete r.responder_, Event.Run c] ∧
    (r.OnOutput rate none now).1.session_ = none ∧
    (r.OnOutput rate none now).1.on_complete_ = none ∧
    sinkEvents (r.OnOutput rate none now).2 = [Event.OnComplete r.responder_] ∧
    sinkEvents (Responder.run rate r
        (chunkEvents outputs ++ [ResponderEvent.output none now])).2 =
      outputs.map (fun o => Event.OnResponse r.responder_ o.1) ++
        [Event.OnComplete r.responder_] := by
  refine ⟨?_, ?_, ?_, (Responder_OnOutput_end_projections r rate now).2.2, ?_⟩
  · rw [Responder_OnOutput_end_events, hc]
    unfold Responder.releaseSession
    rw [hs]
    simp
  · rw [Responder_OnOutput_end_state]
  · rw [Responder_OnOutput_end_state]
  · have h := Responder_run_chunks rate outputs r
    rw [Responder_run_append]
    simp only [sinkEvents_append, h.1, sinkEvents_map_OnResponse, Responder.run,
      Responder.handle, List.append_nil]
    rw [(Responder_OnOutput_end_projections _ rate now).2.2, h.2.2.2.2.1]

/-- After five chunks the end of the output gives, in order: the release of
the session, the token count 5, the throughput, the completion record and
the closure 21. -/
theorem C16_completion_order_witness :
    ((Responder.run exampleRate exampleResponder (chunkEvents fiveChunks)).1.OnOutput
        exampleRate none 600).2 =
      [Event.ReleaseSession (SessionAccessor.Create 7 none),
       Event.Histogram HistogramName.TokenCount_Output 5,
       Event.Histogram HistogramName.TokensPerSecond_Output 8000,
       Event.OnComplete 11, Event.Run 21] :=
  (C16_completion_order exampleRate
    (Responder.run exampleRate exampleResponder (chunkEvents fiveChunks)).1
    (SessionAccessor.Create 7 none) 21 600 [] rfl rfl).1

/-! ## ContextHolder -/

theorem histograms_append (xs ys : List Event) :
    histograms (xs ++ ys) = histograms xs ++ histograms ys := by
  induction xs with
  | nil => rfl
  | cons x xs ih => cases x <;> simp [histograms, ih]

theorem clientReports_append (xs ys : List Event) :
    clientReports (xs ++ ys) = clientReports xs ++ clientReports ys := by
  induction xs with
  | nil => rfl
  | cons x xs ih => cases x <;> simp [clientReports, ih]

theorem List_eraseIdx_set {α : Type} (l : List α) (i : Nat) (x : α) :
    (l.set i x).eraseIdx i = l.eraseIdx i := by
  induction l generalizing i with
  | nil => rfl
  | cons a l ih =>
    cases i with
    | zero => rfl
    | succ i => simp [List.set, List.eraseIdx, ih]

theorem List_get?_set_self {α : Type} (l : List α) (i : Nat) (a x : α)
    (h : l.get? i = some a) : (l.set i x).get? i = some x := by
  induction l generalizing i with
  | nil => simp at h
  | cons b l ih =>
    cases i with
    | zero => rfl
    | succ i =>
      simp only [List.get?_cons_succ] at h
      simpa using ih i h

theorem List_flatten_map_split {α β : Type} (f : α → List β) (l : List α) (i : Nat)
    (a : α) (h : l.get? i = some a) :
    (l.map f).flatten =
      ((l.take i).map f).flatten ++ f a ++ ((l.drop (i + 1)).map f).flatten := by
  induction l generalizing i with
  | nil => simp at h
  | cons b l ih =>
    cases i with
    | zero =>
      simp only [List.get?_cons_zero, Option.some.injEq] at h
      subst h
      simp
    | succ i =>
      simp only [List.get?_cons_succ] at h
      simp [ih i h, List.append_assoc]

theorem ContextHolder_destroy_projections (h : ContextHolder) :
    closuresRun h.destroy = h.on_complete_.toList ∧
    cancelsInvoked h.destroy = h.cancel_.toList ∧
    clientReports h.destroy = [] ∧ histograms h.destroy = [] := by
  unfold ContextHolder.destroy
  cases hc : h.cancel_ <;> cases ho : h.on_complete_ <;>
    simp [closuresRun, cancelsInvoked, clientReports, histograms]

/-- What `ContextHolder::OnComplete` does: the effects in order, the
holder afterwards, and whether it ran `on_disconnect_`. -/
theorem ContextHolder_OnComplete_eq (h : ContextHolder) (rate : FloatRate)
    (tokens_processed : Int) (now : Nat) :
    (h.OnComplete rate tokens_processed now).2.1 =
      (if tokens_processed > 0 then
        [Event.Histogram HistogramName.TokenCount_Context tokens_processed,
         Event.Histogram HistogramName.TokensPerSecond_Context
          (CalculateTokensPerSecond rate tokens_processed
            ((now : Int) - (h.timer_ : Int)))]
       else []) ++
      (match h.client_ with
        | some client => [Event.ClientOnComplete client (static_cast_uint32 tokens_processed)]
        | none => []) ++
      (match h.on_complete_ with
        | some c => [Event.Run c]
        | none => []) ∧
    (h.OnComplete rate tokens_processed now).2.2 = h.on_disconnect_ ∧
    (h.OnComplete rate tokens_processed now).1.on_complete_ = none ∧
    (h.OnComplete rate tokens_processed now).1.cancel_ = h.cancel_ := by
  unfold ContextHolder.OnComplete ContextHolder.OnDisconnect
  cases hd : h.on_disconnect_ <;> simp [hd]

theorem ContextHolder_OnComplete_projections (h : ContextHolder) (rate : FloatRate)
    (tokens_processed : Int) (now : Nat) :
    closuresRun (h.OnComplete rate tokens_processed now).2.1 = h.on_complete_.toList ∧
    cancelsInvoked (h.OnComplete rate tokens_processed now).2.1 = [] ∧
    clientReports (h.OnComplete rate tokens_processed now).2.1 =
      (match h.client_ with
        | some client => [(client, static_cast_uint32 tokens_processed)]
        | none => []) ∧
    histograms (h.OnComplete rate tokens_processed now).2.1 =
      (if tokens_processed > 0 then
        [(HistogramName.TokenCount_Context, tokens_processed),
         (HistogramName.TokensPerSecond_Context,
          CalculateTokensPerSecond rate tokens_processed
            ((now : Int) - (h.timer_ : Int)))]
       else []) := by
  rw [(ContextHolder_OnComplete_eq h rate tokens_processed now).1]
  cases hcl : h.client_ <;> cases ho : h.on_complete_ <;>
    by_cases ht : tokens_processed > 0 <;>
    simp [closuresRun, cancelsInvoked, clientReports, histograms, ht]

/-- The delivery of the context-saved callback to a holder of the session
whose `on_disconnect_` is bound: the effects of `OnComplete`, then those of
the destructor, and the holder is gone. -/
theorem contextSaved_eq (s : SessionImpl) (rate : FloatRate) (i : Nat)
    (h : ContextHolder) (tokens_processed : Int) (now : Nat)
    (hget : s.context_holders_.get? i = some h) (hd : h.on_disconnect_ = true) :
    (s.contextSaved rate i tokens_processed now).2 =
      (h.OnComplete rate tokens_processed now).2.1 ++
        (h.OnComplete rate tokens_processed now).1.destroy ∧
    (s.contextSaved rate i tokens_processed now).1.context_holders_ =
      s.context_holders_.eraseIdx i := by
  have hoc := ContextHolder_OnComplete_eq h rate tokens_processed now
  have hset := List_get?_set_self s.context_holders_ i h
    (h.OnComplete rate tokens_processed now).1 hget
  unfold SessionImpl.contextSaved SessionImpl.RemoveContext
  simp only [hget, hoc.2.1, hd, if_true, hset, List_eraseIdx_set]
  exact ⟨trivial, trivial⟩

theorem clientDisconnected_eq (s : SessionImpl) (i : Nat) (h : ContextHolder)
    (hget : s.context_holders_.get? i = some h) (hd : h.on_disconnect_ = true)
    (hcl : h.client_.isSome = true) :
    (s.clientDisconnected i).2 = h.destroy ∧
    (s.clientDisconnected i).1.context_holders_ = s.context_holders_.eraseIdx i := by
  have hset := List_get?_set_self s.context_holders_ i h
    { h with on_disconnect_ := false } hget
  unfold SessionImpl.clientDisconnected SessionImpl.RemoveContext ContextHolder.OnDisconnect
  simp only [hget, hd, hcl, if_true, hset, List_eraseIdx_set]
  exact ⟨rfl, trivial⟩

/-- C18: for every ContextHolder of a session, made with an `on_complete`
continuation and with `on_disconnect_` bound as `AddContext` binds it, and
for every way it ends, the continuation is run exactly once. The engine's
completion callback runs it in `OnComplete` and the destructor that follows
does not run it again; a client disconnect and the destruction of the
owning session run it in the destructor, which also invokes the cancel
function when one is bound. After the callback or the disconnect the holder
is gone from the session. -/
theorem C18_context_holder_once (s : SessionImpl) (rate : FloatRate) (i : Nat)
    (h : ContextHolder) (c : OnceClosure) (tokens_processed : Int) (now : Nat)
    (hget : s.context_holders_.get? i = some h) (hc : h.on_complete_ = some c)
    (hd : h.on_disconnect_ = true) :
    (closuresRun (s.contextSaved rate i tokens_processed now).2 = [c] ∧
      (s.contextSaved rate i tokens_processed now).1.context_holders_ =
        s.context_holders_.eraseIdx i) ∧
    (h.client_.isSome = true →
      closuresRun (s.clientDisconnected i).2 = [c] ∧
      cancelsInvoked (s.clientDisconnected i).2 = h.cancel_.toList ∧
      (s.clientDisconnected i).1.context_holders_ = s.context_holders_.eraseIdx i) ∧
    (closuresRun h.destroy = [c] ∧ cancelsInvoked h.destroy = h.cancel_.toList ∧
      s.destroy =
        ((s.context_holders_.take i).map ContextHolder.destroy).flatten ++ h.destroy ++
          (((s.context_holders_.drop (i + 1)).map ContextHolder.destroy).flatten ++
            (match s.responder_ with
              | some responder => responder.destroy
              | none => []) ++
            [Event.ReleaseSession s.empty_session_, Event.ReleaseSession s.session_])) := by
  have hdes := ContextHolder_destroy_projections h
  refine ⟨?_, ?_, ?_⟩
  · have hs := contextSaved_eq s rate i h tokens_processed now hget hd
    have hoc := ContextHolder_OnComplete_projections h rate tokens_processed now
    have hoc2 := ContextHolder_OnComplete_eq h rate tokens_processed now
    have hdes2 := ContextHolder_destroy_projections (h.OnComplete rate tokens_processed now).1
    refine ⟨?_, hs.2⟩
    rw [hs.1, closuresRun_append, hoc.1, hdes2.1, hoc2.2.2.1, hc]
    rfl
  · intro hcl
    have hs := clientDisconnected_eq s i h hget hd hcl
    refine ⟨?_, ?_, hs.2⟩
    · rw [hs.1, hdes.1, hc]; rfl
    · rw [hs.1, hdes.2.1]
  · refine ⟨?_, hdes.2.1, ?_⟩
    · rw [hdes.1, hc]; rfl
    · unfold SessionImpl.destroy
      rw [List_flatten_map_split ContextHolder.destroy s.context_holders_ i h hget]
      simp only [List.append_assoc]

/-- The holder that `AddContext` made with the closure 51 and the cancel
function 61: completion, disconnect and destruction each run 51 once. -/
theorem C18_context_holder_once_witness :
    exampleContextSession.context_holders_ = [exampleHolder] ∧
    closuresRun (exampleContextSession.contextSaved exampleRate 0 3 2000).2 = [51] ∧
    closuresRun (exampleContextSession.clientDisconnected 0).2 = [51] ∧
    cancelsInvoked (exampleContextSession.clientDisconnected 0).2 = [61] ∧
    closuresRun exampleContextSession.destroy = [51] :=
  have h := C18_context_holder_once exampleContextSession exampleRate 0 exampleHolder 51
    3 2000 rfl rfl rfl
  ⟨rfl, h.1.1, (h.2.1 rfl).1, (h.2.1 rfl).2.1, rfl⟩

/-- The conversion of an `int` to `uint32`: a non-negative value is kept, a
negative one arrives raised by `2 ^ 32`. -/
theorem static_cast_uint32_int (x : Int) (hlo : -2147483648 ≤ x) (hhi : x < 2147483648) :
    (0 ≤ x → static_cast_uint32 x = x.toNat) ∧
    (x < 0 → static_cast_uint32 x = (x + 4294967296).toNat) := by
  unfold static_cast_uint32
  constructor
  · intro h
    rw [Int.emod_eq_of_lt h (by omega)]
  · intro h
    have : x % 4294967296 = x + 4294967296 := by omega
    rw [this]

/-- C19, amended: on completion of a context ingestion
`ContextHolder::OnComplete` passes the `tokens_processed` value the engine
delivered to the completion sink, if one is bound, converted from `int` to
the `uint32` of the sink: every non-negative value, 0 included, arrives as
delivered, and a negative value arrives raised by `2 ^ 32`. Without a sink it
reports nothing; either way the completion continuation runs; and the two
context histograms are recorded only when `tokens_processed > 0`. The same
holds for the whole handling of the callback, which ends with the removal of
the holder. -/
theorem C19_context_complete_report (s : SessionImpl) (rate : FloatRate) (i : Nat)
    (h : ContextHolder) (c : OnceClosure) (tokens_processed : Int) (now : Nat)
    (hget : s.context_holders_.get? i = some h) (hc : h.on_complete_ = some c)
    (hd : h.on_disconnect_ = true) (hlo : -2147483648 ≤ tokens_processed)
    (hhi : tokens_processed < 2147483648) :
    (∀ client, h.client_ = some client →
      (clientReports (h.OnComplete rate tokens_processed now).2.1 =
          [(client, static_cast_uint32 tokens_processed)] ∧
        clientReports (s.contextSaved rate i tokens_processed now).2 =
          [(client, static_cast_uint32 tokens_processed)]) ∧
      (0 ≤ tokens_processed →
        clientReports (h.OnComplete rate tokens_processed now).2.1 =
          [(client, tokens_processed.toNat)] ∧
        clientReports (s.contextSaved rate i tokens_processed now).2 =
          [(client, tokens_processed.toNat)] ∧
        (tokens_processed.toNat : Int) = tokens_processed) ∧
      (tokens_processed < 0 →
        clientReports (s.contextSaved rate i tokens_processed now).2 =
          [(client, (tokens_processed + 4294967296).toNat)] ∧
        ((tokens_processed + 4294967296).toNat : Int) = tokens_processed + 4294967296)) ∧
    (h.client_ = none →
      clientReports (h.OnComplete rate tokens_processed now).2.1 = [] ∧
      clientReports (s.contextSaved rate i tokens_processed now).2 = []) ∧
    closuresRun (h.OnComplete rate tokens_processed now).2.1 = [c] ∧
    closuresRun (s.contextSaved rate i tokens_processed now).2 = [c] ∧
    (tokens_processed > 0 →
      histograms (s.contextSaved rate i tokens_processed now).2 =
        [(HistogramName.TokenCount_Context, tokens_processed),
         (HistogramName.TokensPerSecond_Context,
          CalculateTokensPerSecond rate tokens_processed
            ((now : Int) - (h.timer_ : Int)))]) ∧
    (¬ tokens_processed > 0 →
      histograms (s.contextSaved rate i tokens_processed now).2 = []) := by
  have hs := contextSaved_eq s rate i h tokens_processed now hget hd
  have hoc := ContextHolder_OnComplete_projections h rate tokens_processed now
  have hoc2 := ContextHolder_OnComplete_eq h rate tokens_processed now
  have hdes := ContextHolder_destroy_projections (h.OnComplete rate tokens_processed now).1
  have hcast := static_cast_uint32_int tokens_processed hlo hhi
  have hrep : ∀ client, h.client_ = some client →
      clientReports (h.OnComplete rate tokens_processed now).2.1 =
          [(client, static_cast_uint32 tokens_processed)] ∧
        clientReports (s.contextSaved rate i tokens_processed now).2 =
          [(client, static_cast_uint32 tokens_processed)] := by
    intro client hcl
    refine ⟨?_, ?_⟩
    · rw [hoc.2.2.1, hcl]
    · rw [hs.1, clientReports_append, hoc.2.2.1, hdes.2.2.1, hcl]
      rfl
  refine ⟨?_, ?_, ?_, ?_, ?_, ?_⟩
  · intro client hcl
    refine ⟨hrep client hcl, ?_, ?_⟩
    · intro h0
      rw [← hcast.1 h0]
      exact ⟨(hrep client hcl).1, (hrep client hcl).2, by rw [hcast.1 h0]; omega⟩
    · intro h0
      rw [← hcast.2 h0]
      exact ⟨(hrep client hcl).2, by rw [hcast.2 h0]; omega⟩
  · intro hcl
    refine ⟨?_, ?_⟩
    · rw [hoc.2.2.1, hcl]
    · rw [hs.1, clientReports_append, hoc.2.2.1, hdes.2.2.1, hcl]
      rfl
  · rw [hoc.1, hc]; rfl
  · rw [hs.1, closuresRun_append, hoc.1, hdes.1, hoc2.2.2.1, hc]
    rfl
  · intro ht
    rw [hs.1, histograms_append, hoc.2.2.2, hdes.2.2.2, if_pos ht]
    rfl
  · intro ht
    rw [hs.1, histograms_append, hoc.2.2.2, hdes.2.2.2, if_neg ht]
    rfl

/-- The example holder reports 3 and 0 to its client 41 as delivered, and
records histograms for 3 only. -/
theorem C19_context_complete_report_witness :
    clientReports (exampleContextSession.contextSaved exampleRate 0 3 2000).2 = [(41, 3)] ∧
    clientReports (exampleContextSession.contextSaved exampleRate 0 0 2000).2 = [(41, 0)] ∧
    closuresRun (exampleContextSession.contextSaved exampleRate 0 0 2000).2 = [51] ∧
    histograms (exampleContextSession.contextSaved exampleRate 0 0 2000).2 = [] ∧
    histograms (exampleContextSession.contextSaved exampleRate 0 3 2000).2 =
      [(HistogramName.TokenCount_Context, 3),
       (HistogramName.TokensPerSecond_Context, 3000)] :=
  ⟨(((C19_context_complete_report exampleContextSession exampleRate 0 exampleHolder 51 3
      2000 rfl rfl rfl (by decide) (by decide)).1 41 rfl).2.1 (by decide)).2.1,
   (((C19_context_complete_report exampleContextSession exampleRate 0 exampleHolder 51 0
      2000 rfl rfl rfl (by decide) (by decide)).1 41 rfl).2.1 (by decide)).2.1,
   (C19_context_complete_report exampleContextSession exampleRate 0 exampleHolder 51 0
      2000 rfl rfl rfl (by decide) (by decide)).2.2.2.1,
   (C19_context_complete_report exampleContextSession exampleRate 0 exampleHolder 51 0
      2000 rfl rfl rfl (by decide) (by decide)).2.2.2.2.2 (by decide),
   (C19_context_complete_report exampleContextSession exampleRate 0 exampleHolder 51 3
      2000 rfl rfl rfl (by decide) (by decide)).2.2.2.2.1 (by decide)⟩

/-- C19, as stated, fails for a negative value: the engine delivers -1 to
the example holder and its client 41 receives 4294967295, the `int`
converted to the `uint32` of the sink. -/
theorem C19_context_complete_report_counterexample :
    clientReports (exampleContextSession.contextSaved exampleRate 0 (-1) 2000).2 =
      [(41, 4294967295)] ∧
    ((4294967295 : Nat) : Int) ≠ -1 :=
  ⟨by decide, by decide⟩

/-- The second `Execute` on the example session destroys the Responder of
the first before its request: the session clone is released, the cancel
function 31 invoked and the closure 21 run, then the request is issued. -/
theorem C17_execute_supersedes_witness :
    (exampleExecutingSession.Execute exampleFeatures exampleInput 12 (some 22)
        (some 32)).2.take 3 =
      [Event.ReleaseSession
        ((SessionAccessor.Create 7 none).Execute
          { text := "", max_tokens := some 8, top_k := some 1,
            temperature := some F32.zero, ignore_context := false }),
       Event.Cancel 31, Event.Run 21] ∧
    cancelsInvoked (exampleExecutingSession.Execute exampleFeatures exampleInput 12
      (some 22) (some 32)).2 = [31] ∧
    closuresRun (exampleExecutingSession.Execute exampleFeatures exampleInput 12
      (some 22) (some 32)).2 = [21] :=
  have h := C17_execute_supersedes exampleExecutingSession exampleFeatures exampleInput 12
    (some 22) (some 32)
    { first_token_time_ := 0, num_tokens_ := 0, output_so_far_ := "",
      responder_ := 11, cancel_ := some 31, on_complete_ := some 21,
      session_ := some ((SessionAccessor.Create 7 none).Execute
        { text := "", max_tokens := some 8, top_k := some 1,
          temperature := some F32.zero, ignore_context := false }) } rfl
  ⟨by rw [h.1]; rfl, h.2.2.1, h.2.2.2.1⟩

/-! ## Clone -/

theorem AccessorStore_Clone_eq (store : byRef.AccessorStore) (ptr : Nat)
    (h : ptr < store.accessors.length) :
    (store.Clone ptr).2 = store.accessors.length ∧
    (store.Clone ptr).1.accessors.length = store.accessors.length + 1 ∧
    (store.Clone ptr).1.context (store.Clone ptr).2 = store.context ptr ∧
    (∀ other, other < store.accessors.length →
      (store.Clone ptr).1.accessors.get? other = store.accessors.get? other) := by
  have hget : store.accessors.get? ptr = some (store.accessors.get ⟨ptr, h⟩) :=
    List.get?_eq_get h
  unfold byRef.AccessorStore.Clone
  rw [hget]
  refine ⟨rfl, by simp, ?_, ?_⟩
  · simp only [byRef.AccessorStore.context, hget, List.get?_eq_getElem?]
    rw [List.getElem?_append_right (le_refl _)]
    simp [SessionAccessor.Clone]
  · intro other ho
    simp only [List.get?_eq_getElem?]
    rw [List.getElem?_append_left ho]

theorem AccessorStore_context_congr (a b : byRef.AccessorStore) (ptr : Nat)
    (h : a.accessors.get? ptr = b.accessors.get? ptr) : a.context ptr = b.context ptr := by
  unfold byRef.AccessorStore.context
  rw [h]

theorem AccessorStore_Execute_eq (store : byRef.AccessorStore) (ptr : Nat)
    (input : InputOptions) :
    (ptr < store.accessors.length →
      (store.Execute ptr input).context ptr = store.context ptr ++ [input]) ∧
    (∀ other, other ≠ ptr →
      (store.Execute ptr input).accessors.get? other = store.accessors.get? other) ∧
    (store.Execute ptr input).accessors.length = store.accessors.length := by
  refine ⟨?_, ?_, ?_⟩
  · intro h
    have hget : store.accessors.get? ptr = some (store.accessors.get ⟨ptr, h⟩) :=
      List.get?_eq_get h
    simp only [byRef.AccessorStore.Execute, byRef.AccessorStore.context, hget,
      List.get?_eq_getElem?]
    rw [List.getElem?_set_self h]
    rfl
  · intro other ho
    unfold byRef.AccessorStore.Execute
    cases hget : store.accessors.get? ptr with
    | none => rfl
    | some accessor =>
      simp only [List.get?_eq_getElem?]
      rw [List.getElem?_set_ne (Ne.symm ho)]
  · unfold byRef.AccessorStore.Execute
    cases hget : store.accessors.get? ptr with
    | none => rfl
    | some accessor => simp

/-- What `Clone` over the store returns: the two new accessors are at the
end of the store, in the states of the two of the source. -/
theorem byRef_Clone_eq (s : byRef.SessionImpl) (store : byRef.AccessorStore)
    (hs : s.session_ < store.accessors.length)
    (he : s.empty_session_ < store.accessors.length) :
    (s.Clone store).1.session_ = store.accessors.length ∧
    (s.Clone store).1.empty_session_ = store.accessors.length + 1 ∧
    (s.Clone store).2.accessors.length = store.accessors.length + 2 ∧
    (s.Clone store).2.context (s.Clone store).1.session_ = store.context s.session_ ∧
    (s.Clone store).2.context (s.Clone store).1.empty_session_ =
      store.context s.empty_session_ ∧
    (∀ ptr, ptr < store.accessors.length →
      (s.Clone store).2.accessors.get? ptr = store.accessors.get? ptr) := by
  have h1 := AccessorStore_Clone_eq store s.session_ hs
  have he1 : s.empty_session_ < (store.Clone s.session_).1.accessors.length := by
    rw [h1.2.1]; omega
  have h2 := AccessorStore_Clone_eq (store.Clone s.session_).1 s.empty_session_ he1
  have hkeep : ∀ ptr, ptr < store.accessors.length →
      (s.Clone store).2.accessors.get? ptr = store.accessors.get? ptr := by
    intro ptr hp
    simp only [byRef.SessionImpl.Clone]
    rw [h2.2.2.2 ptr (by rw [h1.2.1]; omega), h1.2.2.2 ptr hp]
  refine ⟨?_, ?_, ?_, ?_, ?_, hkeep⟩
  · simp only [byRef.SessionImpl.Clone, byRef.SessionImpl.new]
    exact h1.1
  · simp only [byRef.SessionImpl.Clone, byRef.SessionImpl.new]
    rw [h2.1, h1.2.1]
  · simp only [byRef.SessionImpl.Clone]
    rw [h2.2.1, h1.2.1]
  · simp only [byRef.SessionImpl.Clone, byRef.SessionImpl.new]
    rw [AccessorStore_context_congr _ (store.Clone s.session_).1 (store.Clone s.session_).2
      (h2.2.2.2 _ (by rw [h1.1, h1.2.1]; omega))]
    exact h1.2.2.1
  · simp only [byRef.SessionImpl.Clone, byRef.SessionImpl.new]
    rw [h2.2.2.1]
    exact AccessorStore_context_congr _ _ _ (h1.2.2.2 _ he)

/-- C20: snapshot semantics of `SessionImpl::Clone`, with the accumulated
context of a session as the list of inputs ingested and the accessors in a
store. The clone points to two accessors that were not in the store before,
different from each other; their contexts are those of the two accessors of
the source at clone time, and the accessors that were in the store are as
before. The clone keeps the token budget and the adaptation id. `AddContext`
on the source after cloning appends the clamped input to the context of the
source and leaves the two contexts of the clone as they were at clone time;
`AddContext` on the clone appends to the context of the clone and leaves the
context of the source as it was. In whatever store, `AddContext` changes no
accessor but the one its `session_` points to, and moves no pointer. -/
theorem C20_clone_snapshot (s : byRef.SessionImpl) (store : byRef.AccessorStore)
    (features : Features) (input : InputOptions) (client : Option Nat)
    (on_complete : Option OnceClosure) (engine_cancel : ChromeMLCancelFn) (now : Nat)
    (hs : s.session_ < store.accessors.length)
    (he : s.empty_session_ < store.accessors.length) :
    ((s.Clone store).2.context (s.Clone store).1.session_ = store.context s.session_ ∧
      (s.Clone store).2.context (s.Clone store).1.empty_session_ =
        store.context s.empty_session_ ∧
      (s.Clone store).1.max_tokens_ = s.max_tokens_ ∧
      (s.Clone store).1.adaptation_id_ = s.adaptation_id_) ∧
    (store.accessors.length ≤ (s.Clone store).1.session_ ∧
      store.accessors.length ≤ (s.Clone store).1.empty_session_ ∧
      (s.Clone store).1.session_ ≠ (s.Clone store).1.empty_session_ ∧
      (s.Clone store).1.session_ < (s.Clone store).2.accessors.length ∧
      (s.Clone store).1.empty_session_ < (s.Clone store).2.accessors.length ∧
      ∀ ptr, ptr < store.accessors.length →
        (s.Clone store).2.accessors.get? ptr = store.accessors.get? ptr) ∧
    (((s.AddContext features (s.Clone store).2 input client on_complete engine_cancel
          now).2.context s.session_ =
        store.context s.session_ ++
          [{ text := input.text,
             max_tokens := some (min (input.max_tokens.getD s.max_tokens_) s.max_tokens_),
             top_k := some (GetTopK features input.top_k),
             temperature := some (GetTemperature input.temperature),
             ignore_context := input.ignore_context }]) ∧
      (s.AddContext features (s.Clone store).2 input client on_complete engine_cancel
          now).2.context (s.Clone store).1.session_ = store.context s.session_ ∧
      (s.AddContext features (s.Clone store).2 input client on_complete engine_cancel
          now).2.context (s.Clone store).1.empty_session_ = store.context s.empty_session_) ∧
    ((((s.Clone store).1.AddContext features (s.Clone store).2 input client on_complete
          engine_cancel now).2.context (s.Clone store).1.session_ =
        store.context s.session_ ++
          [{ text := input.text,
             max_tokens := some (min (input.max_tokens.getD s.max_tokens_) s.max_tokens_),
             top_k := some (GetTopK features input.top_k),
             temperature := some (GetTemperature input.temperature),
             ignore_context := input.ignore_context }]) ∧
      ((s.Clone store).1.AddContext features (s.Clone store).2 input client on_complete
          engine_cancel now).2.context s.session_ = store.context s.session_ ∧
      ((s.Clone store).1.AddContext features (s.Clone store).2 input client on_complete
          engine_cancel now).2.context s.empty_session_ = store.context s.empty_session_) ∧
    (∀ (t : byRef.SessionImpl) (st : byRef.AccessorStore),
      (∀ ptr, ptr ≠ t.session_ →
        (t.AddContext features st input client on_complete engine_cancel
          now).2.accessors.get? ptr = st.accessors.get? ptr) ∧
      (t.AddContext features st input client on_complete engine_cancel now).1.session_ =
        t.session_ ∧
      (t.AddContext features st input client on_complete engine_cancel
        now).1.empty_session_ = t.empty_session_) := by
  have hc := byRef_Clone_eq s store hs he
  have hmt : (s.Clone store).1.max_tokens_ = s.max_tokens_ := rfl
  have hsrc : (s.Clone store).2.context s.session_ = store.context s.session_ :=
    AccessorStore_context_congr _ _ _ (hc.2.2.2.2.2 _ hs)
  have hsrce : (s.Clone store).2.context s.empty_session_ = store.context s.empty_session_ :=
    AccessorStore_context_congr _ _ _ (hc.2.2.2.2.2 _ he)
  refine ⟨⟨hc.2.2.2.1, hc.2.2.2.2.1, rfl, rfl⟩, ⟨?_, ?_, ?_, ?_, ?_, hc.2.2.2.2.2⟩,
    ⟨?_, ?_, ?_⟩, ⟨?_, ?_, ?_⟩, ?_⟩
  · rw [hc.1]
  · rw [hc.2.1]; omega
  · rw [hc.1, hc.2.1]; omega
  · rw [hc.1, hc.2.2.1]; omega
  · rw [hc.2.1, hc.2.2.1]; omega
  · simp only [byRef.SessionImpl.AddContext]
    rw [(AccessorStore_Execute_eq _ _ _).1 (by rw [hc.2.2.1]; omega), hsrc]
  · simp only [byRef.SessionImpl.AddContext]
    rw [AccessorStore_context_congr _ (s.Clone store).2 _
      ((AccessorStore_Execute_eq _ _ _).2.1 _ (by rw [hc.1]; omega))]
    exact hc.2.2.2.1
  · simp only [byRef.SessionImpl.AddContext]
    rw [AccessorStore_context_congr _ (s.Clone store).2 _
      ((AccessorStore_Execute_eq _ _ _).2.1 _ (by rw [hc.2.1]; omega))]
    exact hc.2.2.2.2.1
  · simp only [byRef.SessionImpl.AddContext]
    rw [(AccessorStore_Execute_eq _ _ _).1 (by rw [hc.1, hc.2.2.1]; omega), hc.2.2.2.1, hmt]
  · simp only [byRef.SessionImpl.AddContext]
    rw [AccessorStore_context_congr _ (s.Clone store).2 _
      ((AccessorStore_Execute_eq _ _ _).2.1 _ (by rw [hc.1]; omega))]
    exact hsrc
  · simp only [byRef.SessionImpl.AddContext]
    rw [AccessorStore_context_congr _ (s.Clone store).2 _
      ((AccessorStore_Execute_eq _ _ _).2.1 _ (by rw [hc.1]; omega))]
    exact hsrce
  · intro t st
    refine ⟨?_, rfl, rfl⟩
    intro ptr hp
    simp only [byRef.SessionImpl.AddContext]
    exact (AccessorStore_Execute_eq _ _ _).2.1 ptr hp

/-- The example session is cloned in the example store: the clone points
to the two new accessors 2 and 3, and a context added to the source
afterwards reaches the accessor 0 only. -/
theorem C20_clone_snapshot_witness :
    exampleSessionByRef.session_ < exampleStore.accessors.length ∧
    exampleSessionByRef.empty_session_ < exampleStore.accessors.length ∧
    (exampleSessionByRef.Clone exampleStore).2.context
        (exampleSessionByRef.Clone exampleStore).1.session_ =
      exampleStore.context exampleSessionByRef.session_ ∧
    (exampleSessionByRef.AddContext exampleFeatures (exampleSessionByRef.Clone exampleStore).2
        exampleInput none none none 0).2.context
        (exampleSessionByRef.Clone exampleStore).1.session_ =
      exampleStore.context exampleSessionByRef.session_ ∧
    (exampleSessionByRef.Clone exampleStore).1.session_ = 2 ∧
    (exampleSessionByRef.Clone exampleStore).1.empty_session_ = 3 ∧
    ((exampleSessionByRef.AddContext exampleFeatures (exampleSessionByRef.Clone exampleStore).2
        exampleInput none none none 0).2.accessors.map
        (fun accessor => accessor.context.length)) = [2, 0, 1, 0] :=
  ⟨by decide, by decide,
   (C20_clone_snapshot exampleSessionByRef exampleStore exampleFeatures exampleInput none none
      none 0 (by decide) (by decide)).1.1,
   (C20_clone_snapshot exampleSessionByRef exampleStore exampleFeatures exampleInput none none
      none 0 (by decide) (by decide)).2.2.1.2.1,
   rfl, rfl, rfl⟩

/-! ## The worker queue -/

theorem postedTasks_append (xs ys : List Event) :
    postedTasks (xs ++ ys) = postedTasks xs ++ postedTasks ys := by
  induction xs with
  | nil => rfl
  | cons x xs ih => cases x <;> simp [postedTasks, ih]

theorem nativeCalls_append (xs ys : List Event) :
    nativeCalls (xs ++ ys) = nativeCalls xs ++ nativeCalls ys := by
  induction xs with
  | nil => rfl
  | cons x xs ih => cases x <;> simp [nativeCalls, ih]

/-- The effects of `Init`: either the text-safety model creation alone,
when it fails, or the model-creation call followed by the posting of
`on_complete`, after the text-safety model creation if there is one. -/
theorem Init_events (e : OnDeviceModelExecutor) (chrome_ml : ChromeML)
    (features : Features) (params : LoadModelParams) (on_complete : OnceClosure) :
    ((e.Init chrome_ml features params on_complete).2.2 =
        [Event.TsModelCreate (OnDeviceModelExecutor.Init.ts_assets params)
          params.assets.language_detection_model] ∧
      chrome_ml.TsModelCreate (OnDeviceModelExecutor.Init.ts_assets params)
        params.assets.language_detection_model = false ∧
      (e.Init chrome_ml features params on_complete).1 =
        LoadModelResult.kFailedToLoadLibrary ∧
      (e.Init chrome_ml features params on_complete).2.1.base_sessions_ =
        e.base_sessions_) ∨
    ((nativeCalls (e.Init chrome_ml features params on_complete).2.2 =
        [Event.SessionCreateModel
          (OnDeviceModelExecutor.Init.descriptor features params
            (max params.max_tokens kReserveTokensForSafety))] ∧
      postedTasks (e.Init chrome_ml features params on_complete).2.2 =
        [(TaskRunner.model_task_runner_, Task.closure on_complete)] ∧
      (∀ a l, Event.TsModelCreate a l ∈
          (e.Init chrome_ml features params on_complete).2.2 →
        chrome_ml.TsModelCreate a l = true) ∧
      ((e.Init chrome_ml features params on_complete).1 =
          LoadModelResult.kFailedToLoadLibrary →
        (e.Init chrome_ml features params on_complete).2.1.base_sessions_ =
          e.base_sessions_))) := by
  have hload : ∀ e0 : OnDeviceModelExecutor,
      (OnDeviceModelExecutor.Init.load e0 chrome_ml features params on_complete).1 =
        LoadModelResult.kFailedToLoadLibrary →
      (OnDeviceModelExecutor.Init.load e0 chrome_ml features params
        on_complete).2.1.base_sessions_ = e0.base_sessions_ := by
    intro e0 h0
    unfold OnDeviceModelExecutor.Init.load at h0 ⊢
    simp only at h0 ⊢
    split
    · rename_i hm
      simp [hm] at h0
    · rfl
  rcases Init_cases e chrome_ml features params on_complete with
    ⟨_, hc, h1⟩ | ⟨_, hc, h1⟩ | ⟨_, h1⟩
  · left
    rw [h1]
    exact ⟨rfl, hc, rfl, rfl⟩
  · right
    rw [h1]
    simp only [Init_load_events]
    refine ⟨by simp [nativeCalls], by simp [postedTasks], ?_, ?_⟩
    · intro a l hmem
      simp only [List.mem_cons, Event.TsModelCreate.injEq, reduceCtorEq, List.mem_singleton,
        or_false, List.not_mem_nil] at hmem
      rw [hmem.1, hmem.2]
      exact hc
    · intro hf
      exact hload _ hf
  · right
    rw [h1]
    simp only [Init_load_events]
    refine ⟨by simp [nativeCalls], by simp [postedTasks], ?_, ?_⟩
    · intro a l hmem
      simp at hmem
    · intro hf
      exact hload _ hf

theorem Responder_destroy_nativeCalls (r : Responder) : nativeCalls r.destroy = [] := by
  unfold Responder.destroy
  rw [Responder_Cancel_events]
  unfold Responder.releaseSession
  cases hs : r.session_ <;> cases hc : r.cancel_ <;> cases ho : r.on_complete_ <;>
    simp [nativeCalls]

theorem destroy_release_projections (m : SessionMap) :
    postedTasks (m.map (fun entry => Event.ReleaseSession entry.2)) = [] ∧
    nativeCalls (m.map (fun entry => Event.ReleaseSession entry.2)) = [] := by
  induction m with
  | nil => exact ⟨rfl, rfl⟩
  | cons x xs ih => simp [postedTasks, nativeCalls, ih]

theorem mem_nativeCalls_of_mem (d : ChromeMLModelDescriptor) (xs : List Event)
    (h : Event.SessionCreateModel d ∈ xs) : Event.SessionCreateModel d ∈ nativeCalls xs := by
  induction xs with
  | nil => simp at h
  | cons x xs ih =>
    simp only [List.mem_cons] at h
    rcases h with h | h
    · subst h
      simp [nativeCalls]
    · cases x <;> simp [nativeCalls, ih h]

/-- C21, as stated, fails: `Init` calls `SessionCreateModel` itself, before
it posts anything; the one task it posts to `model_task_runner_` is the
`on_complete` closure, which makes no native call. -/
theorem C21_worker_queue_counterexample :
    (OnDeviceModelExecutor.new.Init exampleChromeML exampleFeatures exampleParams 0).2.2 =
      [Event.SessionCreateModel
        (OnDeviceModelExecutor.Init.descriptor exampleFeatures exampleParams 10),
       Event.PostTask TaskRunner.model_task_runner_ (Task.closure 0)] ∧
    nativeCalls
        (OnDeviceModelExecutor.new.Init exampleChromeML exampleFeatures exampleParams 0).2.2 ≠
      [] ∧
    (Task.closure 0).run = [Event.Run 0] := by
  refine ⟨rfl, ?_, rfl⟩
  decide

/-- C21, amended: the native release of the model is made only inside a
task posted to `model_task_runner_`, by the destructor, which makes no
native call itself; `LoadAdaptation`, `AddContext` and `Execute` make no
native call themselves either, they use session accessors. `Init`, when it
reaches the model-creation step, makes the native call `SessionCreateModel`
itself, on the sequence it is called on, and posts to `model_task_runner_`
only the `on_complete` closure. -/
theorem C21_worker_queue (e : OnDeviceModelExecutor) (chrome_ml : ChromeML)
    (features : Features) (params : LoadModelParams) (on_complete : OnceClosure)
    (next_id : Nat) (adaptation : LoadAdaptationParams) (s : SessionImpl)
    (input : InputOptions) (client : Option Nat) (response : Nat)
    (session_complete : Option OnceClosure) (engine_cancel : ChromeMLCancelFn)
    (now : Nat) :
    (∀ d, Event.SessionCreateModel d ∈ (e.Init chrome_ml features params on_complete).2.2 →
      nativeCalls (e.Init chrome_ml features params on_complete).2.2 =
        [Event.SessionCreateModel d] ∧
      postedTasks (e.Init chrome_ml features params on_complete).2.2 =
        [(TaskRunner.model_task_runner_, Task.closure on_complete)] ∧
      nativeCalls (Task.closure on_complete).run = []) ∧
    (nativeCalls e.destroy = [] ∧
      (∀ task ∈ postedTasks e.destroy,
        task = (TaskRunner.model_task_runner_, Task.DestroyModel e.model_)) ∧
      (Task.DestroyModel e.model_).run = [Event.DestroyModel e.model_]) ∧
    nativeCalls (e.LoadAdaptation next_id adaptation on_complete).2.2.2 = [] ∧
    nativeCalls (s.AddContext features input client session_complete engine_cancel now).2 =
      [] ∧
    nativeCalls (s.Execute features input response session_complete engine_cancel).2 =
      [] := by
  refine ⟨?_, ⟨?_, ?_, rfl⟩, rfl, rfl, ?_⟩
  · intro d hd
    rcases Init_events e chrome_ml features params on_complete with
      ⟨hev, _, _, _⟩ | ⟨hn, hp, _, _⟩
    · rw [hev] at hd
      simp at hd
    · refine ⟨?_, hp, rfl⟩
      have hmem := mem_nativeCalls_of_mem d _ hd
      rw [hn] at hmem ⊢
      simp only [List.mem_singleton, Event.SessionCreateModel.injEq] at hmem
      rw [hmem]
  · unfold OnDeviceModelExecutor.destroy
    rw [nativeCalls_append, (destroy_release_projections e.base_sessions_).2]
    split <;> simp [nativeCalls]
  · intro task htask
    unfold OnDeviceModelExecutor.destroy at htask
    rw [postedTasks_append, (destroy_release_projections e.base_sessions_).1] at htask
    split at htask
    · simpa [postedTasks] using htask
    · simp [postedTasks] at htask
  · unfold SessionImpl.Execute
    cases hr : s.responder_ <;>
      simp [nativeCalls_append, Responder_destroy_nativeCalls, nativeCalls]

/-- C22: destroying an executor posts exactly one task to
`model_task_runner_` when a model was loaded, the handle being non-zero, and
that task is the one that calls the native release function on the handle;
it posts no task when no model was loaded; and the destructor makes no
native call itself. -/
theorem C22_destructor_release (e : OnDeviceModelExecutor) :
    (e.model_ ≠ 0 →
      postedTasks e.destroy =
        [(TaskRunner.model_task_runner_, Task.DestroyModel e.model_)] ∧
      (Task.DestroyModel e.model_).run = [Event.DestroyModel e.model_]) ∧
    (e.model_ = 0 → postedTasks e.destroy = []) ∧
    nativeCalls e.destroy = [] ∧
    Event.DestroyModel e.model_ ∉ e.destroy := by
  have hp : postedTasks e.destroy =
      if e.model_ ≠ 0 then [(TaskRunner.model_task_runner_, Task.DestroyModel e.model_)]
      else [] := by
    unfold OnDeviceModelExecutor.destroy
    rw [postedTasks_append, (destroy_release_projections e.base_sessions_).1]
    split <;> simp [postedTasks]
  refine ⟨fun h => ⟨?_, rfl⟩, fun h => ?_, ?_, ?_⟩
  · rw [hp, if_pos h]
  · rw [hp]
    simp [h]
  · unfold OnDeviceModelExecutor.destroy
    rw [nativeCalls_append, (destroy_release_projections e.base_sessions_).2]
    split <;> simp [nativeCalls]
  · unfold OnDeviceModelExecutor.destroy
    split <;> simp

/-- The example executor, with the handle 7, posts the release of 7; a new
executor, without a model, posts nothing. -/
theorem C22_destructor_release_witness :
    postedTasks exampleExecutor.destroy =
      [(TaskRunner.model_task_runner_, Task.DestroyModel 7)] ∧
    postedTasks OnDeviceModelExecutor.new.destroy = [] :=
  ⟨((C22_destructor_release exampleExecutor).1 (by decide)).1,
   (C22_destructor_release OnDeviceModelExecutor.new).2.1 rfl⟩

/-- C29: whenever `Init` reaches the model-creation step it posts its
`on_complete` closure to `model_task_runner_` exactly once, whether the
creation succeeds or fails. When the text-safety or language-detection
model was asked for and could not be created, `Init` returns
`kFailedToLoadLibrary` without any native call, without posting anything,
and with the session store empty. Whenever `Init` fails the session store
is empty, so `CreateSession` fails its `CHECK` for every id. -/
theorem C29_init_on_complete (chrome_ml : ChromeML) (features : Features)
    (params : LoadModelParams) (on_complete : OnceClosure) :
    ((∃ d, Event.SessionCreateModel d ∈
        (OnDeviceModelExecutor.new.Init chrome_ml features params on_complete).2.2) →
      postedTasks (OnDeviceModelExecutor.new.Init chrome_ml features params on_complete).2.2 =
        [(TaskRunner.model_task_runner_, Task.closure on_complete)]) ∧
    ((∃ a l, Event.TsModelCreate a l ∈
        (OnDeviceModelExecutor.new.Init chrome_ml features params on_complete).2.2 ∧
        chrome_ml.TsModelCreate a l = false) →
      (OnDeviceModelExecutor.new.Init chrome_ml features params on_complete).1 =
        LoadModelResult.kFailedToLoadLibrary ∧
      nativeCalls
        (OnDeviceModelExecutor.new.Init chrome_ml features params on_complete).2.2 = [] ∧
      postedTasks
        (OnDeviceModelExecutor.new.Init chrome_ml features params on_complete).2.2 = [] ∧
      (OnDeviceModelExecutor.new.Init chrome_ml features params
        on_complete).2.1.base_sessions_ = []) ∧
    ((OnDeviceModelExecutor.new.Init chrome_ml features params on_complete).1 =
        LoadModelResult.kFailedToLoadLibrary →
      (OnDeviceModelExecutor.new.Init chrome_ml features params
        on_complete).2.1.base_sessions_ = [] ∧
      ∀ adaptation_id,
        (OnDeviceModelExecutor.new.Init chrome_ml features params
          on_complete).2.1.CreateSession adaptation_id = none) := by
  have hev := Init_events OnDeviceModelExecutor.new chrome_ml features params on_complete
  have hfail : (OnDeviceModelExecutor.new.Init chrome_ml features params on_complete).1 =
        LoadModelResult.kFailedToLoadLibrary →
      (OnDeviceModelExecutor.new.Init chrome_ml features params
        on_complete).2.1.base_sessions_ = [] := by
    intro hf
    rcases hev with ⟨_, _, _, hs⟩ | ⟨_, _, _, hs⟩
    · rw [hs]; rfl
    · rw [hs hf]; rfl
  refine ⟨?_, ?_, ?_⟩
  · rintro ⟨d, hd⟩
    rcases hev with ⟨hevs, _, _, _⟩ | ⟨_, hp, _, _⟩
    · rw [hevs] at hd
      simp at hd
    · exact hp
  · rintro ⟨a, l, hmem, hfalse⟩
    rcases hev with ⟨hevs, _, hres, hs⟩ | ⟨_, _, hts, _⟩
    · refine ⟨hres, ?_, ?_, ?_⟩
      · rw [hevs]; rfl
      · rw [hevs]; rfl
      · rw [hs]; rfl
    · rw [hts a l hmem] at hfalse
      exact absurd hfalse (by decide)
  · intro hf
    refine ⟨hfail hf, fun adaptation_id => ?_⟩
    rw [CreateSession_eq_none_iff, hfail hf]
    rfl

/-- The three ways `Init` ends: success posts the closure once; a null
handle from the model creation posts it once, fails and leaves no session;
a failed text-safety model creation posts nothing and makes no native
call. -/
theorem C29_init_on_complete_witness :
    postedTasks (OnDeviceModelExecutor.new.Init exampleChromeML exampleFeatures
      exampleParams 0).2.2 = [(TaskRunner.model_task_runner_, Task.closure 0)] ∧
    (OnDeviceModelExecutor.new.Init nullModelChromeML exampleFeatures exampleParams 0).1 =
      LoadModelResult.kFailedToLoadLibrary ∧
    postedTasks (OnDeviceModelExecutor.new.Init nullModelChromeML exampleFeatures
      exampleParams 0).2.2 = [(TaskRunner.model_task_runner_, Task.closure 0)] ∧
    (OnDeviceModelExecutor.new.Init nullModelChromeML exampleFeatures exampleParams
      0).2.1.CreateSession none = none ∧
    postedTasks (OnDeviceModelExecutor.new.Init tsFailChromeML exampleFeatures
      tsParams 0).2.2 = [] :=
  ⟨(C29_init_on_complete exampleChromeML exampleFeatures exampleParams 0).1
      ⟨_, List.mem_cons_self _ _⟩,
   rfl,
   (C29_init_on_complete nullModelChromeML exampleFeatures exampleParams 0).1
      ⟨_, List.mem_cons_self _ _⟩,
   ((C29_init_on_complete nullModelChromeML exampleFeatures exampleParams 0).2.2 rfl).2 none,
   ((C29_init_on_complete tsFailChromeML exampleFeatures tsParams 0).2.1
      ⟨_, _, List.mem_cons_self _ _, rfl⟩).2.2.1⟩

/-! ## The output stream -/

theorem Responder_OnOutput_text_state (r : Responder) (rate : FloatRate) (t : String)
    (now : Nat) :
    (r.OnOutput rate (some t) now).1.output_so_far_ = r.output_so_far_ ++ t ∧
    (r.OnOutput rate (some t) now).1.first_token_time_ =
      (if r.first_token_time_ = 0 then now else r.first_token_time_) := by
  unfold Responder.OnOutput
  simp only
  split <;> simp_all

theorem Responder_run_chunks_state (rate : FloatRate) (outputs : List (String × Nat)) :
    ∀ r : Responder,
    (Responder.run rate r (chunkEvents outputs)).1.output_so_far_ =
      outputs.foldl (fun acc o => acc ++ o.1) r.output_so_far_ ∧
    (r.first_token_time_ ≠ 0 →
      (Responder.run rate r (chunkEvents outputs)).1.first_token_time_ =
        r.first_token_time_) := by
  induction outputs with
  | nil => intro r; simp [chunkEvents, Responder.run]
  | cons o os ih =>
    intro r
    have h := Responder_OnOutput_text_state r rate o.1 o.2
    have ih1 := ih (r.OnOutput rate (some o.1) o.2).1
    simp only [chunkEvents, List.map_cons, Responder.run, Responder.handle] at ih1 ⊢
    refine ⟨?_, ?_⟩
    · rw [ih1.1, h.1]
      rfl
    · intro hne
      have hft : (r.OnOutput rate (some o.1) o.2).1.first_token_time_ =
          r.first_token_time_ := by
        rw [h.2, if_neg hne]
      rw [ih1.2 (by rw [hft]; exact hne), hft]

/-- C23: for every sequence of outputs with texts `t1 .. tn` delivered to a
Responder, as in-progress outputs through its output function, the remote
receives exactly the `n` chunks with `t1 .. tn` in that order, the token
count grows by `n`, so it is `n` from a new Responder, and the accumulated
output grows by `t1 ++ .. ++ tn`. The timer start `first_token_time_`, null
at first, is set by the first output to the time of that output, which
`base::TimeTicks::Now()` gives and is not the null time, and the later
outputs leave it as it is. -/
theorem C23_stream_chunks (rate : FloatRate) (r : Responder)
    (outputs : List (String × Nat)) :
    (Responder.run rate r (chunkEvents outputs)).2 =
      outputs.map (fun o => Event.OnResponse r.responder_ o.1) ∧
    sinkEvents (Responder.run rate r (chunkEvents outputs)).2 =
      outputs.map (fun o => Event.OnResponse r.responder_ o.1) ∧
    (Responder.run rate r (chunkEvents outputs)).1.num_tokens_ =
      r.num_tokens_ + outputs.length ∧
    (Responder.run rate r (chunkEvents outputs)).1.output_so_far_ =
      outputs.foldl (fun acc o => acc ++ o.1) r.output_so_far_ ∧
    (r.num_tokens_ = 0 → r.output_so_far_ = "" →
      (Responder.run rate r (chunkEvents outputs)).1.num_tokens_ = outputs.length ∧
      (Responder.run rate r (chunkEvents outputs)).1.output_so_far_ =
        String.join (outputs.map Prod.fst)) ∧
    (∀ t now rest, outputs = (t, now) :: rest → r.first_token_time_ = 0 → 0 < now →
      (Responder.run rate r (chunkEvents outputs)).1.first_token_time_ = now ∧
      (Responder.run rate r (chunkEvents [(t, now)])).1.first_token_time_ = now) ∧
    (r.first_token_time_ ≠ 0 →
      (Responder.run rate r (chunkEvents outputs)).1.first_token_time_ =
        r.first_token_time_) ∧
    (∀ dcheck_is_on t now,
      r.deliver rate dcheck_is_on
          { status := ChromeMLExecutionStatus.kInProgress, text := some t } now =
        some (r.OnOutput rate (some t) now)) := by
  have h := Responder_run_chunks rate outputs r
  have hs := Responder_run_chunks_state rate outputs r
  refine ⟨h.1, ?_, h.2.2.2.2.2, hs.1, ?_, ?_, hs.2, ?_⟩
  · rw [h.1, sinkEvents_map_OnResponse]
  · intro h0 he
    refine ⟨?_, ?_⟩
    · rw [h.2.2.2.2.2, h0]
      simp
    · rw [hs.1, he]
      unfold String.join
      rw [List.foldl_map]
  · intro t now rest hout h0 hnow
    subst hout
    have h1 := Responder_OnOutput_text_state r rate t now
    have hft : (r.OnOutput rate (some t) now).1.first_token_time_ = now := by
      rw [h1.2, if_pos h0]
    have hrest := (Responder_run_chunks_state rate rest (r.OnOutput rate (some t) now).1).2
      (by rw [hft]; omega)
    refine ⟨?_, ?_⟩
    · simp only [chunkEvents, List.map_cons, Responder.run, Responder.handle] at hrest ⊢
      rw [hrest, hft]
    · simp only [chunkEvents, List.map_cons, List.map_nil, Responder.run, Responder.handle]
      exact hft
  · intro dcheck_is_on t now
    rfl

/-- Five chunks from a new Responder: the remote receives them in order,
the token count is 5, the accumulated output is their concatenation and the
timer start is the time of the first, 100. -/
theorem C23_stream_chunks_witness :
    (Responder.run exampleRate exampleResponder (chunkEvents fiveChunks)).2 =
      [Event.OnResponse 11 "a", Event.OnResponse 11 "b", Event.OnResponse 11 "c",
       Event.OnResponse 11 "d", Event.OnResponse 11 "e"] ∧
    (Responder.run exampleRate exampleResponder (chunkEvents fiveChunks)).1.num_tokens_ = 5 ∧
    (Responder.run exampleRate exampleResponder (chunkEvents fiveChunks)).1.first_token_time_ =
      100 :=
  have h := C23_stream_chunks exampleRate exampleResponder fiveChunks
  ⟨h.1, (h.2.2.2.2.1 rfl rfl).1, (h.2.2.2.2.2.1 "a" 100 _ rfl rfl (by decide)).1⟩

/-- C24, as stated, fails: an in-progress output whose text is the empty
string passes the `CHECK`, since its pointer is not null, and `OnOutput`
forwards it as a chunk and counts it as a token; it is not taken as the end
of the output. -/
theorem C24_output_text_counterexample :
    exampleResponder.deliver exampleRate true
        { status := ChromeMLExecutionStatus.kInProgress, text := some "" } 100 =
      some (exampleResponder.OnOutput exampleRate (some "") 100) ∧
    (exampleResponder.OnOutput exampleRate (some "") 100).2 = [Event.OnResponse 11 ""] ∧
    (exampleResponder.OnOutput exampleRate (some "") 100).1.num_tokens_ = 1 ∧
    Event.OnComplete 11 ∉ (exampleResponder.OnOutput exampleRate (some "") 100).2 := by
  refine ⟨rfl, rfl, rfl, ?_⟩
  decide

/-- C24, amended: an output callback that reaches the Responder is
forwarded as a chunk and counted as a token if and only if its status is
`kInProgress`, in which case its text is present, and may be the empty
string; an output with the status `kComplete` is the end of the output: it
sends the completion record and leaves the token count as it is. An
in-progress output without text fails the `CHECK`. -/
theorem C24_output_text (rate : FloatRate) (dcheck_is_on : Bool) (r : Responder)
    (output : ChromeMLExecutionOutput) (now : Nat) (result : Responder × List Event)
    (h : r.deliver rate dcheck_is_on output now = some result) :
    (output.status = ChromeMLExecutionStatus.kInProgress →
      ∃ t, output.text = some t ∧ result.2 = [Event.OnResponse r.responder_ t] ∧
        result.1.num_tokens_ = r.num_tokens_ + 1) ∧
    (output.status = ChromeMLExecutionStatus.kComplete →
      sinkEvents result.2 = [Event.OnComplete r.responder_] ∧
      result.1.num_tokens_ = r.num_tokens_ ∧
      result = r.OnOutput rate none now) ∧
    ((∃ t, Event.OnResponse r.responder_ t ∈ result.2) ↔
      output.status = ChromeMLExecutionStatus.kInProgress) ∧
    (result.1.num_tokens_ = r.num_tokens_ + 1 ↔
      output.status = ChromeMLExecutionStatus.kInProgress) := by
  obtain ⟨status, text⟩ := output
  cases status with
  | kInProgress =>
    cases text with
    | none => simp [Responder.deliver, Responder.CreateOutputFn] at h
    | some t =>
      simp only [Responder.deliver, Responder.CreateOutputFn, Option.some.injEq] at h
      subst h
      have ht := Responder_OnOutput_text r rate t now
      refine ⟨fun _ => ⟨t, rfl, ht.1, ht.2.2.2.2.2⟩, fun hc => by simp at hc, ?_, ?_⟩
      · simp only [iff_true]
        exact ⟨t, by rw [ht.1]; simp⟩
      · simp only [iff_true]
        exact ht.2.2.2.2.2
  | kComplete =>
    have hres : result = r.OnOutput rate none now := by
      simp only [Responder.deliver, Responder.CreateOutputFn] at h
      by_cases hd : (dcheck_is_on && text.isSome) = true
      · simp [hd] at h
      · simp only [hd, Bool.false_eq_true, if_false, Option.some.injEq] at h
        exact h.symm
    subst hres
    have hp := Responder_OnOutput_end_projections r rate now
    have hst : (r.OnOutput rate none now).1.num_tokens_ = r.num_tokens_ := by
      rw [Responder_OnOutput_end_state]
    refine ⟨fun hc => by simp at hc, fun _ => ⟨hp.2.2, hst, rfl⟩, ?_, ?_⟩
    · simp only [reduceCtorEq, iff_false, not_exists]
      intro t hmem
      have hsink : Event.OnResponse r.responder_ t ∈
          sinkEvents (r.OnOutput rate none now).2 := by
        generalize (r.OnOutput rate none now).2 = evs at hmem
        induction evs with
        | nil => simp at hmem
        | cons x xs ih =>
          simp only [List.mem_cons] at hmem
          rcases hmem with hx | hx
          · subst hx
            simp [sinkEvents]
          · cases x <;> simp [sinkEvents, ih hx]
      rw [hp.2.2] at hsink
      simp at hsink
    · simp only [reduceCtorEq, iff_false]
      rw [hst]
      omega

/-- An in-progress output with the text "a" is forwarded and counted; a
complete output sends the completion record. -/
theorem C24_output_text_witness :
    (∃ t, some "a" = some t ∧
      (exampleResponder.OnOutput exampleRate (some "a") 100).2 = [Event.OnResponse 11 t] ∧
      (exampleResponder.OnOutput exampleRate (some "a") 100).1.num_tokens_ = 0 + 1) ∧
    sinkEvents (exampleResponder.OnOutput exampleRate none 100).2 = [Event.OnComplete 11] :=
  ⟨(C24_output_text exampleRate true exampleResponder
      { status := ChromeMLExecutionStatus.kInProgress, text := some "a" } 100 _ rfl).1 rfl,
   ((C24_output_text exampleRate true exampleResponder
      { status := ChromeMLExecutionStatus.kComplete, text := none } 100 _ rfl).2.1 rfl).1⟩

/-- One event on a Responder, in whatever state: the call it makes on the
remote, the token count and the session afterwards. -/
theorem Responder_handle_sink (rate : FloatRate) (r : Responder) (ev : ResponderEvent) :
    sinkEvents (Responder.handle rate r ev).2 =
      (ResponderEvent.sinkCall r.responder_ ev).toList ∧
    (Responder.handle rate r ev).1.num_tokens_ =
      r.num_tokens_ + (if ev.isText then 1 else 0) ∧
    (r.session_ = none → (Responder.handle rate r ev).1.session_ = none) := by
  cases ev with
  | output text now =>
    cases text with
    | some t =>
      have h := Responder_OnOutput_text r rate t now
      simp only [Responder.handle, ResponderEvent.sinkCall, ResponderEvent.isText]
      refine ⟨?_, ?_, ?_⟩
      · rw [h.1]; rfl
      · rw [h.2.2.2.2.2]; simp
      · intro hs; rw [h.2.2.2.1, hs]
    | none =>
      have h := Responder_OnOutput_end_projections r rate now
      simp only [Responder.handle, ResponderEvent.sinkCall, ResponderEvent.isText]
      refine ⟨?_, ?_, ?_⟩
      · rw [h.2.2]; rfl
      · rw [Responder_OnOutput_end_state]; simp
      · intro _; rw [Responder_OnOutput_end_state]
  | disconnect =>
    have h := Responder_Cancel_projections r
    simp only [Responder.handle, ResponderEvent.sinkCall, ResponderEvent.isText]
    refine ⟨?_, ?_, ?_⟩
    · rw [h.2.2.2.2]; rfl
    · rw [Responder_Cancel_state]; simp
    · intro _; rw [Responder_Cancel_state]

theorem Responder_run_sink (rate : FloatRate) (evs : List ResponderEvent) :
    ∀ r : Responder,
    sinkEvents (Responder.run rate r evs).2 =
      evs.filterMap (ResponderEvent.sinkCall r.responder_) ∧
    (Responder.run rate r evs).1.num_tokens_ =
      r.num_tokens_ + ((evs.filter ResponderEvent.isText).length : Int) ∧
    (r.session_ = none → (Responder.run rate r evs).1.session_ = none) := by
  induction evs with
  | nil => intro r; simp [Responder.run, sinkEvents]
  | cons ev evs ih =>
    intro r
    have h := Responder_handle_sink rate r ev
    have hp := Responder_handle_projections rate r ev
    have ih1 := ih (Responder.handle rate r ev).1
    unfold Responder.run
    simp only
    refine ⟨?_, ?_, ?_⟩
    · rw [sinkEvents_append, ih1.1, h.1, hp.2.2.1]
      cases hs : ResponderEvent.sinkCall r.responder_ ev <;> simp [List.filterMap_cons, hs]
    · rw [ih1.2.1, h.2.1]
      cases ht : ev.isText <;> simp [List.filter_cons, ht]
      omega
    · intro hs
      exact ih1.2.2 (h.2.2 hs)

theorem count_OnComplete_sinkCall (responder : Nat) (evs : List ResponderEvent) :
    (evs.filterMap (ResponderEvent.sinkCall responder)).count (Event.OnComplete responder) =
      (evs.filter ResponderEvent.isEnd).length := by
  induction evs with
  | nil => rfl
  | cons ev evs ih =>
    cases ev with
    | output text now =>
      cases text with
      | some t =>
        have hne : (Event.OnResponse responder t == Event.OnComplete responder) = false := by
          simp
        rw [List.filterMap_cons_some (by rfl : ResponderEvent.sinkCall responder
          (ResponderEvent.output (some t) now) = some (Event.OnResponse responder t)),
          List.count_cons, ih, hne]
        simp [List.filter_cons, ResponderEvent.isEnd]
      | none =>
        rw [List.filterMap_cons_some (by rfl : ResponderEvent.sinkCall responder
          (ResponderEvent.output none now) = some (Event.OnComplete responder)),
          List.count_cons, ih]
        simp [List.filter_cons, ResponderEvent.isEnd]
    | disconnect =>
      rw [List.filterMap_cons_none (by rfl : ResponderEvent.sinkCall responder
        ResponderEvent.disconnect = none), ih]
      simp [List.filter_cons, ResponderEvent.isEnd]

/-- C26, as stated, fails: the Responder has no terminal state. After a
cancel by disconnect an output with text is still handed to the remote and
counted, and a second end of output sends a second completion record. -/
theorem C26_terminal_states_counterexample :
    (Responder.run exampleRate exampleResponder
      [ResponderEvent.disconnect, ResponderEvent.output (some "x") 100]).2 =
      [Event.ReleaseSession (SessionAccessor.Create 7 none), Event.Cancel 31, Event.Run 21,
       Event.OnResponse 11 "x"] ∧
    (Responder.run exampleRate exampleResponder [ResponderEvent.disconnect]).1.num_tokens_ =
      0 ∧
    (Responder.run exampleRate exampleResponder
      [ResponderEvent.disconnect, ResponderEvent.output (some "x") 100]).1.num_tokens_ = 1 ∧
    sinkEvents (Responder.run exampleRate exampleResponder
      [ResponderEvent.output none 100, ResponderEvent.output none 200]).2 =
      [Event.OnComplete 11, Event.OnComplete 11] :=
  ⟨rfl, rfl, rfl, rfl⟩

/-- C26, amended: the Responder keeps no record of having completed or of
having been cancelled. Whatever came before, every output callback with
text calls `OnResponse` on the remote and increments the token count, and
every end of output calls `OnComplete` on the remote: the calls on the
remote are those of the output callbacks, one for one and in order, so the
completion records number as many as the ends of output delivered, at most
one when the engine delivers at most one. What is final is that a released
session clone stays released and that `on_complete`, once run, is not run
again. -/
theorem C26_terminal_states (rate : FloatRate) (r : Responder)
    (evs : List ResponderEvent) :
    sinkEvents (Responder.run rate r evs).2 =
      evs.filterMap (ResponderEvent.sinkCall r.responder_) ∧
    (Responder.run rate r evs).1.num_tokens_ =
      r.num_tokens_ + ((evs.filter ResponderEvent.isText).length : Int) ∧
    (sinkEvents (Responder.run rate r evs).2).count (Event.OnComplete r.responder_) =
      (evs.filter ResponderEvent.isEnd).length ∧
    ((evs.filter ResponderEvent.isEnd).length ≤ 1 →
      (sinkEvents (Responder.run rate r evs).2).count (Event.OnComplete r.responder_) ≤ 1) ∧
    (r.session_ = none → (Responder.run rate r evs).1.session_ = none) ∧
    (r.on_complete_ = none → closuresRun (Responder.run rate r evs).2 = []) ∧
    (closuresRun (Responder.run rate r evs).2).length ≤ 1 := by
  have h := Responder_run_sink rate evs r
  have hp := Responder_run_projections rate evs r
  have hcount : (sinkEvents (Responder.run rate r evs).2).count
      (Event.OnComplete r.responder_) = (evs.filter ResponderEvent.isEnd).length := by
    rw [h.1]
    exact count_OnComplete_sinkCall r.responder_ evs
  refine ⟨h.1, h.2.1, hcount, fun hle => by rw [hcount]; exact hle, h.2.2, ?_, ?_⟩
  · intro hnone
    have h1 := hp.1
    rw [hnone] at h1
    simp only [Option.toList, List.append_eq_nil] at h1
    exact h1.1
  · have h1 := congrArg List.length hp.1
    rw [List.length_append] at h1
    have h2 : r.on_complete_.toList.length ≤ 1 := by
      cases r.on_complete_ <;> simp
    omega

/-! ## The empty session -/

theorem SessionMap_find_insert_cases (m : SessionMap) (key other : Option Nat)
    (value v : SessionAccessor) (h : (m.insert key value).find other = some v) :
    m.find other = some v ∨ v = value := by
  by_cases hk : other = key
  · subst hk
    cases hm : m.find other with
    | none =>
      rw [SessionMap_find_insert_fresh m other value hm] at h
      simp only [Option.some.injEq] at h
      exact Or.inr h.symm
    | some w =>
      rw [SessionMap_find_insert_of_some m other other value w hm] at h
      exact Or.inl h
  · rw [SessionMap_find_insert_of_ne m key other value hk] at h
    exact Or.inl h

theorem Init_ContextFree (e : OnDeviceModelExecutor) (chrome_ml : ChromeML)
    (features : Features) (params : LoadModelParams) (on_complete : OnceClosure)
    (h : e.base_sessions_.ContextFree) :
    (e.Init chrome_ml features params on_complete).2.1.base_sessions_.ContextFree := by
  have hload : ∀ e0 : OnDeviceModelExecutor, e0.base_sessions_ = e.base_sessions_ →
      (OnDeviceModelExecutor.Init.load e0 chrome_ml features params
        on_complete).2.1.base_sessions_.ContextFree := by
    intro e0 he0
    unfold OnDeviceModelExecutor.Init.load
    simp only
    split
    · intro key session hfind
      rcases SessionMap_find_insert_cases _ _ _ _ _ hfind with hold | hnew
      · rw [he0] at hold
        exact h key session hold
      · rw [hnew]
        rfl
    · intro key session hfind
      rw [he0] at hfind
      exact h key session hfind
  rcases Init_cases e chrome_ml features params on_complete with
    ⟨_, _, h1⟩ | ⟨_, _, h1⟩ | ⟨_, h1⟩
  · rw [h1]
    exact h
  · rw [h1]
    exact hload _ rfl
  · rw [h1]
    exact hload _ rfl

theorem ExecutorReachable_ContextFree (e0 e : OnDeviceModelExecutor)
    (h0 : e0.base_sessions_.ContextFree) (h : ExecutorReachable e0 e) :
    e.base_sessions_.ContextFree := by
  induction h with
  | start => exact h0
  | load e next_id params on_complete _ ih =>
    intro key session hfind
    rw [(LoadAdaptation_result next_id e params on_complete).2.2] at hfind
    rcases SessionMap_find_insert_cases _ _ _ _ _ hfind with hold | hnew
    · exact ih key session hold
    · rw [hnew]
      rfl

theorem SessionReachable_empty_context (features : Features) (e : OnDeviceModelExecutor)
    (s : SessionImpl) (he : e.base_sessions_.ContextFree)
    (h : SessionReachable features e s) : s.empty_session_.context = [] := by
  induction h with
  | create adaptation_id s hs =>
    cases hp : e.base_sessions_.find adaptation_id with
    | none =>
      rw [(CreateSession_eq_none_iff e adaptation_id).mpr hp] at hs
      simp at hs
    | some prototype =>
      rw [CreateSession_of_find e adaptation_id prototype hp] at hs
      simp only [Option.some.injEq] at hs
      subst hs
      exact he adaptation_id prototype hp
  | clone s _ ih => exact ih
  | addContext s input client on_complete engine_cancel now _ ih => exact ih
  | execute s input response on_complete engine_cancel _ ih => exact ih

/-- C27: the empty session of a session carries no context. For every
executor that `Init` set up, also after `LoadAdaptation` calls, and
every session that comes from `CreateSession` through any sequence of
`AddContext`, `Execute` and `Clone` calls: `empty_session_` has no context;
`AddContext` issues its one context request on `session_`, whatever
`input.ignore_context` is, and leaves `empty_session_` as it is; `Execute`
issues no context request; and `Execute` with `ignore_context` true issues
its generation request on a clone of `empty_session_`, which has no
context. -/
theorem C27_empty_session_context_free (chrome_ml : ChromeML) (features : Features)
    (params : LoadModelParams) (init_complete : OnceClosure)
    (e : OnDeviceModelExecutor) (s : SessionImpl) (input : InputOptions)
    (client : Option Nat) (response : Nat) (on_complete : Option OnceClosure)
    (engine_cancel : ChromeMLCancelFn) (now : Nat)
    (he : ExecutorReachable
      (OnDeviceModelExecutor.new.Init chrome_ml features params init_complete).2.1 e)
    (hs : SessionReachable features e s) :
    s.empty_session_.context = [] ∧
    (contextRequests
        (s.AddContext features input client on_complete engine_cancel now).2).map Prod.fst =
      [s.session_] ∧
    (s.AddContext features input client on_complete engine_cancel now).1.empty_session_ =
      s.empty_session_ ∧
    contextRequests (s.Execute features input response on_complete engine_cancel).2 = [] ∧
    (s.Execute features input response on_complete engine_cancel).1.empty_session_ =
      s.empty_session_ ∧
    s.Clone.empty_session_ = s.empty_session_.Clone ∧
    (input.ignore_context = true →
      (generationRequests
        (s.Execute features input response on_complete engine_cancel).2).map Prod.fst =
        [s.empty_session_.Clone] ∧
      s.empty_session_.Clone.context = []) := by
  have hfree : e.base_sessions_.ContextFree :=
    ExecutorReachable_ContextFree _ e
      (Init_ContextFree _ chrome_ml features params init_complete
        (by intro key session hfind; simp [OnDeviceModelExecutor.new, SessionMap.find] at hfind))
      he
  have hempty := SessionReachable_empty_context features e s hfree hs
  refine ⟨hempty, ?_, rfl, ?_, rfl, rfl, ?_⟩
  · simp [SessionImpl.AddContext, contextRequests]
  · unfold SessionImpl.Execute
    cases hr : s.responder_ <;>
      simp [contextRequests_append, Responder.destroy,
        (Responder_Cancel_projections _).2.1, contextRequests]
  · intro hig
    refine ⟨?_, hempty⟩
    unfold SessionImpl.Execute
    cases hr : s.responder_ <;>
      simp [generationRequests_append, Responder.destroy,
        (Responder_Cancel_projections _).1, generationRequests, hig]

/-- The example session after an `AddContext` with `ignore_context` true:
its `session_` has the input as context, its `empty_session_` has none. -/
theorem C27_empty_session_context_free_witness :
    exampleContextSession.empty_session_.context = [] ∧
    exampleContextSession.session_.context.length = 1 ∧
    (generationRequests (exampleContextSession.Execute exampleFeatures exampleGreedyInput
      12 none none).2).map Prod.fst = [SessionAccessor.Create 7 none] :=
  have h := C27_empty_session_context_free exampleChromeML exampleFeatures exampleParams 0
    exampleExecutor exampleContextSession exampleGreedyInput none 12 none none 0
    ExecutorReachable.start
    (SessionReachable.addContext _ exampleGreedyInput (some 41) (some 51) (some 61) 1000
      (SessionReachable.create none exampleSession rfl))
  ⟨h.1, rfl, (h.2.2.2.2.2.2 rfl).1⟩

/-! ## The holders of a session -/

theorem apply_fresh (s : SessionImpl) (features : Features) (rate : FloatRate)
    (op : SessionOp) (hfresh : ∀ h ∈ s.context_holders_, h.on_disconnect_ = true) :
    ∀ h ∈ (s.apply features rate op).1.context_holders_, h.on_disconnect_ = true := by
  cases op with
  | AddContext input client on_complete engine_cancel now =>
    intro h hmem
    simp only [SessionImpl.apply, SessionImpl.AddContext, List.mem_append,
      List.mem_singleton] at hmem
    rcases hmem with hmem | hmem
    · exact hfresh h hmem
    · rw [hmem]
      rfl
  | Execute input response on_complete engine_cancel =>
    intro h hmem
    exact hfresh h hmem
  | contextSaved context tokens_processed now =>
    intro h hmem
    simp only [SessionImpl.apply] at hmem
    cases hget : s.context_holders_.get? context with
    | none =>
      simp only [SessionImpl.contextSaved, hget] at hmem
      exact hfresh h hmem
    | some holder =>
      have hd := hfresh holder (List.get?_mem hget)
      rw [(contextSaved_eq s rate context holder tokens_processed now hget hd).2] at hmem
      exact hfresh h (List.mem_of_mem_eraseIdx hmem)
  | clientDisconnected context =>
    intro h hmem
    simp only [SessionImpl.apply] at hmem
    cases hget : s.context_holders_.get? context with
    | none =>
      simp only [SessionImpl.clientDisconnected, hget] at hmem
      exact hfresh h hmem
    | some holder =>
      have hd := hfresh holder (List.get?_mem hget)
      cases hcl : holder.client_.isSome with
      | false =>
        simp only [SessionImpl.clientDisconnected, hget, hcl, Bool.false_eq_true,
          if_false] at hmem
        exact hfresh h hmem
      | true =>
        rw [(clientDisconnected_eq s context holder hget hd hcl).2] at hmem
        exact hfresh h (List.mem_of_mem_eraseIdx hmem)

theorem runOps_fresh (features : Features) (rate : FloatRate) (ops : List SessionOp) :
    ∀ s : SessionImpl, (∀ h ∈ s.context_holders_, h.on_disconnect_ = true) →
    ∀ h ∈ (s.runOps features rate ops).1.context_holders_, h.on_disconnect_ = true := by
  induction ops with
  | nil => intro s hfresh; exact hfresh
  | cons op ops ih =>
    intro s hfresh
    exact ih _ (apply_fresh s features rate op hfresh)

/-- C28: the holders of a session are those that `AddContext` made and that
have neither completed nor been disconnected. From a session whose holders
all still have `on_disconnect_` bound, such as a new one, and after any
sequence of `AddContext` and `Execute` calls, completion callbacks and
client disconnects: every holder still has `on_disconnect_` bound;
`AddContext` adds one holder, in the state the constructor gives it, with
the cancel function of the request; the completion callback of a holder,
and the disconnect of its client, take exactly that holder out and destroy
it, and a callback for a holder that is gone does nothing; `Execute` leaves
the holders alone. In the handling of a completion the destructor invokes
the bound cancel function once, and the completion continuation runs once,
not a second time. -/
theorem C28_context_holders (s0 : SessionImpl) (features : Features) (rate : FloatRate)
    (ops : List SessionOp) (input : InputOptions) (client : Option Nat)
    (response : Nat) (on_complete : Option OnceClosure)
    (engine_cancel : ChromeMLCancelFn) (now : Nat) (i : Nat) (tokens_processed : Int)
    (hfresh : ∀ h ∈ s0.context_holders_, h.on_disconnect_ = true) :
    (∀ h ∈ (s0.runOps features rate ops).1.context_holders_, h.on_disconnect_ = true) ∧
    ((s0.runOps features rate ops).1.AddContext features input client on_complete
        engine_cancel now).1.context_holders_ =
      (s0.runOps features rate ops).1.context_holders_ ++
        [{ timer_ := now, client_ := client, on_disconnect_ := true,
           cancel_ := engine_cancel, on_complete_ := on_complete }] ∧
    ((s0.runOps features rate ops).1.Execute features input response on_complete
        engine_cancel).1.context_holders_ =
      (s0.runOps features rate ops).1.context_holders_ ∧
    (∀ h, (s0.runOps features rate ops).1.context_holders_.get? i = some h →
      ((s0.runOps features rate ops).1.contextSaved rate i tokens_processed
          now).1.context_holders_ =
        (s0.runOps features rate ops).1.context_holders_.eraseIdx i ∧
      cancelsInvoked ((s0.runOps features rate ops).1.contextSaved rate i tokens_processed
          now).2 = h.cancel_.toList ∧
      closuresRun ((s0.runOps features rate ops).1.contextSaved rate i tokens_processed
          now).2 = h.on_complete_.toList ∧
      (h.client_.isSome = true →
        ((s0.runOps features rate ops).1.clientDisconnected i).1.context_holders_ =
          (s0.runOps features rate ops).1.context_holders_.eraseIdx i ∧
        ((s0.runOps features rate ops).1.clientDisconnected i).2 = h.destroy)) ∧
    ((s0.runOps features rate ops).1.context_holders_.get? i = none →
      (s0.runOps features rate ops).1.contextSaved rate i tokens_processed now =
        ((s0.runOps features rate ops).1, []) ∧
      (s0.runOps features rate ops).1.clientDisconnected i =
        ((s0.runOps features rate ops).1, [])) := by
  have hall := runOps_fresh features rate ops s0 hfresh
  generalize (s0.runOps features rate ops).1 = s at hall ⊢
  refine ⟨hall, rfl, rfl, ?_, ?_⟩
  · intro h hget
    have hd := hall h (List.get?_mem hget)
    have hs := contextSaved_eq s rate i h tokens_processed now hget hd
    have hoc := ContextHolder_OnComplete_projections h rate tokens_processed now
    have hoc2 := ContextHolder_OnComplete_eq h rate tokens_processed now
    have hdes := ContextHolder_destroy_projections (h.OnComplete rate tokens_processed now).1
    refine ⟨hs.2, ?_, ?_, ?_⟩
    · rw [hs.1, cancelsInvoked_append, hoc.2.1, hdes.2.1, hoc2.2.2.2]
      rfl
    · rw [hs.1, closuresRun_append, hoc.1, hdes.1, hoc2.2.2.1]
      simp
    · intro hcl
      have hcd := clientDisconnected_eq s i h hget hd hcl
      exact ⟨hcd.2, hcd.1⟩
  · intro hget
    refine ⟨?_, ?_⟩
    · simp only [SessionImpl.contextSaved, hget]
    · simp only [SessionImpl.clientDisconnected, hget]

/-- The example session with one holder: its completion callback takes the
holder out, invokes the cancel function 61 once and runs the closure 51
once; a second callback for it does nothing. -/
theorem C28_context_holders_witness :
    (exampleSession.runOps exampleFeatures exampleRate
      [SessionOp.AddContext exampleGreedyInput (some 41) (some 51) (some 61) 1000]).1 =
      exampleContextSession ∧
    (exampleContextSession.contextSaved exampleRate 0 3 2000).1.context_holders_ = [] ∧
    cancelsInvoked (exampleContextSession.contextSaved exampleRate 0 3 2000).2 = [61] ∧
    closuresRun (exampleContextSession.contextSaved exampleRate 0 3 2000).2 = [51] :=
  have h := (C28_context_holders exampleSession exampleFeatures exampleRate
    [SessionOp.AddContext exampleGreedyInput (some 41) (some 51) (some 61) 1000]
    exampleInput none 0 none none 2000 0 3 (by decide)).2.2.2.1 exampleHolder rfl
  ⟨rfl, h.1, h.2.1, h.2.2.1⟩

/-! ## Pruning the navigation history -/

end ml
